import Mathlib

/-!
Verification development for the nodekit engine of the Coin library
(src/src/nodekits/SoBaseKit.cpp).  The C++ scene graph is shallowly
embedded: nodes live in a heap indexed by numeric identities; a kit
instance carries its part slot table (the `instancelist` of SoSFNode
fields) and the per-slot default flags; the nodekit catalog is a table
of entries mirroring SoNodekitCatalogEntry.  All functions below are
direct transcriptions of the corresponding C++ functions, with line
references into SoBaseKit.cpp; the few pieces of behaviour that live
outside the given sources (SoNodeKitListPart, SoFieldData, the copy
dictionary of SoFieldContainer) are modelled from the specification and
say so in their doc comments.
-/

namespace Coin

/-- Status of one field of a node: its name, value, its isDefault flag and
whether it has an enabled connection (SoField::isConnectionEnabled() and
SoField::isConnected() combined into one flag). -/
structure FieldV where
  fname : String
  value : Int
  isDefault : Bool
  connected : Bool
deriving DecidableEq, Repr

/-- Scene graph object (SoNode).  `children` is the ordered child collection
(SoChildList); non-group nodes simply have an empty collection.  Kit
instances additionally use `slots` (the values of the instancelist fields)
and `defaults` (their isDefault flags).  List parts (SoNodeKitListPart) use
`container` for the container node and `itemTypes` for the locked set of
allowed child types. -/
structure NodeObj where
  typeId : Nat
  children : List Nat
  fields : List FieldV
  slots : List (Option Nat)
  defaults : List Bool
  container : Option Nat
  itemTypes : List Nat
deriving DecidableEq, Repr

instance : Inhabited NodeObj := ⟨⟨0, [], [], [], [], none, []⟩⟩

/-- Catalog entry (SoNodekitCatalogEntry): part name, declared type, default
concrete type, parent part number (0 is the kit itself), right sibling part
number (`none` encodes the C++ value -1), and the public/leaf/list/null
flags, plus the list container type and the allowed list item types. -/
structure CatEntry where
  name : String
  typeId : Nat
  defaultTypeId : Nat
  parentNum : Nat
  rightSibling : Option Nat
  isPublic : Bool
  isLeaf : Bool
  isList : Bool
  listContainerType : Nat
  listItemTypes : List Nat
  nullByDefault : Bool
deriving Repr

instance : Inhabited CatEntry :=
  ⟨⟨"", 0, 0, 0, none, false, true, false, 0, [], true⟩⟩

/-- Nodekit catalog (SoNodekitCatalog): the ordered entry table.  Entry 0 is
the "this" sentinel for the kit itself. -/
structure Catalog where
  entries : List CatEntry

/-- Entry lookup by index (out of range yields the dummy entry, modelling the
assertions the C++ catalog accessors perform). -/
def Catalog.entry (cat : Catalog) (i : Nat) : CatEntry :=
  cat.entries.getD i default

def Catalog.numEntries (cat : Catalog) : Nat := cat.entries.length

/-- SoNodekitCatalog::getPartNumber: name to index lookup; `none` encodes
SO_CATALOG_NAME_NOT_FOUND (-1). -/
def Catalog.getPartNumber (cat : Catalog) (nm : String) : Option Nat :=
  cat.entries.findIdx? (fun e => e.name == nm)

/-- Runtime type information: for every type identifier, the list of its
proper supertypes, plus the field layout (names and default values) a
freshly created instance of the type has. -/
structure TypeSys where
  ancestors : Nat → List Nat
  defaultFields : Nat → List FieldV

/-- SoType::isDerivedFrom: a type is derived from itself and from each of
its ancestors. -/
def TypeSys.isDerivedFrom (ts : TypeSys) (t base : Nat) : Bool :=
  t == base || (ts.ancestors t).contains base

/-- Reserved type identifier for SoGroup. -/
def SoGroupT : Nat := 1
/-- Reserved type identifier for SoSeparator. -/
def SoSeparatorT : Nat := 2
/-- Reserved type identifier for SoNodeKitListPart. -/
def SoNodeKitListPartT : Nat := 3
/-- Reserved type identifier for SoBaseKit. -/
def SoBaseKitT : Nat := 4

/-- World: the heap of nodes, the runtime type system, and the per-kit-type
catalog table (SoBaseKit::getNodekitCatalog resolved through the type of
the instance). -/
structure World where
  heap : List NodeObj
  ts : TypeSys
  catalogOf : Nat → Catalog

/-- Dereference a node id (out of range yields the dummy node, modelling the
fatal assertions on broken pointers). -/
def World.node (w : World) (i : Nat) : NodeObj := w.heap.getD i default

def World.setNode (w : World) (i : Nat) (obj : NodeObj) : World :=
  { w with heap := w.heap.set i obj }

/-- Allocation of a fresh node: its identity is the previous heap size. -/
def World.alloc (w : World) (obj : NodeObj) : Nat × World :=
  (w.heap.length, { w with heap := w.heap ++ [obj] })

/-- Catalog of the kit instance `kit` (getNodekitCatalog). -/
def World.catalogAt (w : World) (kit : Nat) : Catalog :=
  w.catalogOf (w.node kit).typeId

/-- Value of instancelist field number `i` of kit `kit`. -/
def World.slot (w : World) (kit i : Nat) : Option Nat :=
  ((w.node kit).slots.getD i none)

/-- The isDefault flag of instancelist field number `i` of kit `kit`. -/
def World.isDefaultF (w : World) (kit i : Nat) : Bool :=
  ((w.node kit).defaults.getD i true)

def World.setSlot (w : World) (kit i : Nat) (v : Option Nat) : World :=
  w.setNode kit { w.node kit with slots := (w.node kit).slots.set i v }

def World.setDefaultF (w : World) (kit i : Nat) (b : Bool) : World :=
  w.setNode kit { w.node kit with defaults := (w.node kit).defaults.set i b }

/-- Ordered child collection of a node (SoNode::getChildren). -/
def World.childrenOf (w : World) (parent : Nat) : List Nat :=
  (w.node parent).children

def World.setChildren (w : World) (parent : Nat) (l : List Nat) : World :=
  w.setNode parent { w.node parent with children := l }

/-- SoChildList::find — index of the first occurrence, `none` encodes -1. -/
def findIn (l : List Nat) (x : Nat) : Option Nat :=
  l.findIdx? (fun c => c == x)

/-- SoChildList::insert(node, idx): insert before position idx. -/
def insertAt (l : List Nat) (idx : Nat) (x : Nat) : List Nat :=
  l.take idx ++ x :: l.drop idx

/-- SoChildList::remove(idx). -/
def removeAt (l : List Nat) (idx : Nat) : List Nat :=
  l.take idx ++ l.drop (idx + 1)

/-- Walk of the right-sibling chain done by SoBaseKit::getRightSiblingIndex
(SoBaseKit.cpp 2268-2281): follow getRightSiblingPartNumber links until a
part with a non-NULL instance is found or the chain ends.  The fuel bounds
the walk; for a well-formed (acyclic) catalog a fuel of `numEntries` never
runs out, while on a cyclic catalog the C++ loop would not terminate. -/
def siblingWalk (w : World) (kit : Nat) (cat : Catalog) :
    Nat → Option Nat → Option Nat
  | _, none => none
  | 0, some _ => none
  | fuel + 1, some s =>
      if (w.slot kit s).isSome then some s
      else siblingWalk w kit cat fuel (cat.entry s).rightSibling

/-- SoBaseKit::getRightSiblingIndex (SoBaseKit.cpp 2268-2281): part number of
the nearest existing right sibling, `none` encodes -1. -/
def getRightSiblingIndex (w : World) (kit : Nat) (partnum : Nat) : Option Nat :=
  let cat := w.catalogAt kit
  siblingWalk w kit cat cat.numEntries (cat.entry partnum).rightSibling

/-- Modelled from the spec: SoType::createInstance and the node constructors
are outside src/.  A freshly created instance is a blank node of the given
type: no children, fields at their per-type defaults, and (for kit types)
one empty, default-flagged slot per catalog entry.  Default parts that a
kit constructor would build eagerly are not modelled; the worlds used below
only contain catalogs whose parts are created lazily. -/
def blankNode (w : World) (t : Nat) : NodeObj :=
  { typeId := t
    children := []
    fields := w.ts.defaultFields t
    slots := List.replicate (w.catalogOf t).numEntries none
    defaults := List.replicate (w.catalogOf t).numEntries true
    container := none
    itemTypes := [] }

/-- Allocation of a fresh blank instance of a type. -/
def createInstance (w : World) (t : Nat) : Nat × World :=
  w.alloc (blankNode w t)

/-- Request type for the mutually recursive pair
SoBaseKit::makePart / SoBaseKit::setPart. -/
inductive PartReq where
  | makeR (w : World) (kit : Nat) (partnum : Nat)
  | setR (w : World) (kit : Nat) (partnum : Nat) (nd : Option Nat)

def PartReq.world : PartReq → World
  | .makeR w _ _ => w
  | .setR w _ _ _ => w

/-- Combined transcription of SoBaseKit::makePart (SoBaseKit.cpp 2167-2188)
and SoBaseKit::setPart(const int, SoNode *) (SoBaseKit.cpp 2198-2263),
with the mutual recursion (setPart builds a missing parent via makePart,
makePart splices via setPart) realized through a structural fuel; the
fuel never runs out when the catalog respects the invariant that a parent
entry precedes its children (the wrappers below supply enough fuel for
every such catalog; the C++ would not terminate otherwise).

The makeR case instantiates the default type of the catalog entry; for a
list entry it attaches the container of the declared container type and
locks the allowed item types (the SoNodeKitListPart internals are outside
src/ and modelled from the spec's ListPart description); then it splices
the new node in via setPart.

The setR case transcribes setPart step by step: the type check on a
non-null node (2205-2215); parent resolution with recursive construction
of a missing parent (2216-2225); the no-op early return when the part is
already inserted (2230); the structural aliasing guard (2232-2242);
in-place replacement or removal of a previous component (2244-2249);
insertion before the nearest existing right sibling, or appending
(2250-2258); and the final field update, which per SoSField::setValue
clears the field's default flag (2261).  The C++ assertions are modelled
as failure returns. -/
def partOp : Nat → PartReq → Bool × World
  | 0, req => (false, req.world)
  | fuel + 1, .makeR w kit partnum =>
      if 0 < partnum ∧ partnum < (w.node kit).slots.length then
        let cat := w.catalogAt kit
        let e := cat.entry partnum
        let (nid, w1) := createInstance w e.defaultTypeId
        let w2 :=
          if e.isList then
            let (cid, wa) := w1.alloc
              { typeId := e.listContainerType
                children := []
                fields := w1.ts.defaultFields e.listContainerType
                slots := []
                defaults := []
                container := none
                itemTypes := [] }
            wa.setNode nid
              { wa.node nid with
                  container := some cid
                  itemTypes := e.listItemTypes
                  children := [cid] }
          else w1
        partOp fuel (.setR w2 kit partnum (some nid))
      else (false, w)
  | fuel + 1, .setR w kit partnum nd =>
      if 0 < partnum ∧ partnum < (w.node kit).slots.length then
        let cat := w.catalogAt kit
        let e := cat.entry partnum
        let typeok : Bool :=
          match nd with
          | some n => w.ts.isDerivedFrom (w.node n).typeId e.typeId
          | none => true
        if typeok then
          let pr : Option Nat × World :=
            if e.parentNum == 0 then (some kit, w)
            else
              match w.slot kit e.parentNum with
              | some p => (some p, w)
              | none =>
                  let (_, w1) := partOp fuel (.makeR w kit e.parentNum)
                  (w1.slot kit e.parentNum, w1)
          match pr with
          | (none, w1) => (false, w1)
          | (some parent, w1) =>
              let childlist := w1.childrenOf parent
              let old := w1.slot kit partnum
              if old == nd then (true, w1)
              else if (match nd with
                       | some n => childlist.contains n
                       | none => false) then (false, w1)
              else
                match old with
                | some oldnd =>
                    match findIn childlist oldnd with
                    | some oldIdx =>
                        let w2 :=
                          match nd with
                          | some n => w1.setChildren parent (childlist.set oldIdx n)
                          | none => w1.setChildren parent (removeAt childlist oldIdx)
                        (true, ((w2.setSlot kit partnum nd).setDefaultF kit partnum false))
                    | none => (false, w1)
                | none =>
                    match nd with
                    | some n =>
                        let w2 :=
                          match getRightSiblingIndex w1 kit partnum with
                          | some sib =>
                              match w1.slot kit sib with
                              | some sibnode =>
                                  match findIn childlist sibnode with
                                  | some idx =>
                                      some (w1.setChildren parent (insertAt childlist idx n))
                                  | none => none
                              | none => none
                          | none => some (w1.setChildren parent (childlist ++ [n]))
                        match w2 with
                        | some w2 =>
                            (true, ((w2.setSlot kit partnum nd).setDefaultF kit partnum false))
                        | none => (false, w1)
                    | none =>
                        (true, ((w1.setSlot kit partnum nd).setDefaultF kit partnum false))
        else (false, w)
      else (false, w)

/-- SoBaseKit::makePart, with fuel covering the ancestor chain (an
ancestor's catalog index is smaller than its descendant's, so 2·partnum+2
levels always suffice). -/
def makePart (w : World) (kit : Nat) (partnum : Nat) : Bool × World :=
  partOp (2 * partnum + 2) (.makeR w kit partnum)

/-- SoBaseKit::setPart(const int, SoNode *), with fuel covering the
ancestor chain. -/
def setPart (w : World) (kit : Nat) (partnum : Nat) (nd : Option Nat) :
    Bool × World :=
  partOp (2 * partnum + 2) (.setR w kit partnum nd)

/-- Part number as the C++ int returned by getPartNumber, with -1 for
SO_CATALOG_NAME_NOT_FOUND. -/
def catPartNumberI (cat : Catalog) (nm : String) : Int :=
  match cat.getPartNumber nm with
  | some i => (i : Int)
  | none => -1

/-- Filter of one pass of SoBaseKitP::createWriteData (SoBaseKit.cpp
2314-2338): the private-part skip followed by the per-pass condition
(pass 0 takes non-part fields, pass 1 public leaf parts, pass 2 public
non-leaf parts). -/
def writePassKeep (cat : Catalog) (pass : Nat) (nm : String) : Bool :=
  let part := catPartNumberI cat nm
  if part > 0 && !(cat.entry part.toNat).isPublic then false
  else
    (pass == 0 && part < 0) ||
    (pass == 1 && part > 0 && (cat.entry part.toNat).isLeaf) ||
    (pass == 2 && part > 0 && !(cat.entry part.toNat).isLeaf)

/-- Inner loop of one pass of SoBaseKitP::createWriteData: walk the field
names in declaration order and keep those the pass collects. -/
def writePassCollect (cat : Catalog) (pass : Nat) : List String → List String
  | [] => []
  | nm :: rest =>
      if writePassKeep cat pass nm then nm :: writePassCollect cat pass rest
      else writePassCollect cat pass rest

/-- SoBaseKitP::createWriteData (SoBaseKit.cpp 2314-2338): the reordered
field table built during the COUNT_REFS stage, as the concatenation of the
three passes over the declared field list. -/
def createWriteData (cat : Catalog) (fieldnames : List String) : List String :=
  writePassCollect cat 0 fieldnames ++
  writePassCollect cat 1 fieldnames ++
  writePassCollect cat 2 fieldnames

/-- Field list of a kit instance as used by the write pipeline: the part
fields, named after their catalog entries, in declaration order.  (Non-part
member fields of kit subclasses carry no part flags and play no role in the
part-default bookkeeping modelled here.) -/
def kitFieldNames (w : World) (kit : Nat) : List String :=
  ((w.catalogAt kit).entries.drop 1).map (fun e => e.name)

/-- Helper loop: apply `f` to the part indices `i, i+1, ..., i+k-1` in
order, threading the world, exactly like the C++ `for` loops over the
instancelist. -/
def foldRange (f : World → Nat → World) : World → Nat → Nat → World
  | w, _, 0 => w
  | w, i, k + 1 => foldRange f (f w i) (i + 1) k

/-- is_default_node (SoBaseKit.cpp 1044-1066): a node need not be written
when its type is exactly `typecheck`, it has no children, and every field
is at its default, unconnected, and equal to the corresponding field of a
freshly created `typecheck` instance. -/
def is_default_node (w : World) (nid : Nat) (typecheck : Nat) : Bool :=
  let node := w.node nid
  if node.typeId != typecheck then false
  else if node.children.length != 0 then false
  else
    (node.fields.zip (w.ts.defaultFields typecheck)).all
      (fun fd => fd.1.isDefault && !fd.1.connected && fd.1.value == fd.2.value)

/-- First flag fixup of SoBaseKit::countMyFields (SoBaseKit.cpp 1150-1159):
a default part field whose value is NULL while the catalog does not mark
the part nullByDefault is switched to non-default. -/
def countFixNullParts (w : World) (kit : Nat) : World :=
  foldRange
    (fun w i =>
      if w.isDefaultF kit i && (w.slot kit i).isNone &&
         !((w.catalogAt kit).entry i).nullByDefault then
        w.setDefaultF kit i false
      else w)
    w 1 ((w.node kit).slots.length - 1)

/-- Body of one iteration of SoBaseKit::setDefaultOnNonWritingFields
(SoBaseKit.cpp 1231-1276): a non-default part field is re-marked default
when (first test) its value is NULL and the part is nullByDefault; or
(second test) it is a leaf whose node is exactly an SoGroup or SoSeparator
with no children; or (third test) it is a leaf SoNodeKitListPart with no
children and a plain SoGroup or SoSeparator container; or (fourth test) it
is a non-leaf part whose node is SoGroup-derived and is_default_node. -/
def sdonwfStep (w : World) (kit : Nat) (i : Nat) : World :=
  let cat := w.catalogAt kit
  if !(w.isDefaultF kit i) then
    match w.slot kit i with
    | none =>
        if (cat.entry i).nullByDefault then w.setDefaultF kit i true else w
    | some nid =>
        let node := w.node nid
        if (cat.entry i).isLeaf then
          if (node.typeId == SoGroupT || node.typeId == SoSeparatorT) &&
             node.children.length == 0 then
            w.setDefaultF kit i true
          else if node.typeId == SoNodeKitListPartT then
            match node.container with
            | some c =>
                if (w.node c).children.length == 0 &&
                   ((w.node c).typeId == SoSeparatorT ||
                    (w.node c).typeId == SoGroupT) then
                  w.setDefaultF kit i true
                else w
            | none => w
          else w
        else
          if w.ts.isDerivedFrom node.typeId SoGroupT &&
             is_default_node w nid node.typeId then
            w.setDefaultF kit i true
          else w
  else w

/-- SoBaseKit::setDefaultOnNonWritingFields (SoBaseKit.cpp 1231-1276): the
loop over all part fields applying the four suppression tests. -/
def setDefaultOnNonWritingFields (w : World) (kit : Nat) : World :=
  foldRange (fun w i => sdonwfStep w kit i) w 1 ((w.node kit).slots.length - 1)

/-- Modelled from the spec: SoFieldData::getIndex is not under src/; the
reordered field table stores field names here, and the index of a part
field in it is the position of the part's catalog name (`none` encodes
-1). -/
def fieldDataGetIndex (writedata : List String) (nm : String) : Option Nat :=
  writedata.findIdx? (fun s => s == nm)

/-- Body of one iteration of SoBaseKitP::testParentWrite (SoBaseKit.cpp
2344-2370): a default part field holding a non-NULL node, whose parent is
itself a part (parent number > 0) with a non-NULL, non-default instance
present in the reordered field table, is forced to non-default. -/
def testParentWriteStep (w : World) (kit : Nat) (writedata : List String)
    (i : Nat) : World :=
  let cat := w.catalogAt kit
  if w.isDefaultF kit i then
    match w.slot kit i with
    | some _ =>
        let parent := (cat.entry i).parentNum
        if parent > 0 then
          match w.slot kit parent with
          | some _ =>
              if !(w.isDefaultF kit parent) &&
                 (fieldDataGetIndex writedata (cat.entry parent).name).isSome then
                w.setDefaultF kit i false
              else w
          | none => w
        else w
    | none => w
  else w

/-- SoBaseKitP::testParentWrite (SoBaseKit.cpp 2344-2370): the loop over all
part fields forcing parts whose parent part is going to be written. -/
def testParentWrite (w : World) (kit : Nat) (writedata : List String) : World :=
  foldRange (fun w i => testParentWriteStep w kit writedata i) w 1
    ((w.node kit).slots.length - 1)

/-- Default-flag bookkeeping of SoBaseKit::countMyFields during the
COUNT_REFS stage (SoBaseKit.cpp 1136-1195), in source order: build the
reordered field table (createWriteData), un-default NULL parts that are not
nullByDefault, run setDefaultOnNonWritingFields, then testParentWrite.  The
result is the world with the final flags plus the reordered table. -/
def countMyFieldsFlags (w : World) (kit : Nat) : World × List String :=
  let wd := createWriteData (w.catalogAt kit) (kitFieldNames w kit)
  let w1 := countFixNullParts w kit
  let w2 := setDefaultOnNonWritingFields w1 kit
  let w3 := testParentWrite w2 kit wd
  (w3, wd)

/-- Number of children of a list part (SoNodeKitListPart::getNumChildren):
the length of the container's child collection. -/
def listNumChildren (w : World) (listnode : Nat) : Nat :=
  match (w.node listnode).container with
  | some c => (w.node c).children.length
  | none => 0

/-- Child of a list part by index (SoNodeKitListPart::getChild). -/
def listGetChild (w : World) (listnode : Nat) (i : Nat) : Option Nat :=
  match (w.node listnode).container with
  | some c => (w.node c).children.get? i
  | none => none

/-- Modelled from the spec: SoNodeKitListPart::canCreateDefaultChild is not
under src/; a default child can be created when the locked allowed-item-type
set is non-empty. -/
def canCreateDefaultChild (w : World) (listnode : Nat) : Bool :=
  !(w.node listnode).itemTypes.isEmpty && (w.node listnode).container.isSome

/-- Modelled from the spec: SoNodeKitListPart::createAndAddDefaultChild is
not under src/; it instantiates the first locked allowed item type and
appends the new node to the container's child collection (append is the
only permitted insertion position). -/
def createAndAddDefaultChild (w : World) (listnode : Nat) : Option Nat × World :=
  match (w.node listnode).itemTypes with
  | [] => (none, w)
  | t :: _ =>
      match (w.node listnode).container with
      | none => (none, w)
      | some c =>
          let (nid, w1) := createInstance w t
          (some nid, w1.setChildren c ((w1.node c).children ++ [nid]))

/-- Intermediate list segment step of SoBaseKit::findPart (SoBaseKit.cpp
2130-2152): an index outside [0, numlistchildren], or equal to
numlistchildren without makeifneeded, fails; every other case runs
createAndAddDefaultChild — the source's own comment claims this branch is
only reached when listidx == numlistchildren && makeifneeded, but the
branch is in fact also reached when 0 <= listidx < numlistchildren — and
then steps into the child at listidx. -/
def listStepInto (w : World) (listnode : Nat) (make : Bool) (listidx : Int) :
    Option Nat × World :=
  let num : Int := (listNumChildren w listnode : Int)
  if listidx < 0 || listidx > num || (!make && listidx == num) then (none, w)
  else
    let (_, w1) := createAndAddDefaultChild w listnode
    match listGetChild w1 listnode listidx.toNat with
    | some pn => (some pn, w1)
    | none => (none, w1)

/-- Terminal list access of SoBaseKit::getAnyPart (SoBaseKit.cpp 1644-1668):
an index in [0, numChildren) returns the existing child and creates
nothing; index == numChildren with makeifneeded appends one default child;
everything else fails. -/
def terminalListGet (w : World) (listnode : Nat) (make : Bool) (listidx : Int) :
    Option Nat × World :=
  let num : Int := (listNumChildren w listnode : Int)
  if 0 ≤ listidx && listidx < num then (listGetChild w listnode listidx.toNat, w)
  else if make && listidx == num then createAndAddDefaultChild w listnode
  else (none, w)

/-- Value of the base-10 digit run at the front of the input (strtol loop). -/
def digitsVal : List Char → Nat → Nat
  | c :: rest, acc =>
      if '0' ≤ c && c ≤ '9' then
        digitsVal rest (acc * 10 + (c.toNat - '0'.toNat))
      else acc
  | [], acc => acc

/-- strtol as used on the text after '[' in findPart: an optional minus sign
followed by a digit run (no digits parse as 0, as strtol does). -/
def parseIntL (s : List Char) : Int :=
  match s with
  | '-' :: rest => -((digitsVal rest 0 : Nat) : Int)
  | _ => ((digitsVal s 0 : Nat) : Int)

/-- Result tuple of SoBaseKit::findPart: the return value plus the
reference parameters kit, partnum, islist and listidx. -/
structure FPRes where
  found : Bool
  w : World
  kit : Nat
  partnum : Nat
  islist : Bool
  listidx : Int

/-- Request type for SoBaseKit::findPart: either a resolution call or a
position inside the leaf-nodekit search loop. -/
inductive FPReq where
  | find (w : World) (kit : Nat) (partname : List Char) (make recsearch : Bool)
  | search (w : World) (orgkit : Nat) (partname : List Char)
      (make recsearch : Bool) (is : List Nat)

def FPReq.world : FPReq → World
  | .find w _ _ _ _ => w
  | .search w _ _ _ _ _ => w

def FPReq.kit0 : FPReq → Nat
  | .find _ kit _ _ _ => kit
  | .search _ orgkit _ _ _ _ => orgkit

/-- SoBaseKit::findPart (SoBaseKit.cpp 2014-2161), for the path == NULL
callers (every caller relevant below passes NULL).  The find case
transcribes: the "this" special case (2030-2034); the split of the first
segment at the first period and optional bracket (2036-2061); catalog
lookup of the first segment, with the recursive search of leaf nodekits
on failure (2063-2092); optional construction of the part (2098-2100);
termination at a single segment (2122-2125); and recursion into the
sub-kit for the remainder, stepping through the indexed list child for a
list segment (2126-2161).  The search case is the loop of 2065-2091: for
every leaf catalog entry of nodekit type, build it if absent, try to
resolve the full partname inside it, and on failure remove it again if
it was built solely for this probe; when the loop ends, the kit reference
is restored to the original kit and the search fails.  The C++ assertions
(partnum within the instancelist, nodes being of nodekit type) are
modelled as failure returns; the structural fuel bounds the recursion
depth and never runs out when it exceeds the path's segment count plus
the number of kit instances the search can descend through. -/
def findPartAux : Nat → FPReq → FPRes
  | 0, req => ⟨false, req.world, req.kit0, 0, false, 0⟩
  | fuel + 1, .find w kit partname make recsearch =>
      if partname == ['t', 'h', 'i', 's'] then ⟨true, w, kit, 0, false, 0⟩
      else
        let periodpos := partname.findIdx? (fun c => c == '.')
        let bracketpos0 := partname.findIdx? (fun c => c == '[')
        let bracketpos :=
          match periodpos, bracketpos0 with
          | some pp, some bp => if bp > pp then none else some bp
          | _, _ => bracketpos0
        let fil : List Char × Bool × Int :=
          match bracketpos with
          | some bp => (partname.take bp, true, parseIntL (partname.drop (bp + 1)))
          | none =>
              match periodpos with
              | some pp => (partname.take pp, false, 0)
              | none => (partname, false, 0)
        let firstpart := fil.1
        let islist := fil.2.1
        let listidx := fil.2.2
        let cat := w.catalogAt kit
        match cat.getPartNumber (String.mk firstpart) with
        | none =>
            if recsearch then
              findPartAux fuel (.search w kit partname make recsearch
                ((List.range (w.node kit).slots.length).drop 1))
            else ⟨false, w, kit, 0, islist, listidx⟩
        | some partnum =>
            if partnum ≥ (w.node kit).slots.length then
              ⟨false, w, kit, partnum, islist, listidx⟩
            else
              let w1 :=
                if make && (w.slot kit partnum).isNone then
                  (makePart w kit partnum).2
                else w
              match periodpos with
              | none => ⟨true, w1, kit, partnum, islist, listidx⟩
              | some pp =>
                  match w1.slot kit partnum with
                  | none => ⟨false, w1, kit, partnum, islist, listidx⟩
                  | some node =>
                      let newpart := partname.drop (pp + 1)
                      if islist then
                        match listStepInto w1 node make listidx with
                        | (none, w2) => ⟨false, w2, kit, partnum, islist, listidx⟩
                        | (some pn, w2) =>
                            if w2.ts.isDerivedFrom (w2.node pn).typeId SoBaseKitT then
                              findPartAux fuel (.find w2 pn newpart make recsearch)
                            else ⟨false, w2, kit, partnum, islist, listidx⟩
                      else
                        if w1.ts.isDerivedFrom (w1.node node).typeId SoBaseKitT then
                          findPartAux fuel (.find w1 node newpart make recsearch)
                        else ⟨false, w1, kit, partnum, islist, listidx⟩
  | fuel + 1, .search w orgkit partname make recsearch is =>
      match is with
      | [] => ⟨false, w, orgkit, 0, false, 0⟩
      | i :: rest =>
          let cat := w.catalogAt orgkit
          if (cat.entry i).isLeaf &&
             w.ts.isDerivedFrom (cat.entry i).typeId SoBaseKitT then
            let didexist := (w.slot orgkit i).isSome
            let w1 := if didexist then w else (makePart w orgkit i).2
            match w1.slot orgkit i with
            | none => ⟨false, w1, orgkit, 0, false, 0⟩
            | some subkit =>
                let r := findPartAux fuel (.find w1 subkit partname make recsearch)
                if r.found then r
                else
                  if !didexist then
                    let (_, w2) := setPart r.w orgkit i none
                    findPartAux fuel (.search w2 orgkit partname make recsearch rest)
                  else
                    findPartAux fuel (.search r.w orgkit partname make recsearch rest)
          else findPartAux fuel (.search w orgkit partname make recsearch rest)

/-- Fuel sufficient for the resolutions below: one unit per path segment,
per kit instance the search can descend through and per loop position. -/
def findPartFuel (w : World) (s : List Char) : Nat :=
  (w.heap.length + s.length + 2) * (w.heap.length + s.length + 2)

/-- SoBaseKit::findPart with the standard fuel. -/
def findPart (w : World) (kit : Nat) (partname : List Char)
    (make recsearch : Bool) : FPRes :=
  findPartAux (findPartFuel w partname) (.find w kit partname make recsearch)

/-- SoBaseKit::getAnyPart (SoBaseKit.cpp 1629-1689): resolve via findPart
(with recursive search enabled), then apply the public check and the leaf
check, and finally read the resolved slot — through terminalListGet for a
list segment.  Any failure returns NULL while keeping the world left
behind by findPart: the source only carries a FIXME about running cleanup
for parts created during the search (1676-1678). -/
def getAnyPart (w : World) (kit : Nat) (partname : List Char)
    (make leafcheck publiccheck : Bool) : Option Nat × World :=
  let r := findPart w kit partname make true
  if r.found then
    let cat := r.w.catalogAt r.kit
    if !publiccheck || (cat.entry r.partnum).isPublic then
      if !leafcheck || (cat.entry r.partnum).isLeaf then
        if r.islist then
          match r.w.slot r.kit r.partnum with
          | none => (none, r.w)
          | some pn => terminalListGet r.w pn make r.listidx
        else (r.w.slot r.kit r.partnum, r.w)
      else (none, r.w)
    else (none, r.w)
  else (none, r.w)

/-- SoBaseKit::getPart (SoBaseKit.cpp 668-672): getAnyPart with both the
leaf check and the public check enabled. -/
def getPart (w : World) (kit : Nat) (partname : List Char) (make : Bool) :
    Option Nat × World :=
  getAnyPart w kit partname make true true

/-- coin_isspace as used by skip_spaces and find_partname_length: the
locale-independent whitespace set. -/
def coinIsSpace (c : Char) : Bool :=
  c == ' ' || c == '\t' || c == '\n' || c == '\r' || c == '\x0b' || c == '\x0c'

/-- skip_spaces (SoBaseKit.cpp 763-774). -/
def skipSpaces (s : List Char) : List Char :=
  s.dropWhile coinIsSpace

/-- find_partname_length (SoBaseKit.cpp 776-785): the partname lexer stops
at the end of input, whitespace, an opening brace or a closing brace. -/
def findPartnameLength (s : List Char) : Nat :=
  (s.takeWhile (fun c => !coinIsSpace c && c != '\x7b' && c != '\x7d')).length

/-- Leading digit run of the input. -/
def takeDigits (s : List Char) : List Char :=
  s.takeWhile (fun c => '0' ≤ c && c ≤ '9')

/-- Integer token of the field-value sub-parser: an optional minus sign
followed by at least one digit; returns the value and the rest. -/
def parseIntTok (s : List Char) : Option (Int × List Char) :=
  match s with
  | '-' :: rest =>
      let ds := takeDigits rest
      if ds.isEmpty then none
      else some (-((digitsVal ds 0 : Nat) : Int), rest.drop ds.length)
  | _ =>
      let ds := takeDigits s
      if ds.isEmpty then none
      else some (((digitsVal ds 0 : Nat) : Int), s.drop ds.length)

/-- Assignment of a named field of a node: succeeds only when the node
declares a field of that name, updating its value and clearing its
default flag. -/
def setNodeField (w : World) (nid : Nat) (nm : String) (v : Int) :
    Option World :=
  let node := w.node nid
  if node.fields.any (fun f => f.fname == nm) then
    some (w.setNode nid
      { node with
          fields := node.fields.map
            (fun f =>
              if f.fname == nm then { f with value := v, isDefault := false }
              else f) })
  else none

/-- Modelled from the spec: SoFieldData::read (the minimal field-value
sub-parser, outside src/) reads whitespace-separated fieldname/value pairs
and applies each to the node, stopping in front of the block's closing
brace (which the caller consumes) or at the end of input; an unknown field
name or a malformed value fails, keeping the assignments already applied.
Returns success, the unconsumed rest of the input, and the world. -/
def readFieldsGo : Nat → World → Nat → List Char → Bool × List Char × World
  | 0, w, _, s => (false, s, w)
  | fuel + 1, w, nid, s =>
      let s1 := skipSpaces s
      match s1 with
      | [] => (true, s1, w)
      | '\x7d' :: _ => (true, s1, w)
      | _ =>
          let identlen := findPartnameLength s1
          if identlen == 0 then (false, s1, w)
          else
            let ident := String.mk (s1.take identlen)
            let s2 := skipSpaces (s1.drop identlen)
            match parseIntTok s2 with
            | none => (false, s2, w)
            | some (v, s3) =>
                match setNodeField w nid ident v with
                | none => (false, s3, w)
                | some w1 => readFieldsGo fuel w1 nid s3

/-- Field sub-parser with sufficient fuel (one unit per pair suffices). -/
def readFields (w : World) (nid : Nat) (s : List Char) :
    Bool × List Char × World :=
  readFieldsGo (s.length + 1) w nid s

/-- Outcome of one iteration of the while loop of
SoBaseKit::set(const char *). -/
inductive BlockRes where
  | empty : BlockRes
  | fail : World → BlockRes
  | ok : World → List Char → BlockRes

/-- Body of the while loop of SoBaseKit::set(const char *) (SoBaseKit.cpp
816-893): lex the partname; fail unless the next non-space character is an
opening brace; resolve the partname with makeifneeded and the leaf-kit
search enabled, failing if not found; clear the resolved field's default
flag; for a list segment check the index bounds, append one default child
when the index equals the child count, fail otherwise out of bounds;
then run the field sub-parser on the text after the brace and consume the
closing brace.  Every failure keeps the effects already applied. -/
def processBlock (w : World) (kit : Nat) (s : List Char) : BlockRes :=
  let s0 := skipSpaces s
  match s0 with
  | [] => .empty
  | _ =>
      let pnlen := findPartnameLength s0
      match skipSpaces (s0.drop pnlen) with
      | '\x7b' :: afterBrace =>
          let partname := s0.take pnlen
          let r := findPart w kit partname true true
          if !r.found then .fail r.w
          else
            let w1 := r.w.setDefaultF r.kit r.partnum false
            match w1.slot r.kit r.partnum with
            | none => .fail w1
            | some node0 =>
                let nodeRes : Option (Nat × World) :=
                  if r.islist then
                    let num : Int := (listNumChildren w1 node0 : Int)
                    if r.listidx < 0 || r.listidx > num then none
                    else if r.listidx == num then
                      if !canCreateDefaultChild w1 node0 then none
                      else
                        match createAndAddDefaultChild w1 node0 with
                        | (some ch, w2) => some (ch, w2)
                        | (none, _) => none
                    else
                      match listGetChild w1 node0 r.listidx.toNat with
                      | some ch => some (ch, w1)
                      | none => none
                  else some (node0, w1)
                match nodeRes with
                | none => .fail w1
                | some (nd, w2) =>
                    match readFields w2 nd afterBrace with
                    | (false, _, w3) => .fail w3
                    | (true, rem, w3) =>
                        let rem2 :=
                          match rem with
                          | '\x7d' :: t => t
                          | _ => rem
                        .ok w3 rem2
      | _ => .fail w

/-- While loop of SoBaseKit::set(const char *) (SoBaseKit.cpp 816-893):
process blocks until the input is exhausted (success) or a block fails
(immediate failure, earlier blocks keep their effects).  The fuel bounds
the number of blocks. -/
def setGo : Nat → World → Nat → List Char → Bool × World
  | 0, w, _, _ => (false, w)
  | fuel + 1, w, kit, s =>
      match processBlock w kit s with
      | .empty => (true, w)
      | .fail w1 => (false, w1)
      | .ok w1 rest => setGo fuel w1 kit rest

/-- SoBaseKit::set(const char *) with sufficient fuel (every block consumes
at least its opening brace). -/
def setNVPairs (w : World) (kit : Nat) (s : List Char) : Bool × World :=
  setGo (s.length + 1) w kit s

/-- Nodes visited by SoBaseKit::addToCopyDict starting from the source
kit's part slots, for the worlds considered here (parts that are plain
nodes whose children are their sub-parts, and list parts with a container
of plain item children): every part node, plus for list parts the
container and its children.  May contain duplicates; the copy dictionary
is built over the deduplicated list. -/
def copySupport (w : World) (srckit : Nat) : List Nat :=
  ((w.node srckit).slots.drop 1).foldr
    (fun s acc =>
      match s with
      | some x =>
          x :: (match (w.node x).container with
                | some c => c :: (w.node c).children
                | none => []) ++ acc
      | none => acc) []

/-- Copy dictionary over a support list: the copy of the node `x` is the
blank instance allocated at `base` plus the position of `x` in the
support. -/
def dictOf (base : Nat) (rs : List Nat) (x : Nat) : Option Nat :=
  (rs.findIdx? (fun y => y == x)).map (fun i => base + i)

/-- Request type for the node-content copy: one node pair or a child
list. -/
inductive FillReq where
  | one (src dst : Nat)
  | many (cs : List Nat)

/-- Modelled from the spec: the node-level copyContents of the external
node classes (SoNode, SoGroup, SoNodeKitListPart — outside src/) copies
the source's fields and children into the destination copy, mapping every
child through the copy dictionary so that parts-of-parts point into the
already-copied subgraph instead of being re-copied, and recursively
filling in the contents of each child's copy.  The structural fuel bounds
the recursion and never runs out when it exceeds the subgraph size. -/
def fillCopyAux (dict : Nat → Option Nat) : Nat → World → FillReq → World
  | 0, w, _ => w
  | fuel + 1, w, .one src dst =>
      let sn := w.node src
      let w1 := w.setNode dst
        { w.node dst with
            fields := sn.fields
            children := sn.children.map (fun c => (dict c).getD c)
            container := sn.container.map (fun c => (dict c).getD c)
            itemTypes := sn.itemTypes }
      fillCopyAux dict fuel w1 (.many sn.children)
  | _ + 1, w, .many [] => w
  | fuel + 1, w, .many (c :: rest) =>
      let w1 :=
        match dict c with
        | some cc => fillCopyAux dict fuel w (.one c cc)
        | none => w
      fillCopyAux dict fuel w1 (.many rest)

/-- Content copy of one node pair with the given fuel. -/
def fillCopy (dict : Nat → Option Nat) (fuel : Nat) (w : World)
    (src dst : Nat) : World :=
  fillCopyAux dict fuel w (.one src dst)

/-- First pass of SoBaseKitP::copyParts (SoBaseKit.cpp 2383-2394): for
every part whose catalog parent is the kit itself, deep-copy the source
part node's contents into the destination part node (which the copy
dictionary pass already allocated) and record it in the part list.  The
C++ assertions are modelled as skips. -/
def copyPassA (dict : Nat → Option Nat) (ffuel : Nat) (dstkit srckit : Nat) :
    List Nat → World × List (Option Nat) → World × List (Option Nat)
  | [], st => st
  | i :: rest, (w, pl) =>
      let cat := w.catalogAt dstkit
      match w.slot dstkit i with
      | some dstnode =>
          if (cat.entry i).parentNum == 0 then
            match w.slot srckit i with
            | some srcnode =>
                let w1 := fillCopy dict ffuel w srcnode dstnode
                copyPassA dict ffuel dstkit srckit rest (w1, pl.set i (some dstnode))
            | none => copyPassA dict ffuel dstkit srckit rest (w, pl)
          else copyPassA dict ffuel dstkit srckit rest (w, pl)
      | none => copyPassA dict ffuel dstkit srckit rest (w, pl)

/-- Second pass of SoBaseKitP::copyParts (SoBaseKit.cpp 2395-2420): for
every part whose parent is itself a part, locate the source part node's
position inside the source parent's child collection by identity, and take
the already-copied node at the same position of the destination parent's
child collection as this part's copy.  The C++ assertions are modelled as
skips. -/
def copyPassB (dstkit srckit : Nat) :
    List Nat → World × List (Option Nat) → World × List (Option Nat)
  | [], st => st
  | i :: rest, (w, pl) =>
      let cat := w.catalogAt dstkit
      let parent := (cat.entry i).parentNum
      if parent > 0 && (w.slot dstkit i).isSome then
        match w.slot srckit parent, pl.getD parent none, w.slot srckit i with
        | some srcgroup, some dstgroup, some srcchild =>
            (match findIn (w.childrenOf srcgroup) srcchild with
             | some childidx =>
                 match (w.childrenOf dstgroup).get? childidx with
                 | some child => copyPassB dstkit srckit rest (w, pl.set i (some child))
                 | none => copyPassB dstkit srckit rest (w, pl)
             | none => copyPassB dstkit srckit rest (w, pl))
        | _, _, _ => copyPassB dstkit srckit rest (w, pl)
      else copyPassB dstkit srckit rest (w, pl)

/-- SoBaseKitP::copyParts (SoBaseKit.cpp 2372-2421): the two passes over
the catalog. -/
def copyParts (dict : Nat → Option Nat) (ffuel : Nat) (dstkit srckit : Nat)
    (idxs : List Nat) (w : World) (pl : List (Option Nat)) :
    World × List (Option Nat) :=
  copyPassB dstkit srckit idxs (copyPassA dict ffuel dstkit srckit idxs (w, pl))

/-- SoBaseKitP::setParts (SoBaseKit.cpp 2423-2445): install the part list
entries whose leaf flag matches the pass, clearing the children of
non-leaf parts first (the correct children are re-added when the child
parts are set), through SoBaseKit::setPart. -/
def setPartsGo (dstkit : Nat) (pl : List (Option Nat)) (leafparts : Bool) :
    List Nat → World → World
  | [], w => w
  | i :: rest, w =>
      match pl.getD i none with
      | some node =>
          let leaftst := ((w.catalogAt dstkit).entry i).isLeaf
          if leaftst == leafparts then
            let w1 := if !leaftst then w.setChildren node [] else w
            setPartsGo dstkit pl leafparts rest (setPart w1 dstkit i (some node)).2
          else setPartsGo dstkit pl leafparts rest w
      | none => setPartsGo dstkit pl leafparts rest w

/-- SoBaseKit::copyContents (SoBaseKit.cpp 1539-1603) together with the
copy-dictionary phase that precedes it.  The phase marked "modelled"
stands for SoBaseKit::addToCopyDict (1518-1536) plus the inherited base
field copy, which live partly outside src/: one blank instance per
support node is allocated, the destination's part fields become the
dictionary images of the source's part fields, and the field default
flags are copied from the source.  The remainder transcribes
copyContents itself: save the per-part default flags into flaglist and
initialize partlist (1560-1571); copyParts (1574); truncate the
destination's child collection (1577); reset every part field to
NULL/default (1580-1583); install non-leaf parts, then leaf parts, via
setParts (1586-1589); finally restore the saved default flags
(1592-1599). -/
def kitCopyContents (w : World) (dstkit srckit : Nat) : World :=
  let rs := (copySupport w srckit).dedup
  let base := w.heap.length
  let dict := dictOf base rs
  let w0 : World :=
    { w with heap := w.heap ++ rs.map (fun x => blankNode w (w.node x).typeId) }
  let w0b := w0.setNode dstkit
    { w0.node dstkit with
        slots := (w0.node srckit).slots.map (fun s => s.bind dict)
        defaults := (w0.node srckit).defaults }
  let n := (w0b.node dstkit).slots.length
  let idxs := (List.range n).drop 1
  let flaglist := (w0b.node dstkit).defaults
  let pl0 := List.replicate n (none : Option Nat)
  let ffuel := (w.heap.length + 2) * (w.heap.length + 2)
  let wpl := copyParts dict ffuel dstkit srckit idxs w0b pl0
  let w2 := wpl.1.setChildren dstkit []
  let w3 := foldRange
    (fun w i => (w.setSlot dstkit i none).setDefaultF dstkit i true)
    w2 1 (n - 1)
  let w4 := setPartsGo dstkit wpl.2 false idxs w3
  let w5 := setPartsGo dstkit wpl.2 true idxs w4
  foldRange (fun w i => w.setDefaultF dstkit i (flaglist.getD i true)) w5 1 (n - 1)

/-- Predicate spelled out from the claim C5 wording (not from the source):
a part stays default only if (a) its slot is null and the catalog marks the
part null-by-default; or (b) it is a leaf whose node is an empty generic
group/separator with zero children; or (c) it is a leaf list part with zero
children and a plain group/separator container; or (d) it is a non-leaf
part whose node is of exactly its default type with all of its own fields
at default values and no children. -/
def claimSuppressCond (w : World) (kit i : Nat) : Bool :=
  let cat := w.catalogAt kit
  match w.slot kit i with
  | none => (cat.entry i).nullByDefault
  | some nid =>
      let node := w.node nid
      ((cat.entry i).isLeaf &&
        (node.typeId == SoGroupT || node.typeId == SoSeparatorT) &&
        node.children.length == 0) ||
      ((cat.entry i).isLeaf && node.typeId == SoNodeKitListPartT &&
        listNumChildren w nid == 0 &&
        (match node.container with
         | some c => (w.node c).typeId == SoGroupT ||
                     (w.node c).typeId == SoSeparatorT
         | none => false)) ||
      (!(cat.entry i).isLeaf && node.typeId == (cat.entry i).defaultTypeId &&
        node.children.length == 0 &&
        node.fields.all (fun f => f.isDefault) &&
        node.fields == w.ts.defaultFields node.typeId)

/-- Suppression condition exactly as the four tests of
SoBaseKit::setDefaultOnNonWritingFields evaluate it (SoBaseKit.cpp
1241-1272), independent of the current default flag. -/
def codeSuppressCond (w : World) (kit i : Nat) : Bool :=
  let cat := w.catalogAt kit
  match w.slot kit i with
  | none => (cat.entry i).nullByDefault
  | some nid =>
      let node := w.node nid
      if (cat.entry i).isLeaf then
        if (node.typeId == SoGroupT || node.typeId == SoSeparatorT) &&
           node.children.length == 0 then true
        else if node.typeId == SoNodeKitListPartT then
          match node.container with
          | some c =>
              (w.node c).children.length == 0 &&
              ((w.node c).typeId == SoSeparatorT ||
               (w.node c).typeId == SoGroupT)
          | none => false
        else false
      else
        w.ts.isDerivedFrom node.typeId SoGroupT &&
        is_default_node w nid node.typeId

/-- Relation underlying claim C9: the world `w'` results from `w` by
successfully processing a (possibly empty) prefix of the blocks of the
input and then failing on the next block, keeping all effects applied so
far. -/
inductive StopsAtFailure : World → Nat → List Char → World → Prop where
  | here : ∀ {w : World} {kit : Nat} {s : List Char} {w1 : World},
      processBlock w kit s = .fail w1 → StopsAtFailure w kit s w1
  | step : ∀ {w : World} {kit : Nat} {s : List Char} {w1 : World}
      {rest : List Char} {w2 : World},
      processBlock w kit s = .ok w1 rest → StopsAtFailure w1 kit rest w2 →
      StopsAtFailure w kit s w2

section ExampleWorlds

/-- Type system of the example worlds: type 2 (SoSeparator) is derived from
type 1 (SoGroup); 12 (a concrete shape) is derived from 11 (a shape base
class); 101 and 102 are nodekit types derived from type 4 (SoBaseKit);
every type has no fields except type 20, which has one field "width"
defaulting to 7. -/
def exTS : TypeSys :=
  { ancestors := fun t =>
      if t == SoSeparatorT then [SoGroupT]
      else if t == 12 then [11]
      else if t == 101 || t == 102 then [SoBaseKitT]
      else []
    defaultFields := fun t =>
      if t == 20 then [⟨"width", 7, true, false⟩] else [] }

/-- Catalog of the main example kit type (type 100): a private non-leaf
separator part "topSep" under the kit, with leaf parts "scale" (unbuilt)
and "shape" (built) under it, "scale" having "shape" as its right
sibling. -/
def exCat : Catalog :=
  ⟨[⟨"this", 100, 100, 0, none, false, false, false, 0, [], true⟩,
    ⟨"topSep", SoSeparatorT, SoSeparatorT, 0, none, false, false, false, 0, [], false⟩,
    ⟨"scale", 10, 10, 1, some 3, true, true, false, 0, [], true⟩,
    ⟨"shape", 11, 12, 1, none, true, true, false, 0, [], false⟩]⟩

/-- Example world: the kit (node 0) with "topSep" built as node 1,
"shape" built as node 2, "scale" unbuilt; node 3 is a floating node of
unrelated type 50; node 4 is a floating node of type 10 suitable for the
"scale" part. -/
def exW : World :=
  { heap :=
      [⟨100, [1], [], [none, some 1, none, some 2], [true, true, true, true], none, []⟩,
       ⟨SoSeparatorT, [2], [], [], [], none, []⟩,
       ⟨12, [], [], [], [], none, []⟩,
       ⟨50, [], [], [], [], none, []⟩,
       ⟨10, [], [], [], [], none, []⟩]
    ts := exTS
    catalogOf := fun t => if t == 100 then exCat else ⟨[]⟩ }

/-- Catalog of the claim C5 counterexample kit type (type 100): one public
leaf part "cube" of concrete type 20, not null by default. -/
def c5Cat : Catalog :=
  ⟨[⟨"this", 100, 100, 0, none, false, false, false, 0, [], true⟩,
    ⟨"cube", 20, 20, 0, none, true, true, false, 0, [], false⟩]⟩

/-- Claim C5 counterexample world: the kit (node 0) with the "cube" part
built by default as node 1 (a default-valued type-20 node), its field
still flagged default. -/
def c5W : World :=
  { heap :=
      [⟨100, [1], [], [none, some 1], [true, true], none, []⟩,
       ⟨20, [], [⟨"width", 7, true, false⟩], [], [], none, []⟩]
    ts := exTS
    catalogOf := fun t => if t == 100 then c5Cat else ⟨[]⟩ }

/-- Catalog of the claim C5 witness kit type (type 100): one public leaf
part "grp" of the plain group type, not null by default. -/
def c5CatB : Catalog :=
  ⟨[⟨"this", 100, 100, 0, none, false, false, false, 0, [], true⟩,
    ⟨"grp", SoGroupT, SoGroupT, 0, none, true, true, false, 0, [], false⟩]⟩

/-- Claim C5 witness world: the kit (node 0) with the "grp" part built as
an empty group node 1 whose field was marked non-default by an explicit
assignment; the suppression pass re-marks it default. -/
def c5Wb : World :=
  { heap :=
      [⟨100, [1], [], [none, some 1], [true, false], none, []⟩,
       ⟨SoGroupT, [], [], [], [], none, []⟩]
    ts := exTS
    catalogOf := fun t => if t == 100 then c5CatB else ⟨[]⟩ }

/-- Catalog of the claim C6 scenario kit type (type 100): a public non-leaf
separator part "topSeparator" under the kit and a public leaf part "shape"
(declared type 11, default type 12, not null by default) under it. -/
def c6Cat : Catalog :=
  ⟨[⟨"this", 100, 100, 0, none, false, false, false, 0, [], true⟩,
    ⟨"topSeparator", SoSeparatorT, SoSeparatorT, 0, none, true, false, false, 0, [], false⟩,
    ⟨"shape", 11, 12, 1, none, true, true, false, 0, [], false⟩]⟩

/-- Claim C6 scenario world: both parts built by default construction
(topSeparator is node 1 holding the default shape node 2), both part
fields flagged default, shape's slot never touched. -/
def c6W : World :=
  { heap :=
      [⟨100, [1], [], [none, some 1, some 2], [true, true, true], none, []⟩,
       ⟨SoSeparatorT, [2], [], [], [], none, []⟩,
       ⟨12, [], [], [], [], none, []⟩]
    ts := exTS
    catalogOf := fun t => if t == 100 then c6Cat else ⟨[]⟩ }

/-- Claim C6 witness world: as c6W but with topSeparator's field explicitly
non-default, as after an explicit assignment to the part. -/
def c6Wb : World :=
  { heap :=
      [⟨100, [1], [], [none, some 1, some 2], [true, false, true], none, []⟩,
       ⟨SoSeparatorT, [2], [], [], [], none, []⟩,
       ⟨12, [], [], [], [], none, []⟩]
    ts := exTS
    catalogOf := fun t => if t == 100 then c6Cat else ⟨[]⟩ }

/-- Catalog of the nested kit type 101 used by claim C2: a single public
leaf list part "b" whose container is a plain group and whose only allowed
item type is the nodekit type 102. -/
def c2CatA : Catalog :=
  ⟨[⟨"this", 101, 101, 0, none, false, false, false, 0, [], true⟩,
    ⟨"b", SoNodeKitListPartT, SoNodeKitListPartT, 0, none, true, true, true,
      SoGroupT, [102], true⟩]⟩

/-- Catalog of the outer kit type 100 used by claim C2: a single public
leaf part "a" of the nested kit type 101, null by default. -/
def c2Cat : Catalog :=
  ⟨[⟨"this", 100, 100, 0, none, false, false, false, 0, [], true⟩,
    ⟨"a", 101, 101, 0, none, true, true, false, 0, [], true⟩]⟩

/-- Claim C2 counterexample world: an empty kit (node 0) of type 100; no
part is built yet. -/
def c2W : World :=
  { heap := [⟨100, [], [], [none, none], [true, true], none, []⟩]
    ts := exTS
    catalogOf := fun t =>
      if t == 100 then c2Cat
      else if t == 101 then c2CatA
      else if t == 102 then ⟨[⟨"this", 102, 102, 0, none, false, false, false, 0, [], true⟩]⟩
      else ⟨[]⟩ }

/-- The path string "a.b[2]" as a character list. -/
def c2Path : List Char := ['a', '.', 'b', '[', '2', ']']

/-- Static list-part world for the claim C2 witness: node 0 is a list part
whose container is node 1 holding one item child (node 2 of the allowed
nodekit type 102). -/
def c2ListW : World :=
  { heap :=
      [⟨SoNodeKitListPartT, [1], [], [], [], some 1, [102]⟩,
       ⟨SoGroupT, [2], [], [], [], none, []⟩,
       ⟨102, [], [], [], [], none, []⟩]
    ts := exTS
    catalogOf := fun _ => ⟨[]⟩ }

/-- Catalog of the claim C10 witness kit type (type 100): a public non-leaf
separator part "b" under the kit, and a private leaf part "c" under "b";
both null by default so that resolution has to build them. -/
def c10Cat : Catalog :=
  ⟨[⟨"this", 100, 100, 0, none, false, false, false, 0, [], true⟩,
    ⟨"b", SoSeparatorT, SoSeparatorT, 0, none, true, false, false, 0, [], true⟩,
    ⟨"c", 10, 10, 1, none, false, true, false, 0, [], true⟩]⟩

/-- Claim C10 witness world: an empty kit of the c10Cat type. -/
def c10W : World :=
  { heap := [⟨100, [], [], [none, none, none], [true, true, true], none, []⟩]
    ts := exTS
    catalogOf := fun t => if t == 100 then c10Cat else ⟨[]⟩ }

/-- Catalog of the claim C9 example kit type (type 100): two public leaf
parts "p" (built, a type-20 node with a "width" field) and "q" (unbuilt,
null by default). -/
def c9Cat : Catalog :=
  ⟨[⟨"this", 100, 100, 0, none, false, false, false, 0, [], true⟩,
    ⟨"p", 20, 20, 0, none, true, true, false, 0, [], false⟩,
    ⟨"q", 20, 20, 0, none, true, true, false, 0, [], true⟩]⟩

/-- Claim C9 example world: the kit (node 0) with part "p" built as node 1
carrying the single field "width" at its default value 7. -/
def c9W : World :=
  { heap :=
      [⟨100, [1], [], [none, some 1, none], [true, true, true], none, []⟩,
       ⟨20, [], [⟨"width", 7, true, false⟩], [], [], none, []⟩]
    ts := exTS
    catalogOf := fun t => if t == 100 then c9Cat else ⟨[]⟩ }

/-- Structured-text input with two blocks: the first sets field "width" of
part "p" to 5; the second names the unknown part "zz" and fails. -/
def c9Input : List Char :=
  ['p', ' ', '\x7b', ' ', 'w', 'i', 'd', 't', 'h', ' ', '5', ' ', '\x7d',
   ' ', 'z', 'z', ' ', '\x7b', ' ', '\x7d']

/-- Catalog of the claim C3 example kit type (type 100): a private non-leaf
separator part "topSep" under the kit, holding a public leaf part "shape"
(a type-20 node with a "width" field, right sibling "items") and a public
leaf list part "items" locked to item type 102. -/
def c3Cat : Catalog :=
  ⟨[⟨"this", 100, 100, 0, none, false, false, false, 0, [], true⟩,
    ⟨"topSep", 2, 2, 0, none, false, false, false, 0, [], false⟩,
    ⟨"shape", 20, 20, 1, some 3, true, true, false, 0, [], false⟩,
    ⟨"items", 3, 3, 1, none, true, true, true, 1, [102], true⟩]⟩

/-- Claim C3 source-and-destination world, parametric in the shape field
value `v` with default flag `dv`, the kit's three part default flags
`d1 d2 d3`, and the two list items' field values and flags: the source kit
(node 0) has all parts built — "topSep" as node 1 holding "shape" (node 2)
and the list part "items" (node 3) whose container (node 4) holds two items
(nodes 5 and 6); node 7 is the blank destination kit the inherited copy
machinery allocated. -/
def c3W (v : Int) (dv d1 d2 d3 : Bool) (v1 : Int) (b1 : Bool)
    (v2 : Int) (b2 : Bool) : World :=
  { heap :=
      [⟨100, [1], [], [none, some 1, some 2, some 3], [true, d1, d2, d3], none, []⟩,
       ⟨SoSeparatorT, [2, 3], [], [], [], none, []⟩,
       ⟨20, [], [⟨"width", v, dv, false⟩], [], [], none, []⟩,
       ⟨SoNodeKitListPartT, [4], [], [], [], some 4, [102]⟩,
       ⟨SoGroupT, [5, 6], [], [], [], none, []⟩,
       ⟨102, [], [⟨"x", v1, b1, false⟩], [], [], none, []⟩,
       ⟨102, [], [⟨"x", v2, b2, false⟩], [], [], none, []⟩,
       ⟨100, [], [], [none, none, none, none], [true, true, true, true], none, []⟩]
    ts := exTS
    catalogOf := fun t => if t == 100 then c3Cat else ⟨[]⟩ }

end ExampleWorlds

/-! Chain catalogs of arbitrary depth, for the deep-copy claim (C3): a
parametric family of kit worlds whose catalog is a parent chain of depth n
with parts 1..k built. -/

/-- Depth-n chain catalog: entry i (1 ≤ i ≤ n) is a group part hanging
under entry i-1 (entry 1 under the kit itself), with no right sibling;
only the deepest entry is a leaf. -/
def chainCat (n : Nat) : Catalog :=
  ⟨⟨"this", 100, 100, 0, none, false, false, false, 0, [], true⟩ ::
    (List.range n).map (fun j =>
      ⟨"p", SoGroupT, SoGroupT, j, none, false, j + 1 == n, false, 0, [], true⟩)⟩

/-- Source part node c of the chain world: a group whose only child is the
next part (when that part is built), with arbitrary field contents fs c. -/
def chainPart (k : Nat) (fs : Nat → List FieldV) (c : Nat) : NodeObj :=
  ⟨SoGroupT, if c < k then [c + 1] else [], fs c, [], [], none, []⟩

/-- Source kit of the chain world: parts 1..k built as nodes 1..k, parts
k+1..n unset, with part default flags given by ds. -/
def chainKitNode (n k : Nat) (ds : Nat → Bool) : NodeObj :=
  ⟨100, if k = 0 then [] else [1], [],
   (List.range (n + 1)).map (fun j => if 1 ≤ j ∧ j ≤ k then some j else none),
   (List.range (n + 1)).map (fun j => if j = 0 then true else ds j),
   none, []⟩

/-- Generic state of the chain worlds during the copy: the source kit
(node 0) with its part chain (nodes 1..k), the destination kit (node k+1)
with child collection ch, part slots sl and default flags df, and the k
copied nodes (nodes k+2..2k+1) with child collections cch and field
contents cfs. -/
def chainMidW (n k : Nat) (ds : Nat → Bool) (fs : Nat → List FieldV)
    (ch : List Nat) (sl : List (Option Nat)) (df : List Bool)
    (cch : Nat → List Nat) (cfs : Nat → List FieldV) : World :=
  { heap := chainKitNode n k ds :: (List.range' 1 k).map (chainPart k fs) ++
      ⟨100, ch, [], sl, df, none, []⟩ ::
        (List.range' 1 k).map
          (fun c => ⟨SoGroupT, cch c, cfs c, [], [], none, []⟩)
    ts := exTS
    catalogOf := fun t => if t == 100 then chainCat n else ⟨[]⟩ }

/-- The chain source world handed to copyContents: the source kit with its
part chain plus the blank destination instance (node k+1) that the copy
dictionary phase allocated. -/
def chainW (n k : Nat) (ds : Nat → Bool) (fs : Nat → List FieldV) : World :=
  { heap := chainKitNode n k ds :: (List.range' 1 k).map (chainPart k fs) ++
      [⟨100, [], [], List.replicate (n + 1) none, List.replicate (n + 1) true,
        none, []⟩]
    ts := exTS
    catalogOf := fun t => if t == 100 then chainCat n else ⟨[]⟩ }

/-- The expected result of the deep copy on the chain world: the source
untouched, the destination kit holding the copied chain (nodes k+2..2k+1)
with the source's slot-presence pattern and default flags. -/
def chainWFinal (n k : Nat) (ds : Nat → Bool) (fs : Nat → List FieldV) : World :=
  chainMidW n k ds fs (if k = 0 then [] else [k + 2])
    ((List.range (n + 1)).map
      (fun j => if 1 ≤ j ∧ j ≤ k then some (k + 1 + j) else none))
    ((List.range (n + 1)).map (fun j => if j = 0 then true else ds j))
    (fun c => if c < k then [k + 2 + c] else []) fs

/-- Iterated elementwise update: positions s, s+1, ..., s+m-1 of the list
are set to g s, g (s+1), ..., as the reset and restore loops of
copyContents do. -/
def setRunF {α : Type} (g : Nat → α) : List α → Nat → Nat → List α
  | l, _, 0 => l
  | l, s, m + 1 => setRunF g (l.set s (g s)) (s + 1) m

/-- Destination slot table after the copy-dictionary phase: the source's
slots mapped through the dictionary. -/
def chainSlMid (n k : Nat) : List (Option Nat) :=
  (List.range (n + 1)).map
    (fun j => if 1 ≤ j ∧ j ≤ k then some (k + 1 + j) else none)

/-- The source kit's default-flag table (index 0 is the unused "this"
sentinel). -/
def chainDfSrc (n : Nat) (ds : Nat → Bool) : List Bool :=
  (List.range (n + 1)).map (fun j => if j = 0 then true else ds j)

/-- Child collections of the copied chain after the node-content copy. -/
def chainCopyCh (k : Nat) : Nat → List Nat :=
  fun c => if c < k then [k + 2 + c] else []

/-- The part list of copyParts after the passes have recorded the copies of
parts 1..min m k. -/
def chainPlF (n k m : Nat) : List (Option Nat) :=
  (List.range (n + 1)).map
    (fun j => if 1 ≤ j ∧ j ≤ min m k then some (k + 1 + j) else none)

/-- Destination child collection during the non-leaf installation pass. -/
def chainChSt (k B m : Nat) : List Nat :=
  if min m B = 0 then [] else [k + 2]

/-- Destination slot table during the non-leaf installation pass. -/
def chainSlSt (n k B m : Nat) : List (Option Nat) :=
  (List.range (n + 1)).map
    (fun j => if 1 ≤ j ∧ j ≤ min m B then some (k + 1 + j) else none)

/-- Destination default flags during the non-leaf installation pass. -/
def chainDfSt (n B m : Nat) : List Bool :=
  (List.range (n + 1)).map
    (fun j => if 1 ≤ j ∧ j ≤ min m B then false else true)

/-- Copied-chain child collections during the non-leaf installation pass:
the children of the part installed last are cleared and pending. -/
def chainCchSt (k B m : Nat) : Nat → List Nat :=
  fun c => if 1 ≤ c ∧ c = min m B then [] else chainCopyCh k c

/-- Destination default flags after both installation passes, before the
restore loop. -/
def chainDfPre (n k : Nat) : List Bool :=
  (List.range (n + 1)).map (fun j => if 1 ≤ j ∧ j ≤ k then false else true)

/-- Concrete default-flag assignment for the chain witness. -/
def chainDs0 : Nat → Bool := fun i => i == 1

/-- Concrete field contents for the chain witness. -/
def chainFs0 : Nat → List FieldV := fun c => [⟨"w", (c : Int), false, false⟩]


/-! Helper lemmas about the heap and accessor updates. -/

theorem getD_set_self {α : Type} (l : List α) (i : Nat) (v d : α)
    (h : i < l.length) : (l.set i v).getD i d = v := by
  simp [List.getD_eq_getElem?_getD, List.getElem?_set_self, h]

theorem getD_set_ne {α : Type} (l : List α) (i j : Nat) (v d : α)
    (h : j ≠ i) : (l.set i v).getD j d = l.getD j d := by
  simp [List.getD_eq_getElem?_getD, List.getElem?_set_ne (Ne.symm h)]

theorem setNode_node (w : World) (i : Nat) (o : NodeObj) (m : Nat) :
    (w.setNode i o).node m =
      if m = i ∧ i < w.heap.length then o else w.node m := by
  by_cases hm : m = i
  · subst hm
    by_cases hk : m < w.heap.length
    · simp only [World.node, World.setNode, hk, and_true, if_pos rfl]
      exact getD_set_self _ _ _ _ hk
    · simp only [World.node, World.setNode, hk, and_false, if_false]
      rw [List.set_eq_of_length_le (Nat.le_of_not_lt hk)]
  · simp only [World.node, World.setNode, hm, false_and, if_false]
    exact getD_set_ne _ _ _ _ _ hm

theorem setChildren_node (w : World) (p : Nat) (l : List Nat) (m : Nat) :
    (w.setChildren p l).node m =
      if m = p ∧ p < w.heap.length then { w.node p with children := l }
      else w.node m := by
  unfold World.setChildren
  rw [setNode_node]

theorem setSlot_node (w : World) (kit i : Nat) (v : Option Nat) (m : Nat) :
    (w.setSlot kit i v).node m =
      if m = kit ∧ kit < w.heap.length then
        { w.node kit with slots := (w.node kit).slots.set i v }
      else w.node m := by
  unfold World.setSlot
  rw [setNode_node]

theorem setDefaultF_node (w : World) (kit i : Nat) (b : Bool) (m : Nat) :
    (w.setDefaultF kit i b).node m =
      if m = kit ∧ kit < w.heap.length then
        { w.node kit with defaults := (w.node kit).defaults.set i b }
      else w.node m := by
  unfold World.setDefaultF
  rw [setNode_node]

theorem heapLength_setNode (w : World) (i : Nat) (o : NodeObj) :
    (w.setNode i o).heap.length = w.heap.length := by
  simp [World.setNode]

theorem childrenOf_setSlot (w : World) (kit i : Nat) (v : Option Nat)
    (m : Nat) : (w.setSlot kit i v).childrenOf m = w.childrenOf m := by
  unfold World.childrenOf
  rw [setSlot_node]
  split
  · next hm => rw [hm.1]
  · rfl

theorem childrenOf_setDefaultF (w : World) (kit i : Nat) (b : Bool)
    (m : Nat) : (w.setDefaultF kit i b).childrenOf m = w.childrenOf m := by
  unfold World.childrenOf
  rw [setDefaultF_node]
  split
  · next hm => rw [hm.1]
  · rfl

theorem slot_setChildren (w : World) (p : Nat) (l : List Nat) (kit i : Nat) :
    (w.setChildren p l).slot kit i = w.slot kit i := by
  unfold World.slot
  rw [setChildren_node]
  split
  · next hm => rw [hm.1]
  · rfl

theorem isDefaultF_setChildren (w : World) (p : Nat) (l : List Nat)
    (kit i : Nat) : (w.setChildren p l).isDefaultF kit i = w.isDefaultF kit i := by
  unfold World.isDefaultF
  rw [setChildren_node]
  split
  · next hm => rw [hm.1]
  · rfl

theorem isDefaultF_setSlot (w : World) (kit' j : Nat) (v : Option Nat)
    (kit i : Nat) : (w.setSlot kit' j v).isDefaultF kit i = w.isDefaultF kit i := by
  unfold World.isDefaultF
  rw [setSlot_node]
  split
  · next hm => rw [hm.1]
  · rfl

theorem slot_setDefaultF (w : World) (kit' j : Nat) (b : Bool)
    (kit i : Nat) : (w.setDefaultF kit' j b).slot kit i = w.slot kit i := by
  unfold World.slot
  rw [setDefaultF_node]
  split
  · next hm => rw [hm.1]
  · rfl

theorem slot_setSlot_self (w : World) (kit i : Nat) (v : Option Nat)
    (hk : kit < w.heap.length) (hi : i < (w.node kit).slots.length) :
    (w.setSlot kit i v).slot kit i = v := by
  unfold World.slot
  rw [setSlot_node]
  simp only [hk, and_true, if_pos rfl]
  exact getD_set_self _ _ _ _ hi

theorem slot_setSlot_ne (w : World) (kit i : Nat) (v : Option Nat)
    (j : Nat) (h : j ≠ i) : (w.setSlot kit i v).slot kit j = w.slot kit j := by
  unfold World.slot
  rw [setSlot_node]
  split
  · next hm =>
      rw [hm.1]
      exact getD_set_ne _ _ _ _ _ h
  · rfl

theorem isDefaultF_setDefaultF_self (w : World) (kit i : Nat) (b : Bool)
    (hk : kit < w.heap.length) (hi : i < (w.node kit).defaults.length) :
    (w.setDefaultF kit i b).isDefaultF kit i = b := by
  unfold World.isDefaultF
  rw [setDefaultF_node]
  simp only [hk, and_true, if_pos rfl]
  exact getD_set_self _ _ _ _ hi

theorem isDefaultF_setDefaultF_ne (w : World) (kit i : Nat) (b : Bool)
    (j : Nat) (h : j ≠ i) :
    (w.setDefaultF kit i b).isDefaultF kit j = w.isDefaultF kit j := by
  unfold World.isDefaultF
  rw [setDefaultF_node]
  split
  · next hm =>
      rw [hm.1]
      exact getD_set_ne _ _ _ _ _ h
  · rfl

theorem findIn_spec (l : List Nat) (x : Nat) (h : x ∈ l) :
    ∃ l1 l2, l = l1 ++ x :: l2 ∧ x ∉ l1 ∧ findIn l x = some l1.length := by
  induction l with
  | nil => cases h
  | cons a t ih =>
      by_cases hax : a = x
      · subst hax
        exact ⟨[], t, rfl, by simp, by simp [findIn, List.findIdx?_cons]⟩
      · have hxt : x ∈ t := by
          cases h with
          | head => exact absurd rfl hax
          | tail _ h => exact h
        obtain ⟨l1, l2, heq, hnot, hfind⟩ := ih hxt
        refine ⟨a :: l1, l2, by simp [heq], ?_, ?_⟩
        · simp [hnot, Ne.symm hax]
        · simp only [findIn, List.findIdx?_cons, beq_iff_eq, hax, if_false]
          rw [Nat.zero_add, List.findIdx?_succ]
          simp only [findIn] at hfind
          simp [hfind]

theorem removeAt_append (l1 l2 : List Nat) (x : Nat) :
    removeAt (l1 ++ x :: l2) l1.length = l1 ++ l2 := by
  have h2 : l1 ++ x :: l2 = (l1 ++ [x]) ++ l2 := by simp
  unfold removeAt
  rw [List.take_left]
  have h3 : l1.length + 1 = (l1 ++ [x]).length := by simp
  rw [h2, h3, List.drop_left]

theorem insertAt_append (l1 l2 : List Nat) (x : Nat) :
    insertAt (l1 ++ l2) l1.length x = l1 ++ x :: l2 := by
  unfold insertAt
  rw [List.take_left, List.drop_left]

theorem childrenOf_setChildren_self (w : World) (p : Nat) (l : List Nat)
    (h : p < w.heap.length) : (w.setChildren p l).childrenOf p = l := by
  unfold World.childrenOf
  rw [setChildren_node]
  simp [h]

theorem childrenOf_setChildren_ne (w : World) (p : Nat) (l : List Nat)
    (m : Nat) (h : m ≠ p) : (w.setChildren p l).childrenOf m = w.childrenOf m := by
  unfold World.childrenOf
  rw [setChildren_node]
  simp [h]

theorem slots_setChildren (w : World) (p : Nat) (l : List Nat) (m : Nat) :
    ((w.setChildren p l).node m).slots = (w.node m).slots := by
  rw [setChildren_node]
  split
  · next hm => rw [hm.1]
  · rfl

theorem defaults_setChildren (w : World) (p : Nat) (l : List Nat) (m : Nat) :
    ((w.setChildren p l).node m).defaults = (w.node m).defaults := by
  rw [setChildren_node]
  split
  · next hm => rw [hm.1]
  · rfl

theorem heapLength_setChildren (w : World) (p : Nat) (l : List Nat) :
    (w.setChildren p l).heap.length = w.heap.length := by
  unfold World.setChildren
  exact heapLength_setNode _ _ _

theorem slots_length_pos_lt (w : World) (kit i : Nat)
    (h : i < (w.node kit).slots.length) : kit < w.heap.length := by
  by_contra hk
  have : w.node kit = default := by
    unfold World.node
    exact List.getD_eq_default _ _ (Nat.le_of_not_lt hk)
  rw [this] at h
  simp [default] at h

theorem childrenOf_mem_lt (w : World) (parent x : Nat)
    (h : x ∈ w.childrenOf parent) : parent < w.heap.length := by
  by_contra hk
  have hd : w.node parent = default := by
    unfold World.node
    exact List.getD_eq_default _ _ (Nat.le_of_not_lt hk)
  unfold World.childrenOf at h
  rw [hd] at h
  simp [default] at h

/-! List index lemmas for the chain development. -/

theorem set_cons_succ' {α : Type} (a : α) (l : List α) (i : Nat) (v : α) :
    (a :: l).set (i + 1) v = a :: l.set i v := rfl

theorem set_middle {α : Type} (l1 : List α) (a : α) (l2 : List α) (v : α) :
    (l1 ++ a :: l2).set l1.length v = l1 ++ v :: l2 := by
  induction l1 with
  | nil => rfl
  | cons x t ih => simp only [List.cons_append, List.length_cons,
      set_cons_succ', ih]

theorem getD_middle {α : Type} (l1 : List α) (a : α) (l2 : List α) (d : α) :
    (l1 ++ a :: l2).getD l1.length d = a := by
  induction l1 with
  | nil => rfl
  | cons x t ih => simp only [List.cons_append, List.length_cons,
      List.getD_cons_succ, ih]

theorem getD_append_left' {α : Type} (l1 l2 : List α) (i : Nat) (d : α)
    (h : i < l1.length) : (l1 ++ l2).getD i d = l1.getD i d := by
  simp [List.getD_eq_getElem?_getD, List.getElem?_append, h]

theorem getD_append_right' {α : Type} (l1 l2 : List α) (i : Nat) (d : α)
    (h : l1.length ≤ i) : (l1 ++ l2).getD i d = l2.getD (i - l1.length) d := by
  simp [List.getD_eq_getElem?_getD, List.getElem?_append_right h]

theorem map_range'_getD {α : Type} (f : Nat → α) (s m i : Nat) (d : α)
    (h : i < m) : ((List.range' s m).map f).getD i d = f (s + i) := by
  simp [List.getD_eq_getElem?_getD, List.getElem?_range' _ _ h]

theorem map_range_getD {α : Type} (f : Nat → α) (N i : Nat) (d : α)
    (h : i < N) : ((List.range N).map f).getD i d = f i := by
  rw [List.range_eq_range', map_range'_getD _ _ _ _ _ h, Nat.zero_add]

theorem map_range'_congr {α : Type} (f g : Nat → α) (s m : Nat)
    (h : ∀ x, s ≤ x → x < s + m → f x = g x) :
    (List.range' s m).map f = (List.range' s m).map g := by
  apply List.map_congr_left
  intro x hx
  rw [List.mem_range'_1] at hx
  exact h x hx.1 hx.2

theorem map_range_congr {α : Type} (f g : Nat → α) (N : Nat)
    (h : ∀ x, x < N → f x = g x) :
    (List.range N).map f = (List.range N).map g := by
  rw [List.range_eq_range']
  exact map_range'_congr f g 0 N (fun x _ hx => h x (by omega))

theorem map_range'_set {α : Type} (f : Nat → α) (s m i : Nat) (v : α)
    (h : i < m) :
    ((List.range' s m).map f).set i v =
      (List.range' s m).map (fun x => if x = s + i then v else f x) := by
  induction m generalizing s i with
  | zero => omega
  | succ m ih =>
      rw [List.range'_succ]
      cases i with
      | zero =>
          simp only [List.map_cons, List.set_cons_zero, Nat.add_zero,
            if_pos rfl]
          congr 1
          exact map_range'_congr _ _ _ _ (fun x hx _ => by
            rw [if_neg (by omega)])
      | succ i =>
          simp only [List.map_cons, set_cons_succ']
          rw [ih _ _ (by omega)]
          congr 1
          · rw [if_neg (by omega)]
          · exact map_range'_congr _ _ _ _ (fun x _ _ => by
              rw [show s + 1 + i = s + (i + 1) from by omega])

theorem map_range_set {α : Type} (f : Nat → α) (N i : Nat) (v : α)
    (h : i < N) :
    ((List.range N).map f).set i v =
      (List.range N).map (fun x => if x = i then v else f x) := by
  rw [List.range_eq_range', map_range'_set _ _ _ _ _ h]
  exact map_range'_congr _ _ _ _ (fun x _ _ => by rw [Nat.zero_add])

theorem replicate_eq_map_range {α : Type} (N : Nat) (c : α) :
    List.replicate N c = (List.range N).map (fun _ => c) := by
  rw [List.map_const']
  simp

theorem drop1_map_range {α : Type} (f : Nat → α) (N : Nat) :
    ((List.range (N + 1)).map f).drop 1 = (List.range' 1 N).map f := by
  rw [List.range_eq_range', List.range'_succ]
  rfl

theorem drop1_range (N : Nat) :
    (List.range (N + 1)).drop 1 = List.range' 1 N := by
  rw [List.range_eq_range', List.range'_succ]
  rfl

theorem findIdx?_range'_beq (s m c : Nat) :
    (List.range' s m).findIdx? (fun y => y == c) =
      if s ≤ c ∧ c < s + m then some (c - s) else none := by
  induction m generalizing s with
  | zero =>
      rw [show List.range' s 0 = [] from rfl, if_neg (by omega)]
      simp
  | succ m ih =>
      rw [List.range'_succ]
      by_cases hsc : s = c
      · subst hsc
        simp [List.findIdx?_cons]
      · rw [List.findIdx?_cons]
        have hb : (s == c) = false := by simpa using hsc
        rw [hb]
        simp only [Bool.false_eq_true, if_false]
        rw [Nat.zero_add, List.findIdx?_succ, ih]
        by_cases hc : s + 1 ≤ c ∧ c < s + 1 + m
        · rw [if_pos hc, if_pos (by omega)]
          simp
          omega
        · rw [if_neg hc, if_neg (by omega)]
          simp

theorem getD_middle' {α : Type} (l1 : List α) (a : α) (l2 : List α) (d : α)
    (i : Nat) (h : i = l1.length) : (l1 ++ a :: l2).getD i d = a := by
  subst h
  exact getD_middle _ _ _ _

theorem set_middle' {α : Type} (l1 : List α) (a : α) (l2 : List α) (v : α)
    (i : Nat) (h : i = l1.length) : (l1 ++ a :: l2).set i v = l1 ++ v :: l2 := by
  subst h
  exact set_middle _ _ _ _

theorem world_eq_of_heap (w1 w2 : World) (hh : w1.heap = w2.heap)
    (ht : w1.ts = w2.ts) (hc : w1.catalogOf = w2.catalogOf) : w1 = w2 := by
  cases w1
  cases w2
  simp_all

/-! Accessors of the chain worlds. -/

theorem chainCat_entry (n i : Nat) (h1 : 1 ≤ i) (h2 : i ≤ n) :
    (chainCat n).entry i =
      ⟨"p", SoGroupT, SoGroupT, i - 1, none, false, i == n, false, 0, [],
        true⟩ := by
  unfold chainCat Catalog.entry
  obtain ⟨j, rfl⟩ : ∃ j, i = j + 1 := ⟨i - 1, by omega⟩
  simp only [List.getD_cons_succ]
  rw [map_range_getD _ _ _ _ (by omega)]
  simp

theorem chainCat_numEntries (n : Nat) : (chainCat n).numEntries = n + 1 := by
  unfold chainCat Catalog.numEntries
  simp

section ChainAccessors

variable (n k : Nat) (ds : Nat → Bool) (fs : Nat → List FieldV)
  (ch : List Nat) (sl : List (Option Nat)) (df : List Bool)
  (cch : Nat → List Nat) (cfs : Nat → List FieldV)

theorem chainMidW_heapLength :
    (chainMidW n k ds fs ch sl df cch cfs).heap.length = 2 * k + 2 := by
  simp [chainMidW]
  omega

theorem chainMidW_ts : (chainMidW n k ds fs ch sl df cch cfs).ts = exTS := rfl

theorem chainMidW_node_zero :
    (chainMidW n k ds fs ch sl df cch cfs).node 0 = chainKitNode n k ds := rfl

theorem chainMidW_node_src (c : Nat) (h1 : 1 ≤ c) (h2 : c ≤ k) :
    (chainMidW n k ds fs ch sl df cch cfs).node c = chainPart k fs c := by
  unfold chainMidW World.node
  rw [getD_append_left' _ _ _ _ (by simp <;> omega)]
  obtain ⟨j, rfl⟩ : ∃ j, c = j + 1 := ⟨c - 1, by omega⟩
  simp only [List.getD_cons_succ]
  rw [map_range'_getD _ _ _ _ _ (by omega)]
  congr 1
  omega

theorem chainMidW_node_dst :
    (chainMidW n k ds fs ch sl df cch cfs).node (k + 1) =
      ⟨100, ch, [], sl, df, none, []⟩ := by
  unfold chainMidW World.node
  have hlen : (chainKitNode n k ds ::
      (List.range' 1 k).map (chainPart k fs)).length = k + 1 := by simp
  exact getD_middle' _ _ _ _ _ hlen.symm

theorem chainMidW_node_copy (c : Nat) (h1 : 1 ≤ c) (h2 : c ≤ k) :
    (chainMidW n k ds fs ch sl df cch cfs).node (k + 1 + c) =
      ⟨SoGroupT, cch c, cfs c, [], [], none, []⟩ := by
  unfold chainMidW World.node
  rw [getD_append_right' _ _ _ _ (by simp <;> omega)]
  have hlen : (chainKitNode n k ds ::
      (List.range' 1 k).map (chainPart k fs)).length = k + 1 := by simp
  rw [hlen]
  obtain ⟨j, hj⟩ : ∃ j, k + 1 + c - (k + 1) = j + 1 := ⟨c - 1, by omega⟩
  rw [hj]
  simp only [List.getD_cons_succ]
  rw [map_range'_getD _ _ _ _ _ (by omega)]
  have hc : 1 + j = c := by omega
  rw [hc]

theorem chainMidW_catalogAt_dst :
    (chainMidW n k ds fs ch sl df cch cfs).catalogAt (k + 1) = chainCat n := by
  unfold World.catalogAt
  rw [chainMidW_node_dst]
  rfl

theorem chainMidW_slot_dst (i : Nat) :
    (chainMidW n k ds fs ch sl df cch cfs).slot (k + 1) i = sl.getD i none := by
  unfold World.slot
  rw [chainMidW_node_dst]

theorem chainMidW_isDefaultF_dst (i : Nat) :
    (chainMidW n k ds fs ch sl df cch cfs).isDefaultF (k + 1) i =
      df.getD i true := by
  unfold World.isDefaultF
  rw [chainMidW_node_dst]

theorem chainMidW_childrenOf_dst :
    (chainMidW n k ds fs ch sl df cch cfs).childrenOf (k + 1) = ch := by
  unfold World.childrenOf
  rw [chainMidW_node_dst]

theorem chainMidW_childrenOf_copy (c : Nat) (h1 : 1 ≤ c) (h2 : c ≤ k) :
    (chainMidW n k ds fs ch sl df cch cfs).childrenOf (k + 1 + c) = cch c := by
  unfold World.childrenOf
  rw [chainMidW_node_copy _ _ _ _ _ _ _ _ _ _ h1 h2]

theorem chainMidW_childrenOf_src (c : Nat) (h1 : 1 ≤ c) (h2 : c ≤ k) :
    (chainMidW n k ds fs ch sl df cch cfs).childrenOf c =
      if c < k then [c + 1] else [] := by
  unfold World.childrenOf
  rw [chainMidW_node_src _ _ _ _ _ _ _ _ _ _ h1 h2]
  rfl

theorem chainMidW_slot_src (i : Nat) (h : i < n + 1) :
    (chainMidW n k ds fs ch sl df cch cfs).slot 0 i =
      if 1 ≤ i ∧ i ≤ k then some i else none := by
  unfold World.slot
  rw [chainMidW_node_zero]
  unfold chainKitNode
  exact map_range_getD _ _ _ _ h

theorem chainMidW_setChildren_dst (l : List Nat) :
    (chainMidW n k ds fs ch sl df cch cfs).setChildren (k + 1) l =
      chainMidW n k ds fs l sl df cch cfs := by
  unfold World.setChildren World.setNode
  apply world_eq_of_heap
  · rw [chainMidW_node_dst]
    show (chainMidW n k ds fs ch sl df cch cfs).heap.set (k + 1)
      ⟨100, l, [], sl, df, none, []⟩ = _
    have hlen : (chainKitNode n k ds ::
        (List.range' 1 k).map (chainPart k fs)).length = k + 1 := by simp
    exact set_middle' _ _ _ _ _ hlen.symm
  · rfl
  · rfl

theorem chainMidW_setSlot_dst (i : Nat) (v : Option Nat) :
    (chainMidW n k ds fs ch sl df cch cfs).setSlot (k + 1) i v =
      chainMidW n k ds fs ch (sl.set i v) df cch cfs := by
  unfold World.setSlot World.setNode
  apply world_eq_of_heap
  · rw [chainMidW_node_dst]
    show (chainMidW n k ds fs ch sl df cch cfs).heap.set (k + 1)
      ⟨100, ch, [], sl.set i v, df, none, []⟩ = _
    have hlen : (chainKitNode n k ds ::
        (List.range' 1 k).map (chainPart k fs)).length = k + 1 := by simp
    exact set_middle' _ _ _ _ _ hlen.symm
  · rfl
  · rfl

theorem chainMidW_setDefaultF_dst (i : Nat) (b : Bool) :
    (chainMidW n k ds fs ch sl df cch cfs).setDefaultF (k + 1) i b =
      chainMidW n k ds fs ch sl (df.set i b) cch cfs := by
  unfold World.setDefaultF World.setNode
  apply world_eq_of_heap
  · rw [chainMidW_node_dst]
    show (chainMidW n k ds fs ch sl df cch cfs).heap.set (k + 1)
      ⟨100, ch, [], sl, df.set i b, none, []⟩ = _
    have hlen : (chainKitNode n k ds ::
        (List.range' 1 k).map (chainPart k fs)).length = k + 1 := by simp
    exact set_middle' _ _ _ _ _ hlen.symm
  · rfl
  · rfl

theorem chainMidW_setNode_copy (c : Nat) (h1 : 1 ≤ c) (h2 : c ≤ k)
    (l : List Nat) (fl : List FieldV) :
    (chainMidW n k ds fs ch sl df cch cfs).setNode (k + 1 + c)
        ⟨SoGroupT, l, fl, [], [], none, []⟩ =
      chainMidW n k ds fs ch sl df (fun x => if x = c then l else cch x)
        (fun x => if x = c then fl else cfs x) := by
  unfold World.setNode
  apply world_eq_of_heap
  · show (chainMidW n k ds fs ch sl df cch cfs).heap.set (k + 1 + c) _ = _
    unfold chainMidW
    rw [List.set_append_right _ _ (by simp <;> omega)]
    refine congrArg _ ?_
    have hlen : (chainKitNode n k ds ::
        (List.range' 1 k).map (chainPart k fs)).length = k + 1 := by simp
    rw [hlen]
    obtain ⟨j, hj⟩ : ∃ j, k + 1 + c - (k + 1) = j + 1 := ⟨c - 1, by omega⟩
    rw [hj, set_cons_succ']
    refine congrArg _ ?_
    rw [map_range'_set _ _ _ _ _ (by omega)]
    refine map_range'_congr _ _ _ _ (fun x hx1 hx2 => ?_)
    have hc : 1 + j = c := by omega
    rw [hc]
    dsimp only
    by_cases hxc : x = c
    · subst hxc
      simp
    · simp [hxc]
  · rfl
  · rfl

theorem chainMidW_congr (cch' : Nat → List Nat) (cfs' : Nat → List FieldV)
    (h : ∀ c, 1 ≤ c → c ≤ k → cch c = cch' c ∧ cfs c = cfs' c) :
    chainMidW n k ds fs ch sl df cch cfs =
      chainMidW n k ds fs ch sl df cch' cfs' := by
  have hmap : (List.range' 1 k).map
      (fun c => (⟨SoGroupT, cch c, cfs c, [], [], none, []⟩ : NodeObj)) =
      (List.range' 1 k).map
      (fun c => ⟨SoGroupT, cch' c, cfs' c, [], [], none, []⟩) := by
    refine map_range'_congr _ _ _ _ (fun x hx1 hx2 => ?_)
    obtain ⟨hc1, hc2⟩ := h x hx1 (by omega)
    rw [hc1, hc2]
  unfold chainMidW
  rw [hmap]

theorem chainMidW_setChildren_copy (c : Nat) (h1 : 1 ≤ c) (h2 : c ≤ k)
    (l : List Nat) :
    (chainMidW n k ds fs ch sl df cch cfs).setChildren (k + 1 + c) l =
      chainMidW n k ds fs ch sl df (fun x => if x = c then l else cch x)
        cfs := by
  unfold World.setChildren
  rw [chainMidW_node_copy _ _ _ _ _ _ _ _ _ _ h1 h2]
  show (chainMidW n k ds fs ch sl df cch cfs).setNode (k + 1 + c)
    ⟨SoGroupT, l, cfs c, [], [], none, []⟩ = _
  rw [chainMidW_setNode_copy _ _ _ _ _ _ _ _ _ _ h1 h2]
  refine chainMidW_congr _ _ _ _ _ _ _ _ _ _ _ (fun x hx1 hx2 => ⟨rfl, ?_⟩)
  by_cases hxc : x = c
  · subst hxc
    rw [if_pos rfl]
  · rw [if_neg hxc]

end ChainAccessors

/-! The reset and restore loops over the chain state. -/

theorem setRunF_map_range {α : Type} (g : Nat → α) (N m : Nat) :
    ∀ (s : Nat) (f : Nat → α), s + m ≤ N →
    setRunF g ((List.range N).map f) s m =
      (List.range N).map (fun x => if s ≤ x ∧ x < s + m then g x else f x) := by
  induction m with
  | zero =>
      intro s f h
      rw [setRunF]
      exact map_range_congr _ _ _ (fun x hx => by rw [if_neg (by omega)])
  | succ m ih =>
      intro s f h
      rw [setRunF, map_range_set _ _ _ _ (by omega), ih (s + 1) _ (by omega)]
      exact map_range_congr _ _ _ (fun x hx => by
        by_cases h1 : s + 1 ≤ x ∧ x < s + 1 + m
        · rw [if_pos h1, if_pos (by omega)]
        · rw [if_neg h1]
          by_cases h2 : x = s
          · subst h2
            rw [if_pos rfl, if_pos (by omega)]
          · rw [if_neg h2, if_neg (by omega)])

theorem foldRange_reset_chain (n k : Nat) (ds : Nat → Bool)
    (fs : Nat → List FieldV) (m : Nat) :
    ∀ (s : Nat) (ch : List Nat) (sl : List (Option Nat)) (df : List Bool)
      (cch : Nat → List Nat) (cfs : Nat → List FieldV),
    foldRange (fun w i => (w.setSlot (k + 1) i none).setDefaultF (k + 1) i true)
      (chainMidW n k ds fs ch sl df cch cfs) s m =
    chainMidW n k ds fs ch (setRunF (fun _ => none) sl s m)
      (setRunF (fun _ => true) df s m) cch cfs := by
  induction m with
  | zero =>
      intro s ch sl df cch cfs
      rw [foldRange, setRunF, setRunF]
  | succ m ih =>
      intro s ch sl df cch cfs
      rw [foldRange, chainMidW_setSlot_dst, chainMidW_setDefaultF_dst,
        show setRunF (fun _ => (none : Option Nat)) sl s (m + 1) =
          setRunF (fun _ => none) (sl.set s none) (s + 1) m from rfl,
        show setRunF (fun _ => true) df s (m + 1) =
          setRunF (fun _ => true) (df.set s true) (s + 1) m from rfl]
      exact ih (s + 1) ch (sl.set s none) (df.set s true) cch cfs

theorem foldRange_restore_chain (n k : Nat) (ds : Nat → Bool)
    (fs : Nat → List FieldV) (FL : List Bool) (m : Nat) :
    ∀ (s : Nat) (ch : List Nat) (sl : List (Option Nat)) (df : List Bool)
      (cch : Nat → List Nat) (cfs : Nat → List FieldV),
    foldRange (fun w i => w.setDefaultF (k + 1) i (FL.getD i true))
      (chainMidW n k ds fs ch sl df cch cfs) s m =
    chainMidW n k ds fs ch sl
      (setRunF (fun i => FL.getD i true) df s m) cch cfs := by
  induction m with
  | zero =>
      intro s ch sl df cch cfs
      rw [foldRange, setRunF]
  | succ m ih =>
      intro s ch sl df cch cfs
      rw [foldRange, chainMidW_setDefaultF_dst,
        show setRunF (fun i => FL.getD i true) df s (m + 1) =
          setRunF (fun i => FL.getD i true) (df.set s (FL.getD s true))
            (s + 1) m from rfl]
      exact ih (s + 1) ch sl (df.set s (FL.getD s true)) cch cfs

/-! Accessors of the chain source world. -/

theorem chainW_heapLength (n k : Nat) (ds : Nat → Bool)
    (fs : Nat → List FieldV) : (chainW n k ds fs).heap.length = k + 2 := by
  simp [chainW]

theorem chainW_node_zero (n k : Nat) (ds : Nat → Bool)
    (fs : Nat → List FieldV) : (chainW n k ds fs).node 0 = chainKitNode n k ds :=
  rfl

theorem chainW_node_src (n k : Nat) (ds : Nat → Bool) (fs : Nat → List FieldV)
    (c : Nat) (h1 : 1 ≤ c) (h2 : c ≤ k) :
    (chainW n k ds fs).node c = chainPart k fs c := by
  unfold chainW World.node
  rw [getD_append_left' _ _ _ _ (by simp <;> omega)]
  obtain ⟨j, rfl⟩ : ∃ j, c = j + 1 := ⟨c - 1, by omega⟩
  simp only [List.getD_cons_succ]
  rw [map_range'_getD _ _ _ _ _ (by omega)]
  congr 1
  omega

theorem chainW_node_dst (n k : Nat) (ds : Nat → Bool)
    (fs : Nat → List FieldV) :
    (chainW n k ds fs).node (k + 1) =
      ⟨100, [], [], List.replicate (n + 1) none, List.replicate (n + 1) true,
        none, []⟩ := by
  unfold chainW World.node
  have hlen : (chainKitNode n k ds ::
      (List.range' 1 k).map (chainPart k fs)).length = k + 1 := by simp
  exact getD_middle' _ _ _ _ _ hlen.symm

/-! The support list and copy dictionary on the chain world. -/

theorem copySupport_chainW (n k : Nat) (ds : Nat → Bool)
    (fs : Nat → List FieldV) (hk : k ≤ n) :
    copySupport (chainW n k ds fs) 0 = List.range' 1 k := by
  unfold copySupport
  rw [chainW_node_zero]
  show ((((List.range (n + 1)).map
    (fun j => if 1 ≤ j ∧ j ≤ k then some j else none)).drop 1).foldr _ []) = _
  rw [drop1_map_range]
  have hfold : ∀ (m s : Nat), 1 ≤ s → s + m = n + 1 →
      (((List.range' s m).map
        (fun j => if 1 ≤ j ∧ j ≤ k then some j else none)).foldr
        (fun s acc =>
          match s with
          | some x =>
              x :: (match ((chainW n k ds fs).node x).container with
                    | some c => c :: ((chainW n k ds fs).node c).children
                    | none => []) ++ acc
          | none => acc) []) =
      List.range' s (min (s + m) (k + 1) - s) := by
    intro m
    induction m with
    | zero =>
        intro s hs1 hs2
        rw [show min (s + 0) (k + 1) - s = 0 from by omega]
        rfl
    | succ m ih =>
        intro s hs1 hs2
        rw [List.range'_succ]
        simp only [List.map_cons, List.foldr_cons]
        rw [ih (s + 1) (by omega) (by omega)]
        by_cases hsk : s ≤ k
        · rw [if_pos ⟨hs1, hsk⟩]
          have hnode : (chainW n k ds fs).node s = chainPart k fs s :=
            chainW_node_src n k ds fs s hs1 hsk
          simp only [hnode, chainPart]
          rw [show min (s + (m + 1)) (k + 1) - s =
            (min (s + 1 + m) (k + 1) - (s + 1)) + 1 from by omega,
            List.range'_succ]
          rfl
        · rw [if_neg (by omega)]
          rw [show min (s + 1 + m) (k + 1) - (s + 1) = 0 from by omega,
            show min (s + (m + 1)) (k + 1) - s = 0 from by omega]
          rfl
  rw [hfold n 1 (by omega) (by omega)]
  rw [show min (1 + n) (k + 1) - 1 = k from by omega]

theorem dict_chain (k c : Nat) :
    dictOf (k + 2) (List.range' 1 k) c =
      if 1 ≤ c ∧ c ≤ k then some (k + 1 + c) else none := by
  unfold dictOf
  rw [findIdx?_range'_beq]
  by_cases h : 1 ≤ c ∧ c < 1 + k
  · rw [if_pos h, if_pos (by omega)]
    simp
    omega
  · rw [if_neg h, if_neg (by omega)]
    rfl

/-! Deep copy of the chain contents (fillCopy on the chain). -/

theorem fillCopy_chain (n k : Nat) (ds : Nat → Bool) (fs : Nat → List FieldV)
    (m : Nat) :
    ∀ (c fuel : Nat) (ch : List Nat) (sl : List (Option Nat)) (df : List Bool)
      (cch : Nat → List Nat) (cfs : Nat → List FieldV),
    1 ≤ c → c + m = k → 2 * m + 3 ≤ fuel →
    fillCopyAux (dictOf (k + 2) (List.range' 1 k)) fuel
      (chainMidW n k ds fs ch sl df cch cfs) (.one c (k + 1 + c)) =
    chainMidW n k ds fs ch sl df
      (fun x => if c ≤ x then (if x < k then [k + 2 + x] else []) else cch x)
      (fun x => if c ≤ x then fs x else cfs x) := by
  induction m with
  | zero =>
      intro c fuel ch sl df cch cfs h1 h2 h3
      obtain ⟨f1, rfl⟩ : ∃ f1, fuel = f1 + 1 := ⟨fuel - 1, by omega⟩
      rw [fillCopyAux]
      dsimp only
      rw [chainMidW_node_src n k ds fs ch sl df cch cfs c h1 (by omega)]
      rw [chainMidW_node_copy n k ds fs ch sl df cch cfs c h1 (by omega)]
      rw [show chainPart k fs c = ⟨SoGroupT, [], fs c, [], [], none, []⟩ from by
        unfold chainPart
        rw [if_neg (by omega)]]
      dsimp only
      simp only [List.map_nil, Option.map_none']
      rw [chainMidW_setNode_copy n k ds fs ch sl df cch cfs c h1 (by omega)]
      obtain ⟨f2, rfl⟩ : ∃ f2, f1 = f2 + 1 := ⟨f1 - 1, by omega⟩
      rw [fillCopyAux]
      refine chainMidW_congr n k ds fs ch sl df _ _ _ _ (fun x hx1 hx2 => ?_)
      constructor
      · by_cases hxc : x = c
        · subst hxc
          rw [if_pos rfl, if_pos (Nat.le_refl _), if_neg (by omega)]
        · rw [if_neg hxc, if_neg (by omega)]
      · by_cases hxc : x = c
        · subst hxc
          rw [if_pos rfl, if_pos (Nat.le_refl _)]
        · rw [if_neg hxc, if_neg (by omega)]
  | succ m ih =>
      intro c fuel ch sl df cch cfs h1 h2 h3
      obtain ⟨f1, rfl⟩ : ∃ f1, fuel = f1 + 1 := ⟨fuel - 1, by omega⟩
      rw [fillCopyAux]
      dsimp only
      rw [chainMidW_node_src n k ds fs ch sl df cch cfs c h1 (by omega)]
      rw [chainMidW_node_copy n k ds fs ch sl df cch cfs c h1 (by omega)]
      rw [show chainPart k fs c = ⟨SoGroupT, [c + 1], fs c, [], [], none, []⟩
        from by
          unfold chainPart
          rw [if_pos (by omega)]]
      dsimp only
      simp only [List.map_cons, List.map_nil, Option.map_none', dict_chain]
      rw [if_pos (show 1 ≤ c + 1 ∧ c + 1 ≤ k from by omega)]
      simp only [Option.getD_some]
      rw [show k + 1 + (c + 1) = k + 2 + c from by omega]
      rw [chainMidW_setNode_copy n k ds fs ch sl df cch cfs c h1 (by omega)]
      obtain ⟨f2, rfl⟩ : ∃ f2, f1 = f2 + 1 := ⟨f1 - 1, by omega⟩
      rw [fillCopyAux]
      simp only [dict_chain]
      rw [if_pos (show 1 ≤ c + 1 ∧ c + 1 ≤ k from by omega)]
      dsimp only
      rw [show k + 1 + (c + 1) = k + 1 + (c + 1) from rfl]
      rw [ih (c + 1) f2 ch sl df _ _ (by omega) (by omega) (by omega)]
      obtain ⟨f3, rfl⟩ : ∃ f3, f2 = f3 + 1 := ⟨f2 - 1, by omega⟩
      rw [fillCopyAux]
      refine chainMidW_congr n k ds fs ch sl df _ _ _ _ (fun x hx1 hx2 => ?_)
      constructor
      · by_cases hxc : c + 1 ≤ x
        · rw [if_pos hxc, if_pos (show c ≤ x from by omega)]
        · rw [if_neg hxc]
          by_cases hxe : x = c
          · subst hxe
            rw [if_pos rfl, if_pos (Nat.le_refl _), if_pos (by omega)]
          · rw [if_neg hxe, if_neg (by omega)]
      · by_cases hxc : c + 1 ≤ x
        · rw [if_pos hxc, if_pos (show c ≤ x from by omega)]
        · rw [if_neg hxc]
          by_cases hxe : x = c
          · subst hxe
            rw [if_pos rfl, if_pos (Nat.le_refl _)]
          · rw [if_neg hxe, if_neg (by omega)]

/-! Pass one of copyParts on the chain. -/

theorem copyPassA_skip_chain (n k : Nat) (ds : Nat → Bool)
    (fs : Nat → List FieldV) (dict : Nat → Option Nat) (ffuel : Nat)
    (l : List Nat) :
    ∀ (ch : List Nat) (sl : List (Option Nat)) (df : List Bool)
      (cch : Nat → List Nat) (cfs : Nat → List FieldV)
      (pl : List (Option Nat)),
    (∀ i ∈ l, 2 ≤ i ∧ i ≤ n) →
    copyPassA dict ffuel (k + 1) 0 l
      (chainMidW n k ds fs ch sl df cch cfs, pl) =
    (chainMidW n k ds fs ch sl df cch cfs, pl) := by
  induction l with
  | nil =>
      intro ch sl df cch cfs pl _
      rw [copyPassA]
  | cons i rest ihl =>
      intro ch sl df cch cfs pl hmem
      obtain ⟨hi2, hin⟩ := hmem i (List.mem_cons_self _ _)
      have hb : ((i - 1 : Nat) == 0) = false := by
        simpa using (by omega : i - 1 ≠ 0)
      rw [copyPassA]
      dsimp only
      rcases hslot : (chainMidW n k ds fs ch sl df cch cfs).slot (k + 1) i
        with _ | d
      · simp only [hslot]
        exact ihl ch sl df cch cfs pl
          (fun j hj => hmem j (List.mem_cons_of_mem _ hj))
      · simp only [hslot, chainMidW_catalogAt_dst,
          chainCat_entry n i (by omega) hin, hb, Bool.false_eq_true, if_false]
        exact ihl ch sl df cch cfs pl
          (fun j hj => hmem j (List.mem_cons_of_mem _ hj))

theorem copyPassA_chain (n k : Nat) (ds : Nat → Bool) (fs : Nat → List FieldV)
    (hn : 1 ≤ n) (hk : k ≤ n) (ffuel : Nat) (hf : 2 * k + 3 ≤ ffuel)
    (cch0 : Nat → List Nat) (cfs0 : Nat → List FieldV) (pl : List (Option Nat)) :
    copyPassA (dictOf (k + 2) (List.range' 1 k)) ffuel (k + 1) 0
      (List.range' 1 n)
      (chainMidW n k ds fs [] (chainSlMid n k) (chainDfSrc n ds) cch0 cfs0, pl) =
    (chainMidW n k ds fs [] (chainSlMid n k) (chainDfSrc n ds)
       (fun x => if 1 ≤ x then (if x < k then [k + 2 + x] else []) else cch0 x)
       (fun x => if 1 ≤ x then fs x else cfs0 x),
     if 1 ≤ k then pl.set 1 (some (k + 2)) else pl) := by
  have hsplit : List.range' 1 n = 1 :: List.range' 2 (n - 1) := by
    rw [show n = (n - 1) + 1 from by omega, List.range'_succ]
    simp
  rw [hsplit, copyPassA]
  dsimp only
  have hslot1 : (chainMidW n k ds fs [] (chainSlMid n k) (chainDfSrc n ds)
      cch0 cfs0).slot (k + 1) 1 =
      if 1 ≤ 1 ∧ 1 ≤ k then some (k + 1 + 1) else none := by
    rw [chainMidW_slot_dst]
    unfold chainSlMid
    exact map_range_getD _ _ _ _ (by omega)
  by_cases hk1 : 1 ≤ k
  · rw [if_pos ⟨Nat.le_refl _, hk1⟩] at hslot1
    simp only [hslot1, chainMidW_catalogAt_dst,
      chainCat_entry n 1 (Nat.le_refl _) hn]
    have hsrc1 : (chainMidW n k ds fs [] (chainSlMid n k) (chainDfSrc n ds)
        cch0 cfs0).slot 0 1 = if 1 ≤ 1 ∧ 1 ≤ k then some 1 else none :=
      chainMidW_slot_src _ _ _ _ _ _ _ _ _ _ (by omega)
    rw [if_pos ⟨Nat.le_refl _, hk1⟩] at hsrc1
    simp only [hsrc1]
    unfold fillCopy
    rw [show k + 1 + 1 = k + 1 + 1 from rfl]
    rw [fillCopy_chain n k ds fs (k - 1) 1 ffuel _ _ _ _ _ (Nat.le_refl _)
      (by omega) (by omega)]
    rw [copyPassA_skip_chain n k ds fs _ ffuel _ _ _ _ _ _ _
      (fun j hj => by
        rw [List.mem_range'_1] at hj
        omega)]
    rw [if_pos hk1, if_pos (by decide)]
  · rw [if_neg (by omega)] at hslot1
    simp only [hslot1]
    rw [copyPassA_skip_chain n k ds fs _ ffuel _ _ _ _ _ _ _
      (fun j hj => by
        rw [List.mem_range'_1] at hj
        omega)]
    rw [if_neg hk1]
    refine Prod.ext ?_ rfl
    dsimp only
    refine chainMidW_congr n k ds fs _ _ _ _ _ _ _ (fun x hx1 hx2 => ?_)
    exact absurd (hx1.trans hx2) hk1

theorem findIn_singleton (x : Nat) : findIn [x] x = some 0 := by
  simp [findIn, List.findIdx?_cons]

/-! Pass two of copyParts on the chain. -/

theorem copyPassB_chain_go (n k : Nat) (ds : Nat → Bool)
    (fs : Nat → List FieldV) (hk : k ≤ n) (m : Nat) :
    ∀ (i : Nat), 2 ≤ i → i + m = n + 1 →
    copyPassB (k + 1) 0 (List.range' i m)
      (chainMidW n k ds fs [] (chainSlMid n k) (chainDfSrc n ds)
        (chainCopyCh k) fs, chainPlF n k (i - 1)) =
    (chainMidW n k ds fs [] (chainSlMid n k) (chainDfSrc n ds)
      (chainCopyCh k) fs, chainPlF n k n) := by
  induction m with
  | zero =>
      intro i h2 hm
      have hi : i - 1 = n := by omega
      rw [hi, show List.range' i 0 = [] from rfl, copyPassB]
  | succ m ih =>
      intro i h2 hm
      rw [List.range'_succ, copyPassB]
      rw [chainMidW_catalogAt_dst, chainCat_entry n i (by omega) (by omega)]
      dsimp only
      have hslot : (chainMidW n k ds fs [] (chainSlMid n k) (chainDfSrc n ds)
          (chainCopyCh k) fs).slot (k + 1) i =
          if 1 ≤ i ∧ i ≤ k then some (k + 1 + i) else none := by
        rw [chainMidW_slot_dst]
        unfold chainSlMid
        exact map_range_getD _ _ _ _ (by omega)
      by_cases hik : i ≤ k
      · rw [if_pos ⟨by omega, hik⟩] at hslot
        rw [hslot]
        rw [if_pos (by
          simp only [Option.isSome_some, Bool.and_true]
          simp
          omega)]
        have hsrcp : (chainMidW n k ds fs [] (chainSlMid n k) (chainDfSrc n ds)
            (chainCopyCh k) fs).slot 0 (i - 1) =
            if 1 ≤ i - 1 ∧ i - 1 ≤ k then some (i - 1) else none :=
          chainMidW_slot_src _ _ _ _ _ _ _ _ _ _ (by omega)
        rw [if_pos ⟨by omega, by omega⟩] at hsrcp
        have hsrci : (chainMidW n k ds fs [] (chainSlMid n k) (chainDfSrc n ds)
            (chainCopyCh k) fs).slot 0 i =
            if 1 ≤ i ∧ i ≤ k then some i else none :=
          chainMidW_slot_src _ _ _ _ _ _ _ _ _ _ (by omega)
        rw [if_pos ⟨by omega, hik⟩] at hsrci
        have hpl : (chainPlF n k (i - 1)).getD (i - 1) none =
            some (k + 1 + (i - 1)) := by
          unfold chainPlF
          rw [map_range_getD _ _ _ _ (by omega)]
          rw [if_pos ⟨by omega, by omega⟩]
        rw [hsrcp, hsrci, hpl]
        dsimp only
        have hchsrc : (chainMidW n k ds fs [] (chainSlMid n k) (chainDfSrc n ds)
            (chainCopyCh k) fs).childrenOf (i - 1) = [i] := by
          rw [chainMidW_childrenOf_src _ _ _ _ _ _ _ _ _ _ (by omega) (by omega)]
          rw [if_pos (by omega), show i - 1 + 1 = i from by omega]
        have hchdst : (chainMidW n k ds fs [] (chainSlMid n k) (chainDfSrc n ds)
            (chainCopyCh k) fs).childrenOf (k + 1 + (i - 1)) =
            [k + 2 + (i - 1)] := by
          rw [chainMidW_childrenOf_copy _ _ _ _ _ _ _ _ _ _ (by omega) (by omega)]
          unfold chainCopyCh
          rw [if_pos (by omega)]
        rw [hchsrc, hchdst, findIn_singleton]
        dsimp only
        rw [show ([k + 2 + (i - 1)].get? 0) = some (k + 2 + (i - 1)) from rfl]
        dsimp only
        have hplset : (chainPlF n k (i - 1)).set i (some (k + 2 + (i - 1))) =
            chainPlF n k i := by
          unfold chainPlF
          rw [map_range_set _ _ _ _ (by omega)]
          exact map_range_congr _ _ _ (fun x hx => by
            by_cases hxe : x = i
            · subst hxe
              rw [if_pos rfl, if_pos (by omega),
                show k + 2 + (x - 1) = k + 1 + x from by omega]
            · rw [if_neg hxe]
              by_cases hxm : 1 ≤ x ∧ x ≤ min (i - 1) k
              · rw [if_pos hxm, if_pos (by omega)]
              · rw [if_neg hxm, if_neg (by omega)])
        rw [hplset]
        have hIH := ih (i + 1) (by omega) (by omega)
        rw [show i + 1 - 1 = i from by omega] at hIH
        exact hIH
      · rw [if_neg (by omega)] at hslot
        rw [hslot]
        rw [if_neg (by simp)]
        have hpleq : chainPlF n k (i - 1) = chainPlF n k i := by
          unfold chainPlF
          exact map_range_congr _ _ _ (fun x hx => by
            by_cases hxm : 1 ≤ x ∧ x ≤ min (i - 1) k
            · rw [if_pos hxm, if_pos (by omega)]
            · rw [if_neg hxm, if_neg (by omega)])
        rw [hpleq]
        have hIH := ih (i + 1) (by omega) (by omega)
        rw [show i + 1 - 1 = i from by omega] at hIH
        exact hIH

theorem copyPassB_chain (n k : Nat) (ds : Nat → Bool) (fs : Nat → List FieldV)
    (hn : 1 ≤ n) (hk : k ≤ n) :
    copyPassB (k + 1) 0 (List.range' 1 n)
      (chainMidW n k ds fs [] (chainSlMid n k) (chainDfSrc n ds)
        (chainCopyCh k) fs, chainPlF n k 1) =
    (chainMidW n k ds fs [] (chainSlMid n k) (chainDfSrc n ds)
      (chainCopyCh k) fs, chainPlF n k n) := by
  have hsplit : List.range' 1 n = 1 :: List.range' 2 (n - 1) := by
    rw [show n = (n - 1) + 1 from by omega, List.range'_succ]
    simp
  rw [hsplit, copyPassB]
  rw [chainMidW_catalogAt_dst, chainCat_entry n 1 (Nat.le_refl _) hn]
  dsimp only
  rw [if_neg (by simp)]
  have hgo := copyPassB_chain_go n k ds fs hk (n - 1) 2 (by omega) (by omega)
  rw [show (2 : Nat) - 1 = 1 from rfl] at hgo
  exact hgo

/-! The setPart step used by setParts when installing a part whose slot is
empty, whose parent is already present and whose right sibling chain is
empty. -/

theorem siblingWalk_none (w : World) (kit : Nat) (cat : Catalog) (f : Nat) :
    siblingWalk w kit cat f none = none := by
  cases f <;> rfl

theorem setPart_simple (w : World) (kit partnum nnode parent : Nat)
    (h1 : 0 < partnum) (h2 : partnum < (w.node kit).slots.length)
    (htype : w.ts.isDerivedFrom ((w.node nnode).typeId)
      (((w.catalogAt kit).entry partnum).typeId) = true)
    (hpr : (if ((w.catalogAt kit).entry partnum).parentNum == 0 then some kit
            else w.slot kit ((w.catalogAt kit).entry partnum).parentNum) =
      some parent)
    (hold : w.slot kit partnum = none)
    (hnc : (w.childrenOf parent).contains nnode = false)
    (hsib : ((w.catalogAt kit).entry partnum).rightSibling = none) :
    setPart w kit partnum (some nnode) =
      (true, ((w.setChildren parent (w.childrenOf parent ++ [nnode])).setSlot
        kit partnum (some nnode)).setDefaultF kit partnum false) := by
  have hnc' : nnode ∉ w.childrenOf parent := by simpa using hnc
  rw [setPart, show 2 * partnum + 2 = (2 * partnum + 1) + 1 from rfl, partOp]
  rw [if_pos (show 0 < partnum ∧ partnum < (w.node kit).slots.length
    from ⟨h1, h2⟩)]
  dsimp only
  rw [htype]
  simp only [if_true]
  by_cases hpn : (((w.catalogAt kit).entry partnum).parentNum == 0) = true
  · simp only [hpn, if_true] at hpr ⊢
    obtain rfl : kit = parent := Option.some.inj hpr
    simp [hold, hnc', getRightSiblingIndex, hsib, siblingWalk_none]
  · rw [Bool.not_eq_true] at hpn
    simp only [hpn, if_false] at hpr ⊢
    match hslot : w.slot kit ((w.catalogAt kit).entry partnum).parentNum with
    | some p =>
        simp only [hslot] at hpr ⊢
        obtain rfl : p = parent := Option.some.inj hpr
        simp [hold, hnc', getRightSiblingIndex, hsib, siblingWalk_none]
    | none => simp [hslot] at hpr

theorem chainSt_world_congr (n k : Nat) (ds : Nat → Bool)
    (fs : Nat → List FieldV) (B m m' : Nat) (h : min m B = min m' B) :
    chainMidW n k ds fs (chainChSt k B m) (chainSlSt n k B m)
      (chainDfSt n B m) (chainCchSt k B m) fs =
    chainMidW n k ds fs (chainChSt k B m') (chainSlSt n k B m')
      (chainDfSt n B m') (chainCchSt k B m') fs := by
  unfold chainChSt chainSlSt chainDfSt chainCchSt
  rw [h]

/-! The non-leaf installation pass on the chain. -/

theorem setPartsGoNL_chain (n k : Nat) (ds : Nat → Bool)
    (fs : Nat → List FieldV) (hn : 1 ≤ n) (hk : k ≤ n) (m : Nat) :
    ∀ (i : Nat), 1 ≤ i → i + m = n + 1 →
    setPartsGo (k + 1) (chainPlF n k n) false (List.range' i m)
      (chainMidW n k ds fs (chainChSt k (min k (n - 1)) (i - 1))
        (chainSlSt n k (min k (n - 1)) (i - 1))
        (chainDfSt n (min k (n - 1)) (i - 1))
        (chainCchSt k (min k (n - 1)) (i - 1)) fs) =
    chainMidW n k ds fs (chainChSt k (min k (n - 1)) n)
      (chainSlSt n k (min k (n - 1)) n) (chainDfSt n (min k (n - 1)) n)
      (chainCchSt k (min k (n - 1)) n) fs := by
  induction m with
  | zero =>
      intro i h1 hm
      rw [show List.range' i 0 = [] from rfl, setPartsGo,
        show (i - 1 : Nat) = n from by omega]
  | succ m ih =>
      intro i h1 hm
      have hIH := ih (i + 1) (by omega) (by omega)
      rw [show i + 1 - 1 = i from by omega] at hIH
      rw [List.range'_succ, setPartsGo]
      dsimp only
      have hpl : (chainPlF n k n).getD i none =
          if 1 ≤ i ∧ i ≤ k then some (k + 1 + i) else none := by
        unfold chainPlF
        rw [map_range_getD _ _ _ _ (by omega)]
        by_cases hik : 1 ≤ i ∧ i ≤ min n k
        · rw [if_pos hik, if_pos (by omega)]
        · rw [if_neg hik, if_neg (by omega)]
      by_cases hik : i ≤ k
      · rw [if_pos ⟨h1, hik⟩] at hpl
        simp only [hpl]
        rw [chainMidW_catalogAt_dst, chainCat_entry n i h1 (by omega)]
        dsimp only
        by_cases hin : i = n
        · have hbeq1 : (i == n) = true := beq_iff_eq.mpr hin
          rw [hbeq1]
          rw [if_neg (by simp)]
          rw [chainSt_world_congr n k ds fs (min k (n - 1)) (i - 1) i (by omega)]
          exact hIH
        · have hilt : i < n := by omega
          have hBi : i ≤ min k (n - 1) := by omega
          have hbeq : (i == n) = false := by simpa using hin
          rw [hbeq]
          rw [if_pos (by decide)]
          rw [show (!false) = true from rfl, if_pos rfl]
          rw [chainMidW_setChildren_copy n k ds fs _ _ _ _ _ i h1 hik]
          by_cases hi1 : i = 1
          · subst hi1
            have hch0 : chainChSt k (min k (n - 1)) (1 - 1) = [] := by
              unfold chainChSt
              simp
            rw [hch0]
            have hsp := setPart_simple
              (chainMidW n k ds fs [] (chainSlSt n k (min k (n - 1)) (1 - 1))
                (chainDfSt n (min k (n - 1)) (1 - 1))
                (fun x => if x = 1 then [] else
                  chainCchSt k (min k (n - 1)) (1 - 1) x) fs)
              (k + 1) 1 (k + 1 + 1) (k + 1) (by omega)
              (by
                rw [chainMidW_node_dst]
                unfold chainSlSt
                simp only [List.length_map, List.length_range]
                omega)
              (by
                rw [chainMidW_node_copy _ _ _ _ _ _ _ _ _ _ (by omega) hik,
                  chainMidW_catalogAt_dst, chainCat_entry n 1 (by omega) (by omega),
                  chainMidW_ts]
                show exTS.isDerivedFrom SoGroupT SoGroupT = true
                decide)
              (by
                rw [chainMidW_catalogAt_dst, chainCat_entry n 1 (by omega) (by omega)]
                dsimp only
                rw [if_pos (by decide)])
              (by
                rw [chainMidW_slot_dst]
                unfold chainSlSt
                rw [map_range_getD _ _ _ _ (by omega)]
                rw [if_neg (by omega)])
              (by
                rw [chainMidW_childrenOf_dst]
                rfl)
              (by
                rw [chainMidW_catalogAt_dst, chainCat_entry n 1 (by omega) (by omega)])
            rw [hsp]
            dsimp only
            rw [chainMidW_childrenOf_dst]
            rw [show ([] : List Nat) ++ [k + 1 + 1] = [k + 1 + 1] from rfl]
            rw [chainMidW_setChildren_dst, chainMidW_setSlot_dst,
              chainMidW_setDefaultF_dst]
            have hst : chainMidW n k ds fs [k + 1 + 1]
                ((chainSlSt n k (min k (n - 1)) (1 - 1)).set 1 (some (k + 1 + 1)))
                ((chainDfSt n (min k (n - 1)) (1 - 1)).set 1 false)
                (fun x => if x = 1 then [] else
                  chainCchSt k (min k (n - 1)) (1 - 1) x) fs =
                chainMidW n k ds fs (chainChSt k (min k (n - 1)) 1)
                  (chainSlSt n k (min k (n - 1)) 1)
                  (chainDfSt n (min k (n - 1)) 1)
                  (chainCchSt k (min k (n - 1)) 1) fs := by
              have hch : chainChSt k (min k (n - 1)) 1 = [k + 1 + 1] := by
                unfold chainChSt
                rw [if_neg (by omega)]
              have hsl : (chainSlSt n k (min k (n - 1)) (1 - 1)).set 1
                  (some (k + 1 + 1)) = chainSlSt n k (min k (n - 1)) 1 := by
                unfold chainSlSt
                rw [map_range_set _ _ _ _ (by omega)]
                exact map_range_congr _ _ _ (fun x hx => by
                  by_cases hxe : x = 1
                  · subst hxe
                    rw [if_pos rfl, if_pos (by omega)]
                  · rw [if_neg hxe, if_neg (by omega), if_neg (by omega)])
              have hdf : (chainDfSt n (min k (n - 1)) (1 - 1)).set 1 false =
                  chainDfSt n (min k (n - 1)) 1 := by
                unfold chainDfSt
                rw [map_range_set _ _ _ _ (by omega)]
                exact map_range_congr _ _ _ (fun x hx => by
                  by_cases hxe : x = 1
                  · subst hxe
                    rw [if_pos rfl, if_pos (by omega)]
                  · rw [if_neg hxe, if_neg (by omega), if_neg (by omega)])
              rw [hch, hsl, hdf]
              refine chainMidW_congr n k ds fs _ _ _ _ _ _ _
                (fun x hx1 hx2 => ⟨?_, rfl⟩)
              unfold chainCchSt
              by_cases hxe : x = 1
              · subst hxe
                rw [if_pos rfl, if_pos (by omega)]
              · rw [if_neg hxe, if_neg (by omega), if_neg (by omega)]
            rw [hst]
            exact hIH
          · have hi2 : 2 ≤ i := by omega
            have hsp := setPart_simple
              (chainMidW n k ds fs (chainChSt k (min k (n - 1)) (i - 1))
                (chainSlSt n k (min k (n - 1)) (i - 1))
                (chainDfSt n (min k (n - 1)) (i - 1))
                (fun x => if x = i then [] else
                  chainCchSt k (min k (n - 1)) (i - 1) x) fs)
              (k + 1) i (k + 1 + i) (k + 1 + (i - 1)) (by omega)
              (by
                rw [chainMidW_node_dst]
                unfold chainSlSt
                simp only [List.length_map, List.length_range]
                omega)
              (by
                rw [chainMidW_node_copy _ _ _ _ _ _ _ _ _ _ h1 hik,
                  chainMidW_catalogAt_dst, chainCat_entry n i h1 (by omega),
                  chainMidW_ts]
                show exTS.isDerivedFrom SoGroupT SoGroupT = true
                decide)
              (by
                rw [chainMidW_catalogAt_dst, chainCat_entry n i h1 (by omega)]
                dsimp only
                rw [if_neg (by simpa using (by omega : i - 1 ≠ 0))]
                rw [chainMidW_slot_dst]
                unfold chainSlSt
                rw [map_range_getD _ _ _ _ (by omega)]
                rw [if_pos ⟨by omega, by omega⟩]
              )
              (by
                rw [chainMidW_slot_dst]
                unfold chainSlSt
                rw [map_range_getD _ _ _ _ (by omega)]
                rw [if_neg (by omega)])
              (by
                rw [chainMidW_childrenOf_copy _ _ _ _ _ _ _ _ _ _
                  (by omega) (by omega)]
                rw [if_neg (by omega)]
                unfold chainCchSt
                rw [if_pos ⟨by omega, by omega⟩]
                rfl)
              (by
                rw [chainMidW_catalogAt_dst, chainCat_entry n i h1 (by omega)])
            rw [hsp]
            dsimp only
            rw [chainMidW_childrenOf_copy _ _ _ _ _ _ _ _ _ _ (by omega) (by omega)]
            rw [if_neg (by omega)]
            rw [show chainCchSt k (min k (n - 1)) (i - 1) (i - 1) = [] from by
              unfold chainCchSt
              rw [if_pos ⟨by omega, by omega⟩]]
            rw [show ([] : List Nat) ++ [k + 1 + i] = [k + 1 + i] from rfl]
            rw [chainMidW_setChildren_copy _ _ _ _ _ _ _ _ _ _
              (by omega) (by omega), chainMidW_setSlot_dst,
              chainMidW_setDefaultF_dst]
            have hst : chainMidW n k ds fs (chainChSt k (min k (n - 1)) (i - 1))
                ((chainSlSt n k (min k (n - 1)) (i - 1)).set i (some (k + 1 + i)))
                ((chainDfSt n (min k (n - 1)) (i - 1)).set i false)
                (fun x => if x = i - 1 then [k + 1 + i] else
                  if x = i then [] else
                    chainCchSt k (min k (n - 1)) (i - 1) x) fs =
                chainMidW n k ds fs (chainChSt k (min k (n - 1)) i)
                  (chainSlSt n k (min k (n - 1)) i)
                  (chainDfSt n (min k (n - 1)) i)
                  (chainCchSt k (min k (n - 1)) i) fs := by
              have hch : chainChSt k (min k (n - 1)) (i - 1) =
                  chainChSt k (min k (n - 1)) i := by
                unfold chainChSt
                rw [if_neg (by omega), if_neg (by omega)]
              have hsl : (chainSlSt n k (min k (n - 1)) (i - 1)).set i
                  (some (k + 1 + i)) = chainSlSt n k (min k (n - 1)) i := by
                unfold chainSlSt
                rw [map_range_set _ _ _ _ (by omega)]
                exact map_range_congr _ _ _ (fun x hx => by
                  by_cases hxe : x = i
                  · subst hxe
                    rw [if_pos rfl, if_pos (by omega)]
                  · rw [if_neg hxe]
                    by_cases hxm : 1 ≤ x ∧ x ≤ min (i - 1) (min k (n - 1))
                    · rw [if_pos hxm, if_pos (by omega)]
                    · rw [if_neg hxm, if_neg (by omega)])
              have hdf : (chainDfSt n (min k (n - 1)) (i - 1)).set i false =
                  chainDfSt n (min k (n - 1)) i := by
                unfold chainDfSt
                rw [map_range_set _ _ _ _ (by omega)]
                exact map_range_congr _ _ _ (fun x hx => by
                  by_cases hxe : x = i
                  · subst hxe
                    rw [if_pos rfl, if_pos (by omega)]
                  · rw [if_neg hxe]
                    by_cases hxm : 1 ≤ x ∧ x ≤ min (i - 1) (min k (n - 1))
                    · rw [if_pos hxm, if_pos (by omega)]
                    · rw [if_neg hxm, if_neg (by omega)])
              rw [hch, hsl, hdf]
              refine chainMidW_congr n k ds fs _ _ _ _ _ _ _
                (fun x hx1 hx2 => ⟨?_, rfl⟩)
              unfold chainCchSt chainCopyCh
              by_cases hxe : x = i - 1
              · subst hxe
                rw [if_pos rfl,
                  if_neg (show ¬(1 ≤ i - 1 ∧ i - 1 = min i (min k (n - 1)))
                    from by omega),
                  if_pos (show i - 1 < k from by omega),
                  show k + 1 + i = k + 2 + (i - 1) from by omega]
              · rw [if_neg hxe]
                by_cases hxi : x = i
                · subst hxi
                  rw [if_pos rfl, if_pos ⟨by omega, by omega⟩]
                · rw [if_neg hxi,
                    if_neg (show ¬(1 ≤ x ∧ x = min (i - 1) (min k (n - 1)))
                      from by omega),
                    if_neg (show ¬(1 ≤ x ∧ x = min i (min k (n - 1)))
                      from by omega)]
            rw [hst]
            exact hIH
      · rw [if_neg (by omega)] at hpl
        simp only [hpl]
        rw [chainSt_world_congr n k ds fs (min k (n - 1)) (i - 1) i (by omega)]
        exact hIH

theorem setPartsGo_append (dstkit : Nat) (pl : List (Option Nat)) (lp : Bool)
    (l1 l2 : List Nat) : ∀ w, setPartsGo dstkit pl lp (l1 ++ l2) w =
    setPartsGo dstkit pl lp l2 (setPartsGo dstkit pl lp l1 w) := by
  induction l1 with
  | nil =>
      intro w
      simp only [List.nil_append]
      rw [setPartsGo]
  | cons i rest ihl =>
      intro w
      rw [List.cons_append, setPartsGo]
      conv_rhs => rw [setPartsGo]
      cases hq : pl.getD i none with
      | none =>
          simp only [hq]
          exact ihl _
      | some nd =>
          simp only [hq]
          split
          · exact ihl _
          · exact ihl _

theorem setPartsGoLeaf_skip (n k : Nat) (ds : Nat → Bool)
    (fs : Nat → List FieldV) (l : List Nat)
    (hl : ∀ i ∈ l, 1 ≤ i ∧ i < n) :
    ∀ (ch : List Nat) (sl : List (Option Nat)) (df : List Bool)
      (cch : Nat → List Nat) (cfs : Nat → List FieldV),
    setPartsGo (k + 1) (chainPlF n k n) true l
      (chainMidW n k ds fs ch sl df cch cfs) =
    chainMidW n k ds fs ch sl df cch cfs := by
  induction l with
  | nil =>
      intro ch sl df cch cfs
      rw [setPartsGo]
  | cons i rest ihl =>
      intro ch sl df cch cfs
      obtain ⟨hi1, hin⟩ := hl i (List.mem_cons_self _ _)
      have htl : ∀ i ∈ rest, 1 ≤ i ∧ i < n :=
        fun j hj => hl j (List.mem_cons_of_mem _ hj)
      rw [setPartsGo]
      dsimp only
      have hpl : (chainPlF n k n).getD i none =
          if 1 ≤ i ∧ i ≤ k then some (k + 1 + i) else none := by
        unfold chainPlF
        rw [map_range_getD _ _ _ _ (by omega)]
        by_cases hik : 1 ≤ i ∧ i ≤ min n k
        · rw [if_pos hik, if_pos (by omega)]
        · rw [if_neg hik, if_neg (by omega)]
      by_cases hik : i ≤ k
      · rw [if_pos ⟨hi1, hik⟩] at hpl
        simp only [hpl]
        rw [chainMidW_catalogAt_dst, chainCat_entry n i hi1 (by omega)]
        dsimp only
        rw [show (i == n) = false from by simpa using (by omega : i ≠ n)]
        rw [if_neg (by simp)]
        exact ihl htl ch sl df cch cfs
      · rw [if_neg (by omega)] at hpl
        simp only [hpl]
        exact ihl htl ch sl df cch cfs

theorem setPartsGoLeaf_chain (n k : Nat) (ds : Nat → Bool)
    (fs : Nat → List FieldV) (hn : 1 ≤ n) (hk : k ≤ n) :
    setPartsGo (k + 1) (chainPlF n k n) true (List.range' 1 n)
      (chainMidW n k ds fs (chainChSt k (min k (n - 1)) n)
        (chainSlSt n k (min k (n - 1)) n) (chainDfSt n (min k (n - 1)) n)
        (chainCchSt k (min k (n - 1)) n) fs) =
    chainMidW n k ds fs (if k = 0 then [] else [k + 2]) (chainSlMid n k)
      (chainDfPre n k) (chainCopyCh k) fs := by
  have hsplit : List.range' 1 n = List.range' 1 (n - 1) ++ [n] := by
    have h2 := List.range'_append_1 1 (n - 1) 1
    rw [show 1 + (n - 1) = n from by omega] at h2
    rw [show List.range' n 1 = [n] from rfl] at h2
    exact h2.symm
  rw [hsplit, setPartsGo_append]
  rw [setPartsGoLeaf_skip n k ds fs _ (fun j hj => by
    rw [List.mem_range'_1] at hj
    omega)]
  rw [setPartsGo]
  have hpl : (chainPlF n k n).getD n none =
      if k = n then some (k + 1 + n) else none := by
    unfold chainPlF
    rw [map_range_getD _ _ _ _ (by omega)]
    by_cases hkn : k = n
    · rw [if_pos ⟨by omega, by omega⟩, if_pos hkn]
    · rw [if_neg (by omega), if_neg hkn]
  by_cases hkn : k = n
  · rw [if_pos hkn] at hpl
    simp only [hpl]
    rw [chainMidW_catalogAt_dst, chainCat_entry n n (by omega) (Nat.le_refl _)]
    dsimp only
    rw [beq_self_eq_true]
    rw [if_pos (by decide)]
    rw [show (!true) = false from rfl]
    rw [if_neg (by simp)]
    by_cases hn1 : n = 1
    · have hk1 : k = 1 := by omega
      subst hn1
      subst hk1
      rw [setPartsGo]
      have hch0 : chainChSt 1 (min 1 (1 - 1)) 1 = [] := by
        unfold chainChSt
        simp
      rw [hch0]
      have hsp := setPart_simple
        (chainMidW 1 1 ds fs [] (chainSlSt 1 1 (min 1 (1 - 1)) 1)
          (chainDfSt 1 (min 1 (1 - 1)) 1) (chainCchSt 1 (min 1 (1 - 1)) 1) fs)
        (1 + 1) 1 (1 + 1 + 1) (1 + 1) (by omega)
        (by
          rw [chainMidW_node_dst]
          unfold chainSlSt
          simp only [List.length_map, List.length_range]
          omega)
        (by
          rw [chainMidW_node_copy _ _ _ _ _ _ _ _ _ _ (by omega) (by omega),
            chainMidW_catalogAt_dst, chainCat_entry 1 1 (by omega) (by omega),
            chainMidW_ts]
          show exTS.isDerivedFrom SoGroupT SoGroupT = true
          decide)
        (by
          rw [chainMidW_catalogAt_dst, chainCat_entry 1 1 (by omega) (by omega)]
          dsimp only
          rw [if_pos (by decide)])
        (by
          rw [chainMidW_slot_dst]
          unfold chainSlSt
          rw [map_range_getD _ _ _ _ (by omega)]
          rw [if_neg (by omega)])
        (by
          rw [chainMidW_childrenOf_dst]
          rfl)
        (by
          rw [chainMidW_catalogAt_dst, chainCat_entry 1 1 (by omega) (by omega)])
      rw [hsp]
      dsimp only
      rw [chainMidW_childrenOf_dst]
      rw [show ([] : List Nat) ++ [1 + 1 + 1] = [1 + 1 + 1] from rfl]
      rw [chainMidW_setChildren_dst, chainMidW_setSlot_dst,
        chainMidW_setDefaultF_dst]
      have hch : ([1 + 1 + 1] : List Nat) =
          (if (1 : Nat) = 0 then [] else [1 + 2]) := by
        rw [if_neg (by omega)]
      have hsl : (chainSlSt 1 1 (min 1 (1 - 1)) 1).set 1 (some (1 + 1 + 1)) =
          chainSlMid 1 1 := by
        unfold chainSlSt chainSlMid
        rw [map_range_set _ _ _ _ (by omega)]
        exact map_range_congr _ _ _ (fun x hx => by
          by_cases hxe : x = 1
          · subst hxe
            rw [if_pos rfl, if_pos (by omega)]
          · rw [if_neg hxe, if_neg (by omega), if_neg (by omega)])
      have hdf : (chainDfSt 1 (min 1 (1 - 1)) 1).set 1 false =
          chainDfPre 1 1 := by
        unfold chainDfSt chainDfPre
        rw [map_range_set _ _ _ _ (by omega)]
        exact map_range_congr _ _ _ (fun x hx => by
          by_cases hxe : x = 1
          · subst hxe
            rw [if_pos rfl, if_pos (by omega)]
          · rw [if_neg hxe, if_neg (by omega), if_neg (by omega)])
      rw [hch, hsl, hdf]
      refine chainMidW_congr 1 1 ds fs _ _ _ _ _ _ _
        (fun x hx1 hx2 => ⟨?_, rfl⟩)
      unfold chainCchSt
      rw [if_neg (by omega)]
    · have hn2 : 2 ≤ n := by omega
      have hsp := setPart_simple
        (chainMidW n k ds fs (chainChSt k (min k (n - 1)) n)
          (chainSlSt n k (min k (n - 1)) n) (chainDfSt n (min k (n - 1)) n)
          (chainCchSt k (min k (n - 1)) n) fs)
        (k + 1) n (k + 1 + n) (k + 1 + (n - 1)) (by omega)
        (by
          rw [chainMidW_node_dst]
          unfold chainSlSt
          simp only [List.length_map, List.length_range]
          omega)
        (by
          rw [chainMidW_node_copy _ _ _ _ _ _ _ _ _ _ (by omega) (by omega),
            chainMidW_catalogAt_dst, chainCat_entry n n (by omega) (by omega),
            chainMidW_ts]
          show exTS.isDerivedFrom SoGroupT SoGroupT = true
          decide)
        (by
          rw [chainMidW_catalogAt_dst, chainCat_entry n n (by omega) (by omega)]
          dsimp only
          rw [if_neg (by simpa using (by omega : n - 1 ≠ 0))]
          rw [chainMidW_slot_dst]
          unfold chainSlSt
          rw [map_range_getD _ _ _ _ (by omega)]
          rw [if_pos ⟨by omega, by omega⟩])
        (by
          rw [chainMidW_slot_dst]
          unfold chainSlSt
          rw [map_range_getD _ _ _ _ (by omega)]
          rw [if_neg (by omega)])
        (by
          rw [chainMidW_childrenOf_copy _ _ _ _ _ _ _ _ _ _
            (by omega) (by omega)]
          unfold chainCchSt
          rw [if_pos ⟨by omega, by omega⟩]
          rfl)
        (by
          rw [chainMidW_catalogAt_dst, chainCat_entry n n (by omega) (by omega)])
      rw [hsp]
      dsimp only
      rw [chainMidW_childrenOf_copy _ _ _ _ _ _ _ _ _ _ (by omega) (by omega)]
      rw [show chainCchSt k (min k (n - 1)) n (n - 1) = [] from by
        unfold chainCchSt
        rw [if_pos ⟨by omega, by omega⟩]]
      rw [show ([] : List Nat) ++ [k + 1 + n] = [k + 1 + n] from rfl]
      rw [chainMidW_setChildren_copy _ _ _ _ _ _ _ _ _ _ (by omega) (by omega),
        chainMidW_setSlot_dst, chainMidW_setDefaultF_dst, setPartsGo]
      have hch : chainChSt k (min k (n - 1)) n =
          (if k = 0 then [] else [k + 2]) := by
        unfold chainChSt
        rw [if_neg (by omega), if_neg (by omega)]
      have hsl : (chainSlSt n k (min k (n - 1)) n).set n (some (k + 1 + n)) =
          chainSlMid n k := by
        unfold chainSlSt chainSlMid
        rw [map_range_set _ _ _ _ (by omega)]
        exact map_range_congr _ _ _ (fun x hx => by
          by_cases hxe : x = n
          · subst hxe
            rw [if_pos rfl, if_pos (by omega)]
          · rw [if_neg hxe]
            by_cases hxm : 1 ≤ x ∧ x ≤ min n (min k (n - 1))
            · rw [if_pos hxm, if_pos (by omega)]
            · rw [if_neg hxm, if_neg (by omega)])
      have hdf : (chainDfSt n (min k (n - 1)) n).set n false =
          chainDfPre n k := by
        unfold chainDfSt chainDfPre
        rw [map_range_set _ _ _ _ (by omega)]
        exact map_range_congr _ _ _ (fun x hx => by
          by_cases hxe : x = n
          · subst hxe
            rw [if_pos rfl, if_pos (by omega)]
          · rw [if_neg hxe]
            by_cases hxm : 1 ≤ x ∧ x ≤ min n (min k (n - 1))
            · rw [if_pos hxm, if_pos (by omega)]
            · rw [if_neg hxm, if_neg (by omega)])
      rw [hch, hsl, hdf]
      refine chainMidW_congr n k ds fs _ _ _ _ _ _ _
        (fun x hx1 hx2 => ⟨?_, rfl⟩)
      unfold chainCchSt chainCopyCh
      by_cases hxe : x = n - 1
      · subst hxe
        rw [if_pos rfl, if_pos (show n - 1 < k from by omega),
          show k + 1 + n = k + 2 + (n - 1) from by omega]
      · rw [if_neg hxe, if_neg (by omega)]
  · rw [if_neg hkn] at hpl
    simp only [hpl]
    rw [setPartsGo]
    have hch : chainChSt k (min k (n - 1)) n =
        (if k = 0 then [] else [k + 2]) := by
      unfold chainChSt
      by_cases hk0 : k = 0
      · rw [if_pos (by omega), if_pos hk0]
      · rw [if_neg (by omega), if_neg hk0]
    have hsl : chainSlSt n k (min k (n - 1)) n = chainSlMid n k := by
      unfold chainSlSt chainSlMid
      exact map_range_congr _ _ _ (fun x hx => by
        by_cases hxm : 1 ≤ x ∧ x ≤ min n (min k (n - 1))
        · rw [if_pos hxm, if_pos (by omega)]
        · rw [if_neg hxm, if_neg (by omega)])
    have hdf : chainDfSt n (min k (n - 1)) n = chainDfPre n k := by
      unfold chainDfSt chainDfPre
      exact map_range_congr _ _ _ (fun x hx => by
        by_cases hxm : 1 ≤ x ∧ x ≤ min n (min k (n - 1))
        · rw [if_pos hxm, if_pos (by omega)]
        · rw [if_neg hxm, if_neg (by omega)])
    rw [hch, hsl, hdf]
    refine chainMidW_congr n k ds fs _ _ _ _ _ _ _
      (fun x hx1 hx2 => ⟨?_, rfl⟩)
    unfold chainCchSt chainCopyCh
    by_cases hxe : 1 ≤ x ∧ x = min n (min k (n - 1))
    · rw [if_pos hxe, if_neg (by omega)]
    · rw [if_neg hxe]

theorem chainMidW_setNode_dst (n k : Nat) (ds : Nat → Bool)
    (fs : Nat → List FieldV) (ch : List Nat) (sl : List (Option Nat))
    (df : List Bool) (cch : Nat → List Nat) (cfs : Nat → List FieldV)
    (ch' : List Nat) (sl' : List (Option Nat)) (df' : List Bool) :
    (chainMidW n k ds fs ch sl df cch cfs).setNode (k + 1)
        ⟨100, ch', [], sl', df', none, []⟩ =
      chainMidW n k ds fs ch' sl' df' cch cfs := by
  unfold World.setNode
  apply world_eq_of_heap
  · show (chainMidW n k ds fs ch sl df cch cfs).heap.set (k + 1)
      ⟨100, ch', [], sl', df', none, []⟩ = _
    have hlen : (chainKitNode n k ds ::
        (List.range' 1 k).map (chainPart k fs)).length = k + 1 := by simp
    exact set_middle' _ _ _ _ _ hlen.symm
  · rfl
  · rfl

/-! The deep copy of the whole chain kit. -/

theorem kitCopyContents_chain (n k : Nat) (ds : Nat → Bool)
    (fs : Nat → List FieldV) (hn : 1 ≤ n) (hk : k ≤ n) :
    kitCopyContents (chainW n k ds fs) (k + 1) 0 =
      chainWFinal n k ds fs := by
  unfold kitCopyContents
  dsimp only
  rw [copySupport_chainW n k ds fs hk,
    List.Nodup.dedup (List.nodup_range' _ _), chainW_heapLength]
  have hblanks : (List.range' 1 k).map
      (fun x => blankNode (chainW n k ds fs)
        ((chainW n k ds fs).node x).typeId) =
      (List.range' 1 k).map
        (fun c => (⟨SoGroupT, [], [], [], [], none, []⟩ : NodeObj)) := by
    refine map_range'_congr _ _ _ _ (fun x hx1 hx2 => ?_)
    rw [chainW_node_src n k ds fs x hx1 (by omega)]
    rfl
  rw [hblanks]
  have hw0 : ({ chainW n k ds fs with
      heap := (chainW n k ds fs).heap ++ (List.range' 1 k).map
        (fun c => (⟨SoGroupT, [], [], [], [], none, []⟩ : NodeObj)) } : World) =
      chainMidW n k ds fs [] (List.replicate (n + 1) none)
        (List.replicate (n + 1) true) (fun _ => []) (fun _ => []) := by
    apply world_eq_of_heap
    · show (chainW n k ds fs).heap ++ _ = _
      unfold chainW chainMidW
      simp
    · rfl
    · rfl
  rw [hw0]
  rw [chainMidW_node_dst, chainMidW_node_zero]
  have hmap : ((chainKitNode n k ds).slots).map
      (fun s => s.bind (dictOf (k + 2) (List.range' 1 k))) = chainSlMid n k := by
    unfold chainKitNode chainSlMid
    dsimp only
    rw [List.map_map]
    refine map_range_congr _ _ _ (fun x hx => ?_)
    show ((if 1 ≤ x ∧ x ≤ k then some x else none).bind
      (dictOf (k + 2) (List.range' 1 k))) = _
    by_cases hxk : 1 ≤ x ∧ x ≤ k
    · rw [if_pos hxk, if_pos hxk]
      show dictOf (k + 2) (List.range' 1 k) x = _
      rw [dict_chain, if_pos hxk]
    · rw [if_neg hxk, if_neg hxk]
      rfl
  have hdef : (chainKitNode n k ds).defaults = chainDfSrc n ds := rfl
  rw [show ({ (⟨100, [], [], List.replicate (n + 1) none,
      List.replicate (n + 1) true, none, []⟩ : NodeObj) with
        slots := ((chainKitNode n k ds).slots).map
          (fun s => s.bind (dictOf (k + 2) (List.range' 1 k)))
        defaults := (chainKitNode n k ds).defaults } : NodeObj) =
      ⟨100, [], [], chainSlMid n k, chainDfSrc n ds, none, []⟩ from by
    rw [hmap, hdef]]
  rw [chainMidW_setNode_dst]
  rw [chainMidW_node_dst]
  dsimp only
  have hsllen : (chainSlMid n k).length = n + 1 := by
    unfold chainSlMid
    simp
  rw [hsllen, drop1_range, show n + 1 - 1 = n from rfl]
  unfold copyParts
  have hff : 2 * k + 3 ≤ (k + 2 + 2) * (k + 2 + 2) := by
    have h2 : 2 * (k + 2 + 2) ≤ (k + 2 + 2) * (k + 2 + 2) :=
      Nat.mul_le_mul_right _ (by omega)
    omega
  rw [copyPassA_chain n k ds fs hn hk _ hff (fun _ => []) (fun _ => [])
    (List.replicate (n + 1) none)]
  have hWA : chainMidW n k ds fs [] (chainSlMid n k) (chainDfSrc n ds)
      (fun x => if 1 ≤ x then (if x < k then [k + 2 + x] else [])
        else (fun _ => ([] : List Nat)) x)
      (fun x => if 1 ≤ x then fs x else (fun _ => ([] : List FieldV)) x) =
      chainMidW n k ds fs [] (chainSlMid n k) (chainDfSrc n ds)
        (chainCopyCh k) fs := by
    refine chainMidW_congr n k ds fs _ _ _ _ _ _ _ (fun x hx1 hx2 => ⟨?_, ?_⟩)
    · rw [if_pos hx1]
      rfl
    · rw [if_pos hx1]
  rw [hWA]
  have hplA : (if 1 ≤ k
      then (List.replicate (n + 1) (none : Option Nat)).set 1 (some (k + 2))
      else List.replicate (n + 1) none) = chainPlF n k 1 := by
    unfold chainPlF
    rw [replicate_eq_map_range]
    by_cases hk1 : 1 ≤ k
    · rw [if_pos hk1, map_range_set _ _ _ _ (by omega)]
      exact map_range_congr _ _ _ (fun x hx => by
        by_cases hxe : x = 1
        · subst hxe
          rw [if_pos rfl, if_pos (by omega)]
        · rw [if_neg hxe, if_neg (by omega)])
    · rw [if_neg hk1]
      exact map_range_congr _ _ _ (fun x hx => by
        rw [if_neg (by omega)])
  rw [hplA]
  rw [copyPassB_chain n k ds fs hn hk]
  dsimp only
  rw [chainMidW_setChildren_dst]
  rw [foldRange_reset_chain n k ds fs n 1]
  have hslR : setRunF (fun _ => (none : Option Nat)) (chainSlMid n k) 1 n =
      chainSlSt n k (min k (n - 1)) 0 := by
    unfold chainSlMid chainSlSt
    rw [setRunF_map_range _ _ _ _ _ (by omega)]
    exact map_range_congr _ _ _ (fun x hx => by
      by_cases hx1 : 1 ≤ x ∧ x < 1 + n
      · rw [if_pos hx1, if_neg (by omega)]
      · rw [if_neg hx1, if_neg (by omega), if_neg (by omega)])
  have hdfR : setRunF (fun _ => true) (chainDfSrc n ds) 1 n =
      chainDfSt n (min k (n - 1)) 0 := by
    unfold chainDfSrc chainDfSt
    rw [setRunF_map_range _ _ _ _ _ (by omega)]
    exact map_range_congr _ _ _ (fun x hx => by
      by_cases hx1 : 1 ≤ x ∧ x < 1 + n
      · rw [if_pos hx1, if_neg (by omega)]
      · rw [if_neg hx1, if_pos (show x = 0 from by omega),
          if_neg (show ¬(1 ≤ x ∧ x ≤ min 0 (min k (n - 1))) from by omega)])
  rw [hslR, hdfR]
  have hchR : ([] : List Nat) = chainChSt k (min k (n - 1)) 0 := by
    unfold chainChSt
    rw [if_pos (by omega)]
  rw [hchR]
  have hcchR : chainMidW n k ds fs (chainChSt k (min k (n - 1)) 0)
      (chainSlSt n k (min k (n - 1)) 0) (chainDfSt n (min k (n - 1)) 0)
      (chainCopyCh k) fs =
      chainMidW n k ds fs (chainChSt k (min k (n - 1)) 0)
        (chainSlSt n k (min k (n - 1)) 0) (chainDfSt n (min k (n - 1)) 0)
        (chainCchSt k (min k (n - 1)) 0) fs := by
    refine chainMidW_congr n k ds fs _ _ _ _ _ _ _ (fun x hx1 hx2 => ⟨?_, rfl⟩)
    unfold chainCchSt
    rw [if_neg (by omega)]
  rw [hcchR]
  have hNL := setPartsGoNL_chain n k ds fs hn hk n 1 (by omega) (by omega)
  rw [show (1 : Nat) - 1 = 0 from rfl] at hNL
  rw [hNL]
  rw [setPartsGoLeaf_chain n k ds fs hn hk]
  rw [foldRange_restore_chain n k ds fs (chainDfSrc n ds) n 1]
  have hdfF : setRunF (fun i => (chainDfSrc n ds).getD i true)
      (chainDfPre n k) 1 n = chainDfSrc n ds := by
    unfold chainDfPre
    rw [setRunF_map_range _ _ _ _ _ (by omega)]
    unfold chainDfSrc
    refine map_range_congr _ _ _ (fun x hx => ?_)
    by_cases hx1 : 1 ≤ x ∧ x < 1 + n
    · rw [if_pos hx1]
      rw [map_range_getD _ _ _ _ (by omega)]
    · rw [if_neg hx1, if_neg (by omega), if_pos (by omega)]
  rw [hdfF]
  unfold chainWFinal chainSlMid chainDfSrc chainCopyCh
  rfl

/-- Structural equivalence of the deep copy over chain kits of every
nesting depth n, every part-presence prefix k, every default-flag
assignment and every per-part field contents. -/
theorem kitCopyContents_chain_equiv (n k : Nat) (ds : Nat → Bool)
    (fs : Nat → List FieldV) (hn : 1 ≤ n) (hk : k ≤ n) :
    (∀ i, 1 ≤ i → i ≤ n →
      (((kitCopyContents (chainW n k ds fs) (k + 1) 0).slot (k + 1) i).isSome =
        ((chainW n k ds fs).slot 0 i).isSome)) ∧
    (∀ i, 1 ≤ i → i ≤ n →
      (kitCopyContents (chainW n k ds fs) (k + 1) 0).isDefaultF (k + 1) i =
        (chainW n k ds fs).isDefaultF 0 i) ∧
    (∀ i, 1 ≤ i → i ≤ k →
      (kitCopyContents (chainW n k ds fs) (k + 1) 0).slot (k + 1) i =
        some (k + 1 + i) ∧
      (chainW n k ds fs).heap.length ≤ k + 1 + i) ∧
    (∀ c, 1 ≤ c → c < k →
      (kitCopyContents (chainW n k ds fs) (k + 1) 0).childrenOf (k + 1 + c) =
        [k + 1 + (c + 1)] ∧
      (kitCopyContents (chainW n k ds fs) (k + 1) 0).slot (k + 1) (c + 1) =
        some (k + 1 + (c + 1))) ∧
    (∀ c, 1 ≤ c → c ≤ k →
      ((kitCopyContents (chainW n k ds fs) (k + 1) 0).node (k + 1 + c)).fields =
        ((chainW n k ds fs).node c).fields) ∧
    (∀ x, x ≤ k →
      (kitCopyContents (chainW n k ds fs) (k + 1) 0).node x =
        (chainW n k ds fs).node x) ∧
    (kitCopyContents (chainW n k ds fs) (k + 1) 0).childrenOf (k + 1) =
      (if k = 0 then [] else [k + 2]) := by
  rw [kitCopyContents_chain n k ds fs hn hk]
  have hslotDst : ∀ i, i < n + 1 → (chainWFinal n k ds fs).slot (k + 1) i =
      if 1 ≤ i ∧ i ≤ k then some (k + 1 + i) else none := by
    intro i hi
    unfold chainWFinal
    rw [chainMidW_slot_dst]
    exact map_range_getD _ _ _ _ hi
  have hslotSrc : ∀ i, i < n + 1 → (chainW n k ds fs).slot 0 i =
      if 1 ≤ i ∧ i ≤ k then some i else none := by
    intro i hi
    show ((chainW n k ds fs).node 0).slots.getD i none = _
    rw [chainW_node_zero]
    exact map_range_getD _ _ _ _ hi
  have hdfDst : ∀ i, i < n + 1 →
      (chainWFinal n k ds fs).isDefaultF (k + 1) i =
      if i = 0 then true else ds i := by
    intro i hi
    unfold chainWFinal
    rw [chainMidW_isDefaultF_dst]
    exact map_range_getD _ _ _ _ hi
  have hdfSrc : ∀ i, i < n + 1 → (chainW n k ds fs).isDefaultF 0 i =
      if i = 0 then true else ds i := by
    intro i hi
    show ((chainW n k ds fs).node 0).defaults.getD i true = _
    rw [chainW_node_zero]
    exact map_range_getD _ _ _ _ hi
  refine ⟨?_, ?_, ?_, ?_, ?_, ?_, ?_⟩
  · intro i h1 h2
    rw [hslotDst i (by omega), hslotSrc i (by omega)]
    by_cases hik : 1 ≤ i ∧ i ≤ k
    · rw [if_pos hik, if_pos hik]
      rfl
    · rw [if_neg hik, if_neg hik]
  · intro i h1 h2
    rw [hdfDst i (by omega), hdfSrc i (by omega)]
  · intro i h1 h2
    refine ⟨?_, ?_⟩
    · rw [hslotDst i (by omega), if_pos ⟨h1, h2⟩]
    · rw [chainW_heapLength]
      omega
  · intro c h1 h2
    refine ⟨?_, ?_⟩
    · show (chainWFinal n k ds fs).childrenOf (k + 1 + c) = _
      unfold chainWFinal
      rw [chainMidW_childrenOf_copy _ _ _ _ _ _ _ _ _ _ h1 (by omega)]
      rw [if_pos h2, show k + 2 + c = k + 1 + (c + 1) from by omega]
    · rw [hslotDst (c + 1) (by omega), if_pos ⟨by omega, by omega⟩]
  · intro c h1 h2
    show ((chainWFinal n k ds fs).node (k + 1 + c)).fields = _
    unfold chainWFinal
    rw [chainMidW_node_copy _ _ _ _ _ _ _ _ _ _ h1 h2,
      chainW_node_src n k ds fs c h1 h2]
    rfl
  · intro x hx
    show (chainWFinal n k ds fs).node x = _
    unfold chainWFinal
    by_cases hx0 : x = 0
    · subst hx0
      rw [chainMidW_node_zero, chainW_node_zero]
    · rw [chainMidW_node_src _ _ _ _ _ _ _ _ _ _ (by omega) hx,
        chainW_node_src n k ds fs x (by omega) hx]
  · show (chainWFinal n k ds fs).childrenOf (k + 1) = _
    unfold chainWFinal
    rw [chainMidW_childrenOf_dst]

/-! Claim theorems. -/

/-- C1: for every kit and every catalog part index `partnum` with declared
type `T`, calling setPart with a non-null component whose runtime type is
not derived from `T` returns FALSE and leaves the whole world — in
particular the part slot, its default flag, and the parent's child
collection — unchanged.  The type check at SoBaseKit.cpp 2205-2215 fires
before any mutation. -/
theorem setPart_type_mismatch_rejected (w : World) (kit partnum n : Nat)
    (h1 : 0 < partnum) (h2 : partnum < (w.node kit).slots.length)
    (hty : w.ts.isDerivedFrom ((w.node n).typeId)
      (((w.catalogAt kit).entry partnum).typeId) = false) :
    setPart w kit partnum (some n) = (false, w) := by
  rw [setPart, show 2 * partnum + 2 = (2 * partnum + 1) + 1 from rfl, partOp]
  simp [h1, h2, hty]

/-- Witness for C1: in the example world, setting the "shape" part (declared
type 11) to the floating node 3 of unrelated type 50 fails and leaves the
world unchanged. -/
theorem setPart_type_mismatch_rejected_witness :
    (0 < 3 ∧ 3 < (exW.node 0).slots.length ∧
      exW.ts.isDerivedFrom ((exW.node 3).typeId)
        (((exW.catalogAt 0).entry 3).typeId) = false) ∧
    setPart exW 0 3 (some 3) = (false, exW) :=
  ⟨⟨by decide, by decide, by decide⟩,
    setPart_type_mismatch_rejected exW 0 3 3 (by decide) (by decide) (by decide)⟩

/-- C8: for every kit with a populated slot at part index `partnum`,
setPart with a null node removes exactly that one component from its
parent's child collection (the first occurrence, at its position) and sets
the slot to null; every other child of that parent keeps its relative
order, every other slot is untouched, and every node other than the parent
and the kit is untouched (SoBaseKit.cpp 2244-2262). -/
theorem setPart_null_removes_one (w : World) (kit partnum parent oldnd : Nat)
    (h1 : 0 < partnum) (h2 : partnum < (w.node kit).slots.length)
    (hpr : (if ((w.catalogAt kit).entry partnum).parentNum == 0 then some kit
            else w.slot kit ((w.catalogAt kit).entry partnum).parentNum) = some parent)
    (hold : w.slot kit partnum = some oldnd)
    (hmem : oldnd ∈ w.childrenOf parent) :
    ∃ l1 l2,
      w.childrenOf parent = l1 ++ oldnd :: l2 ∧ oldnd ∉ l1 ∧
      (setPart w kit partnum none).1 = true ∧
      (setPart w kit partnum none).2.childrenOf parent = l1 ++ l2 ∧
      (setPart w kit partnum none).2.slot kit partnum = none ∧
      (∀ j, j ≠ partnum → (setPart w kit partnum none).2.slot kit j = w.slot kit j) ∧
      (∀ m, m ≠ parent → m ≠ kit → (setPart w kit partnum none).2.node m = w.node m) := by
  have hk : kit < w.heap.length := slots_length_pos_lt w kit partnum h2
  have hplt : parent < w.heap.length := childrenOf_mem_lt w parent oldnd hmem
  obtain ⟨l1, l2, hsplit, hnot, hfind⟩ := findIn_spec _ _ hmem
  have hsp : setPart w kit partnum none =
      (true, ((w.setChildren parent
          (removeAt (w.childrenOf parent) l1.length)).setSlot kit partnum
            none).setDefaultF kit partnum false) := by
    rw [setPart, show 2 * partnum + 2 = (2 * partnum + 1) + 1 from rfl, partOp]
    rw [if_pos (show 0 < partnum ∧ partnum < (w.node kit).slots.length from ⟨h1, h2⟩)]
    by_cases hpn : (((w.catalogAt kit).entry partnum).parentNum == 0) = true
    · simp only [hpn, if_true] at hpr ⊢
      obtain rfl : kit = parent := Option.some.inj hpr
      simp [hold, hfind]
    · rw [Bool.not_eq_true] at hpn
      simp only [hpn, if_false] at hpr ⊢
      match hslot : w.slot kit ((w.catalogAt kit).entry partnum).parentNum with
      | some p =>
          simp only [hslot] at hpr ⊢
          obtain rfl : p = parent := Option.some.inj hpr
          simp [hold, hfind]
      | none => simp [hslot] at hpr
  refine ⟨l1, l2, hsplit, hnot, ?_, ?_, ?_, ?_, ?_⟩
  · rw [hsp]
  · rw [hsp]
    simp only [childrenOf_setDefaultF, childrenOf_setSlot]
    rw [childrenOf_setChildren_self _ _ _ hplt, hsplit, removeAt_append]
  · rw [hsp]
    simp only [slot_setDefaultF]
    apply slot_setSlot_self
    · rw [heapLength_setChildren]
      exact hk
    · rw [slots_setChildren]
      exact h2
  · intro j hj
    rw [hsp]
    simp only [slot_setDefaultF]
    rw [slot_setSlot_ne _ _ _ _ _ hj, slot_setChildren]
  · intro m hmp hmk
    rw [hsp]
    simp only [setDefaultF_node, setSlot_node, setChildren_node]
    simp [hmp, hmk]

/-- Witness for C8: removing the populated "shape" part (slot 3, node 2)
from the example world removes exactly node 2 from the child collection
of its parent "topSep" (node 1) and clears the slot. -/
theorem setPart_null_removes_one_witness :
    ∃ l1 l2,
      exW.childrenOf 1 = l1 ++ 2 :: l2 ∧ (2 : Nat) ∉ l1 ∧
      (setPart exW 0 3 none).1 = true ∧
      (setPart exW 0 3 none).2.childrenOf 1 = l1 ++ l2 ∧
      (setPart exW 0 3 none).2.slot 0 3 = none ∧
      (∀ j, j ≠ 3 → (setPart exW 0 3 none).2.slot 0 j = exW.slot 0 j) ∧
      (∀ m, m ≠ 1 → m ≠ 0 → (setPart exW 0 3 none).2.node m = exW.node m) :=
  setPart_null_removes_one exW 0 3 1 2 (by decide) (by decide) (by decide)
    (by decide) (by decide)

/-- C7: the placement step of every build and setPart operation.  When
setPart installs a new component into an empty slot, the component is
spliced into its declared parent part's child collection immediately
before the component of the nearest already-built right sibling — the
first part along the catalog's right-sibling chain whose slot is
populated, as computed by getRightSiblingIndex (SoBaseKit.cpp 2268-2281)
— or appended last when no right sibling is built (SoBaseKit.cpp
2250-2258).  The hypotheses record the surrounding well-formedness: the
part type-checks, the parent part is resolved and in the heap, the
component is not already a child (the structural-aliasing guard), and a
sibling returned by the chain walk is built and present in the parent's
child collection (the assertions at 2253-2254). -/
theorem setPart_insert_before_sibling (w : World) (kit partnum n parent : Nat)
    (h1 : 0 < partnum) (h2 : partnum < (w.node kit).slots.length)
    (hplt : parent < w.heap.length)
    (hty : w.ts.isDerivedFrom ((w.node n).typeId)
      (((w.catalogAt kit).entry partnum).typeId) = true)
    (hpr : (if ((w.catalogAt kit).entry partnum).parentNum == 0 then some kit
            else w.slot kit ((w.catalogAt kit).entry partnum).parentNum) = some parent)
    (hslot : w.slot kit partnum = none)
    (halias : n ∉ w.childrenOf parent)
    (hsib : ∀ s, getRightSiblingIndex w kit partnum = some s →
        ∃ sn, w.slot kit s = some sn ∧ sn ∈ w.childrenOf parent) :
    ∃ l1 l2,
      w.childrenOf parent = l1 ++ l2 ∧
      (setPart w kit partnum (some n)).1 = true ∧
      (setPart w kit partnum (some n)).2.childrenOf parent = l1 ++ n :: l2 ∧
      (setPart w kit partnum (some n)).2.slot kit partnum = some n ∧
      (match getRightSiblingIndex w kit partnum with
       | some s => ∃ sn, w.slot kit s = some sn ∧ l2.head? = some sn ∧ sn ∉ l1
       | none => l2 = []) := by
  have hk : kit < w.heap.length := slots_length_pos_lt w kit partnum h2
  have hal : (w.childrenOf parent).contains n = false := by
    simpa using halias
  match hgs : getRightSiblingIndex w kit partnum with
  | none =>
      have hsp : setPart w kit partnum (some n) =
          (true, ((w.setChildren parent
              (w.childrenOf parent ++ [n])).setSlot kit partnum
                (some n)).setDefaultF kit partnum false) := by
        rw [setPart, show 2 * partnum + 2 = (2 * partnum + 1) + 1 from rfl, partOp]
        rw [if_pos (show 0 < partnum ∧ partnum < (w.node kit).slots.length from ⟨h1, h2⟩)]
        by_cases hpn : (((w.catalogAt kit).entry partnum).parentNum == 0) = true
        · simp only [hpn, if_true] at hpr ⊢
          obtain rfl : kit = parent := Option.some.inj hpr
          simp [hty, hslot, hal, halias, hgs]
        · rw [Bool.not_eq_true] at hpn
          simp only [hpn, if_false] at hpr ⊢
          match hps : w.slot kit ((w.catalogAt kit).entry partnum).parentNum with
          | some p =>
              simp only [hps] at hpr ⊢
              obtain rfl : p = parent := Option.some.inj hpr
              simp [hty, hslot, hal, halias, hgs]
          | none => simp [hps] at hpr
      refine ⟨w.childrenOf parent, [], by simp, ?_, ?_, ?_, ?_⟩
      · rw [hsp]
      · rw [hsp]
        simp only [childrenOf_setDefaultF, childrenOf_setSlot]
        rw [childrenOf_setChildren_self _ _ _ hplt]
      · rw [hsp]
        simp only [slot_setDefaultF]
        apply slot_setSlot_self
        · rw [heapLength_setChildren]
          exact hk
        · rw [slots_setChildren]
          exact h2
      · simp [hgs]
  | some s =>
      obtain ⟨sn, hsn, hmem⟩ := hsib s hgs
      obtain ⟨l1, l2', hsplit, hnot, hfind⟩ := findIn_spec _ _ hmem
      have hins : insertAt (w.childrenOf parent) l1.length n = l1 ++ n :: sn :: l2' := by
        rw [hsplit, insertAt_append]
      have hsp : setPart w kit partnum (some n) =
          (true, ((w.setChildren parent
              (l1 ++ n :: sn :: l2')).setSlot kit partnum
                (some n)).setDefaultF kit partnum false) := by
        rw [setPart, show 2 * partnum + 2 = (2 * partnum + 1) + 1 from rfl, partOp]
        rw [if_pos (show 0 < partnum ∧ partnum < (w.node kit).slots.length from ⟨h1, h2⟩)]
        by_cases hpn : (((w.catalogAt kit).entry partnum).parentNum == 0) = true
        · simp only [hpn, if_true] at hpr ⊢
          obtain rfl : kit = parent := Option.some.inj hpr
          simp [hty, hslot, hal, halias, hgs, hsn, hfind, hins]
        · rw [Bool.not_eq_true] at hpn
          simp only [hpn, if_false] at hpr ⊢
          match hps : w.slot kit ((w.catalogAt kit).entry partnum).parentNum with
          | some p =>
              simp only [hps] at hpr ⊢
              obtain rfl : p = parent := Option.some.inj hpr
              simp [hty, hslot, hal, halias, hgs, hsn, hfind, hins]
          | none => simp [hps] at hpr
      refine ⟨l1, sn :: l2', hsplit, ?_, ?_, ?_, ?_⟩
      · rw [hsp]
      · rw [hsp]
        simp only [childrenOf_setDefaultF, childrenOf_setSlot]
        rw [childrenOf_setChildren_self _ _ _ hplt]
      · rw [hsp]
        simp only [slot_setDefaultF]
        apply slot_setSlot_self
        · rw [heapLength_setChildren]
          exact hk
        · rw [slots_setChildren]
          exact h2
      · simp only [hgs]
        exact ⟨sn, hsn, rfl, hnot⟩

/-- Witness for C7: installing a new "scale" component (node 4) into the
example world walks the right-sibling chain to the built "shape" part and
inserts node 4 immediately before shape's node 2 in the child collection
of "topSep". -/
theorem setPart_insert_before_sibling_witness :
    ∃ l1 l2,
      exW.childrenOf 1 = l1 ++ l2 ∧
      (setPart exW 0 2 (some 4)).1 = true ∧
      (setPart exW 0 2 (some 4)).2.childrenOf 1 = l1 ++ 4 :: l2 ∧
      (setPart exW 0 2 (some 4)).2.slot 0 2 = some 4 ∧
      (match getRightSiblingIndex exW 0 2 with
       | some s => ∃ sn, exW.slot 0 s = some sn ∧ l2.head? = some sn ∧ sn ∉ l1
       | none => l2 = []) := by
  have h3 : getRightSiblingIndex exW 0 2 = some 3 := by decide
  exact setPart_insert_before_sibling exW 0 2 4 1 (by decide) (by decide)
    (by decide) (by decide) (by decide) (by decide) (by decide)
    (fun s hs => by
      obtain rfl : (3 : Nat) = s := Option.some.inj (h3.symm.trans hs)
      exact ⟨2, by decide, by decide⟩)

theorem writePassCollect_eq_filter (cat : Catalog) (pass : Nat)
    (names : List String) :
    writePassCollect cat pass names = names.filter (writePassKeep cat pass) := by
  induction names with
  | nil => rfl
  | cons nm rest ih =>
      rw [writePassCollect, List.filter_cons]
      by_cases h : writePassKeep cat pass nm = true
      · simp [h, ih]
      · rw [Bool.not_eq_true] at h
        simp [h, ih]

theorem writePassKeep_zero (cat : Catalog) (nm : String) :
    writePassKeep cat 0 nm = decide (catPartNumberI cat nm < 0) := by
  unfold writePassKeep
  by_cases hp : catPartNumberI cat nm > 0
  · simp only [hp]
    have hn : ¬(catPartNumberI cat nm < 0) := by omega
    by_cases hpub : (cat.entry (catPartNumberI cat nm).toNat).isPublic
    · simp [hpub, hn]
    · simp [hpub, hn]
  · simp [hp]

theorem writePassKeep_one (cat : Catalog) (nm : String) :
    writePassKeep cat 1 nm =
      (decide (0 < catPartNumberI cat nm) &&
       (cat.entry (catPartNumberI cat nm).toNat).isPublic &&
       (cat.entry (catPartNumberI cat nm).toNat).isLeaf) := by
  unfold writePassKeep
  by_cases hp : catPartNumberI cat nm > 0
  · by_cases hpub : (cat.entry (catPartNumberI cat nm).toNat).isPublic
    · simp [hp, hpub]
    · simp [hp, hpub]
  · have h2 : ¬(0 < catPartNumberI cat nm) := hp
    simp [hp, h2]

theorem writePassKeep_two (cat : Catalog) (nm : String) :
    writePassKeep cat 2 nm =
      (decide (0 < catPartNumberI cat nm) &&
       (cat.entry (catPartNumberI cat nm).toNat).isPublic &&
       !(cat.entry (catPartNumberI cat nm).toNat).isLeaf) := by
  unfold writePassKeep
  by_cases hp : catPartNumberI cat nm > 0
  · by_cases hpub : (cat.entry (catPartNumberI cat nm).toNat).isPublic
    · simp [hp, hpub]
    · simp [hp, hpub]
  · have h2 : ¬(0 < catPartNumberI cat nm) := hp
    simp [hp, h2]

/-- C4: the reordered field table built during COUNT_REFS lists, in this
order, the non-part fields in declaration order, then the public leaf
parts, then the public non-leaf parts, each group in declaration order;
and a field naming a private part (part number > 0, not public) never
appears in the table (SoBaseKitP::createWriteData, SoBaseKit.cpp
2314-2338). -/
theorem createWriteData_pass_order (cat : Catalog) (fieldnames : List String) :
    (createWriteData cat fieldnames =
      fieldnames.filter (fun nm => decide (catPartNumberI cat nm < 0)) ++
      fieldnames.filter (fun nm =>
        decide (0 < catPartNumberI cat nm) &&
        (cat.entry (catPartNumberI cat nm).toNat).isPublic &&
        (cat.entry (catPartNumberI cat nm).toNat).isLeaf) ++
      fieldnames.filter (fun nm =>
        decide (0 < catPartNumberI cat nm) &&
        (cat.entry (catPartNumberI cat nm).toNat).isPublic &&
        !(cat.entry (catPartNumberI cat nm).toNat).isLeaf)) ∧
    (∀ nm ∈ createWriteData cat fieldnames,
      0 < catPartNumberI cat nm →
      (cat.entry (catPartNumberI cat nm).toNat).isPublic = true) := by
  constructor
  · unfold createWriteData
    rw [writePassCollect_eq_filter, writePassCollect_eq_filter,
        writePassCollect_eq_filter]
    rw [List.filter_congr (fun nm _ => writePassKeep_zero cat nm),
        List.filter_congr (fun nm _ => writePassKeep_one cat nm),
        List.filter_congr (fun nm _ => writePassKeep_two cat nm)]
  · intro nm hmem hpos
    unfold createWriteData at hmem
    rw [writePassCollect_eq_filter, writePassCollect_eq_filter,
        writePassCollect_eq_filter] at hmem
    rcases List.mem_append.1 hmem with h | h
    · rcases List.mem_append.1 h with h' | h'
      · have hz := List.of_mem_filter h'
        rw [writePassKeep_zero] at hz
        have : catPartNumberI cat nm < 0 := of_decide_eq_true hz
        omega
      · have hb := List.of_mem_filter h'
        rw [writePassKeep_one] at hb
        rcases (Bool.and_eq_true _ _).mp hb with ⟨hb1, _⟩
        rcases (Bool.and_eq_true _ _).mp hb1 with ⟨_, hpub⟩
        exact hpub
    · have hb := List.of_mem_filter h
      rw [writePassKeep_two] at hb
      rcases (Bool.and_eq_true _ _).mp hb with ⟨hb1, _⟩
      rcases (Bool.and_eq_true _ _).mp hb1 with ⟨_, hpub⟩
      exact hpub

/-- Witness for C4: the table of the C6 scenario catalog over its field
list "active" (a non-part field), "topSeparator" (public non-leaf part)
and "shape" (public leaf part). -/
theorem createWriteData_pass_order_witness :
    (createWriteData c6Cat ["active", "topSeparator", "shape"] =
      ["active", "topSeparator", "shape"].filter
        (fun nm => decide (catPartNumberI c6Cat nm < 0)) ++
      ["active", "topSeparator", "shape"].filter (fun nm =>
        decide (0 < catPartNumberI c6Cat nm) &&
        (c6Cat.entry (catPartNumberI c6Cat nm).toNat).isPublic &&
        (c6Cat.entry (catPartNumberI c6Cat nm).toNat).isLeaf) ++
      ["active", "topSeparator", "shape"].filter (fun nm =>
        decide (0 < catPartNumberI c6Cat nm) &&
        (c6Cat.entry (catPartNumberI c6Cat nm).toNat).isPublic &&
        !(c6Cat.entry (catPartNumberI c6Cat nm).toNat).isLeaf)) ∧
    (∀ nm ∈ createWriteData c6Cat ["active", "topSeparator", "shape"],
      0 < catPartNumberI c6Cat nm →
      (c6Cat.entry (catPartNumberI c6Cat nm).toNat).isPublic = true) :=
  createWriteData_pass_order c6Cat ["active", "topSeparator", "shape"]

/-! Lemmas about the default-flag passes of the COUNT_REFS stage. -/

theorem typeId_setDefaultF (w : World) (kit j : Nat) (b : Bool) (m : Nat) :
    ((w.setDefaultF kit j b).node m).typeId = (w.node m).typeId := by
  rw [setDefaultF_node]
  split
  · next hm => rw [hm.1]
  · rfl

theorem children_setDefaultF (w : World) (kit j : Nat) (b : Bool) (m : Nat) :
    ((w.setDefaultF kit j b).node m).children = (w.node m).children := by
  rw [setDefaultF_node]
  split
  · next hm => rw [hm.1]
  · rfl

theorem fields_setDefaultF (w : World) (kit j : Nat) (b : Bool) (m : Nat) :
    ((w.setDefaultF kit j b).node m).fields = (w.node m).fields := by
  rw [setDefaultF_node]
  split
  · next hm => rw [hm.1]
  · rfl

theorem container_setDefaultF (w : World) (kit j : Nat) (b : Bool) (m : Nat) :
    ((w.setDefaultF kit j b).node m).container = (w.node m).container := by
  rw [setDefaultF_node]
  split
  · next hm => rw [hm.1]
  · rfl

theorem ts_setDefaultF (w : World) (kit j : Nat) (b : Bool) :
    (w.setDefaultF kit j b).ts = w.ts := rfl

theorem catalogAt_setDefaultF (w : World) (kit j : Nat) (b : Bool) (m : Nat) :
    (w.setDefaultF kit j b).catalogAt m = w.catalogAt m := by
  unfold World.catalogAt
  rw [typeId_setDefaultF]
  rfl

theorem is_default_node_setDefaultF (w : World) (kit j : Nat) (b : Bool)
    (nid tc : Nat) :
    is_default_node (w.setDefaultF kit j b) nid tc = is_default_node w nid tc := by
  unfold is_default_node
  simp only [typeId_setDefaultF, children_setDefaultF, fields_setDefaultF,
    ts_setDefaultF]

theorem codeSuppressCond_setDefaultF (w : World) (kit j : Nat) (b : Bool)
    (kit' i : Nat) :
    codeSuppressCond (w.setDefaultF kit j b) kit' i = codeSuppressCond w kit' i := by
  unfold codeSuppressCond
  simp only [catalogAt_setDefaultF, slot_setDefaultF, typeId_setDefaultF,
    children_setDefaultF, container_setDefaultF, is_default_node_setDefaultF,
    ts_setDefaultF]

theorem sdonwfStep_cases (w : World) (kit j : Nat) :
    sdonwfStep w kit j = w ∨ sdonwfStep w kit j = w.setDefaultF kit j true := by
  unfold sdonwfStep
  split
  · split
    · dsimp only
      split
      · right; rfl
      · left; rfl
    · dsimp only
      split
      · split
        · right; rfl
        · split
          · split
            · split
              · right; rfl
              · left; rfl
            · left; rfl
          · left; rfl
      · split
        · right; rfl
        · left; rfl
  · left; rfl

theorem sdonwfStep_flag_self (w : World) (kit i : Nat) :
    (sdonwfStep w kit i).isDefaultF kit i =
      (w.isDefaultF kit i || codeSuppressCond w kit i) := by
  by_cases hflag : w.isDefaultF kit i = true
  · have hw : sdonwfStep w kit i = w := by
      unfold sdonwfStep
      simp [hflag]
    rw [hw, hflag]
    rfl
  · rw [Bool.not_eq_true] at hflag
    have hlt : i < (w.node kit).defaults.length := by
      by_contra hge
      have ht : w.isDefaultF kit i = true := by
        unfold World.isDefaultF
        exact List.getD_eq_default _ _ (Nat.le_of_not_lt hge)
      rw [ht] at hflag
      cases hflag
    have hk : kit < w.heap.length := by
      by_contra hk
      have hd : w.node kit = default := by
        unfold World.node
        exact List.getD_eq_default _ _ (Nat.le_of_not_lt hk)
      rw [hd] at hlt
      simp [default] at hlt
    have heq : sdonwfStep w kit i =
        if codeSuppressCond w kit i then w.setDefaultF kit i true else w := by
      unfold sdonwfStep codeSuppressCond
      simp only [hflag, Bool.not_false, if_true]
      cases hs : w.slot kit i with
      | none => dsimp only
      | some nid =>
          dsimp only
          repeat' split
          all_goals simp_all
    rw [heq, hflag]
    by_cases hc : codeSuppressCond w kit i = true
    · simp only [hc, if_true, Bool.false_or]
      exact isDefaultF_setDefaultF_self w kit i true hk hlt
    · rw [Bool.not_eq_true] at hc
      simp only [hc, if_false, Bool.or_false]
      exact hflag

theorem sdonwfStep_flag_ne (w : World) (kit j i : Nat) (h : i ≠ j) :
    (sdonwfStep w kit j).isDefaultF kit i = w.isDefaultF kit i := by
  rcases sdonwfStep_cases w kit j with h' | h' <;> rw [h']
  exact isDefaultF_setDefaultF_ne w kit j true i h

theorem sdonwfStep_cond (w : World) (kit j i : Nat) :
    codeSuppressCond (sdonwfStep w kit j) kit i = codeSuppressCond w kit i := by
  rcases sdonwfStep_cases w kit j with h' | h' <;> rw [h']
  exact codeSuppressCond_setDefaultF w kit j true kit i

theorem foldRange_sdonwf_flag (kit : Nat) :
    ∀ (k s : Nat) (w : World) (i : Nat),
      (foldRange (fun w j => sdonwfStep w kit j) w s k).isDefaultF kit i =
        if s ≤ i ∧ i < s + k then
          w.isDefaultF kit i || codeSuppressCond w kit i
        else w.isDefaultF kit i := by
  intro k
  induction k with
  | zero =>
      intro s w i
      have hne : ¬(s ≤ i ∧ i < s + 0) := by omega
      rw [if_neg hne]
      rfl
  | succ k ih =>
      intro s w i
      rw [foldRange, ih (s + 1) (sdonwfStep w kit s) i]
      by_cases hi : i = s
      · subst hi
        have hne : ¬(i + 1 ≤ i ∧ i < i + 1 + k) := by omega
        rw [if_neg hne, sdonwfStep_flag_self]
        have hpos : i ≤ i ∧ i < i + (k + 1) := by omega
        rw [if_pos hpos]
      · by_cases hr : (s + 1 ≤ i ∧ i < s + 1 + k)
        · rw [if_pos hr, sdonwfStep_flag_ne w kit s i hi, sdonwfStep_cond]
          have hpos : s ≤ i ∧ i < s + (k + 1) := by omega
          rw [if_pos hpos]
        · rw [if_neg hr, sdonwfStep_flag_ne w kit s i hi]
          have hne : ¬(s ≤ i ∧ i < s + (k + 1)) := by omega
          rw [if_neg hne]

/-- C5 counterexample: in the c5W world the "cube" part (a leaf part, built
by default with a non-group node) stays marked default through the whole
COUNT_REFS flag pipeline — and is therefore suppressed from output — even
though none of the four conditions (a)-(d) of the claim holds for it.
This refutes the claim's "only if". -/
theorem default_cube_part_refutes_only_if :
    c5W.isDefaultF 0 1 = true ∧
    (countMyFieldsFlags c5W 0).1.isDefaultF 0 1 = true ∧
    claimSuppressCond c5W 0 1 = false :=
  ⟨by decide, by decide, by decide⟩

/-- C5 (amended): a part field that enters
SoBaseKit::setDefaultOnNonWritingFields non-default is re-marked default
exactly when the four tests of the source hold — (a) NULL value and
nullByDefault, (b) leaf with an exactly-SoGroup/SoSeparator node with no
children, (c) leaf SoNodeKitListPart with no children and a plain
SoGroup/SoSeparator container, (d) non-leaf with an SoGroup-derived node
that is a default instance of its own type — while a field that is already
default is left default by this pass (SoBaseKit.cpp 1231-1276). -/
theorem setDefaultOnNonWritingFields_flag (w : World) (kit i : Nat)
    (h1 : 1 ≤ i) (h2 : i < (w.node kit).slots.length) :
    (setDefaultOnNonWritingFields w kit).isDefaultF kit i =
      (w.isDefaultF kit i || codeSuppressCond w kit i) := by
  unfold setDefaultOnNonWritingFields
  rw [foldRange_sdonwf_flag]
  have hpos : 1 ≤ i ∧ i < 1 + ((w.node kit).slots.length - 1) := by omega
  rw [if_pos hpos]

/-- Witness for C5: in the c5Wb world the "grp" part holds an empty group
node and its field was non-default; the suppression pass re-marks it
default (test (b) fires). -/
theorem setDefaultOnNonWritingFields_flag_witness :
    (setDefaultOnNonWritingFields c5Wb 0).isDefaultF 0 1 =
      (c5Wb.isDefaultF 0 1 || codeSuppressCond c5Wb 0 1) :=
  setDefaultOnNonWritingFields_flag c5Wb 0 1 (by decide) (by decide)

theorem tpwStep_cases (w : World) (kit : Nat) (wd : List String) (j : Nat) :
    testParentWriteStep w kit wd j = w ∨
    testParentWriteStep w kit wd j = w.setDefaultF kit j false := by
  unfold testParentWriteStep
  split
  · split
    · dsimp only
      split
      · split
        · split
          · right; rfl
          · left; rfl
        · left; rfl
      · left; rfl
    · left; rfl
  · left; rfl

theorem tpwStep_flag_ne (w : World) (kit : Nat) (wd : List String) (j i : Nat)
    (h : i ≠ j) :
    (testParentWriteStep w kit wd j).isDefaultF kit i = w.isDefaultF kit i := by
  rcases tpwStep_cases w kit wd j with h' | h' <;> rw [h']
  exact isDefaultF_setDefaultF_ne w kit j false i h

theorem tpwStep_slot (w : World) (kit : Nat) (wd : List String) (j : Nat)
    (kit' m : Nat) :
    (testParentWriteStep w kit wd j).slot kit' m = w.slot kit' m := by
  rcases tpwStep_cases w kit wd j with h' | h' <;> rw [h']
  exact slot_setDefaultF w kit j false kit' m

theorem tpwStep_catalogAt (w : World) (kit : Nat) (wd : List String) (j m : Nat) :
    (testParentWriteStep w kit wd j).catalogAt m = w.catalogAt m := by
  rcases tpwStep_cases w kit wd j with h' | h' <;> rw [h']
  exact catalogAt_setDefaultF w kit j false m

theorem tpw_fold_stable (kit : Nat) (wd : List String) :
    ∀ (k s : Nat) (w : World) (j : Nat), j < s →
      (foldRange (fun w m => testParentWriteStep w kit wd m) w s k).isDefaultF kit j =
        w.isDefaultF kit j := by
  intro k
  induction k with
  | zero => intro s w j _; rfl
  | succ k ih =>
      intro s w j hj
      rw [foldRange, ih (s + 1) _ j (by omega)]
      exact tpwStep_flag_ne w kit wd s j (by omega)

theorem defaults_length_setDefaultF (w : World) (kit j : Nat) (b : Bool) (m : Nat) :
    ((w.setDefaultF kit j b).node m).defaults.length = (w.node m).defaults.length := by
  rw [setDefaultF_node]
  split
  · next hm => rw [hm.1]; simp
  · rfl

theorem flag_false_after_setDefaultF_false (w : World) (kit m j : Nat)
    (h : w.isDefaultF kit j = false) :
    (w.setDefaultF kit m false).isDefaultF kit j = false := by
  by_cases hjm : j = m
  · subst hjm
    have hlt : j < (w.node kit).defaults.length := by
      by_contra hge
      have ht : w.isDefaultF kit j = true := by
        unfold World.isDefaultF
        exact List.getD_eq_default _ _ (Nat.le_of_not_lt hge)
      rw [ht] at h
      cases h
    by_cases hk : kit < w.heap.length
    · exact isDefaultF_setDefaultF_self w kit j false hk hlt
    · have hw : w.setDefaultF kit j false = w := by
        unfold World.setDefaultF World.setNode
        rw [List.set_eq_of_length_le (Nat.le_of_not_lt hk)]
      rw [hw]
      exact h
  · rw [isDefaultF_setDefaultF_ne w kit m false j hjm]
    exact h

theorem tpwStep_flag_false_preserved (w : World) (kit : Nat) (wd : List String)
    (m j : Nat) (h : w.isDefaultF kit j = false) :
    (testParentWriteStep w kit wd m).isDefaultF kit j = false := by
  rcases tpwStep_cases w kit wd m with h' | h' <;> rw [h']
  · exact h
  · exact flag_false_after_setDefaultF_false w kit m j h

theorem tpwStep_defaults_length (w : World) (kit : Nat) (wd : List String)
    (m n : Nat) :
    ((testParentWriteStep w kit wd m).node n).defaults.length =
      (w.node n).defaults.length := by
  rcases tpwStep_cases w kit wd m with h' | h' <;> rw [h']
  exact defaults_length_setDefaultF w kit m false n

theorem tpw_fold_mono (kit : Nat) (wd : List String) :
    ∀ (k s : Nat) (w : World) (j : Nat), w.isDefaultF kit j = false →
      (foldRange (fun w m => testParentWriteStep w kit wd m) w s k).isDefaultF kit j =
        false := by
  intro k
  induction k with
  | zero => intro s w j h; exact h
  | succ k ih =>
      intro s w j h
      rw [foldRange]
      exact ih (s + 1) _ j (tpwStep_flag_false_preserved w kit wd s j h)

theorem tpw_fold_forces (kit : Nat) (wd : List String) :
    ∀ (k s : Nat) (w : World) (i p : Nat),
      s ≤ i → i < s + k →
      ((w.catalogAt kit).entry i).parentNum = p →
      0 < p → p < i →
      i < (w.node kit).defaults.length →
      (w.slot kit i).isSome = true →
      (w.slot kit p).isSome = true →
      (fieldDataGetIndex wd ((w.catalogAt kit).entry p).name).isSome = true →
      (foldRange (fun w m => testParentWriteStep w kit wd m) w s k).isDefaultF kit p = false →
      (foldRange (fun w m => testParentWriteStep w kit wd m) w s k).isDefaultF kit i = false := by
  intro k
  induction k with
  | zero => intro s w i p hsi hik; omega
  | succ k ih =>
      intro s w i p hsi hik hpar hp0 hpi hlen hsl hpsl hwd hpflag
      rw [foldRange] at hpflag ⊢
      by_cases hi : i = s
      · subst hi
        have hwp : w.isDefaultF kit p = false := by
          have h1 := tpw_fold_stable kit wd k (i + 1)
            (testParentWriteStep w kit wd i) p (by omega)
          rw [h1] at hpflag
          rw [tpwStep_flag_ne w kit wd i p (by omega)] at hpflag
          exact hpflag
        apply tpw_fold_mono
        by_cases hflag : w.isDefaultF kit i = true
        · obtain ⟨nid, hnid⟩ := Option.isSome_iff_exists.mp hsl
          obtain ⟨pnid, hpnid⟩ := Option.isSome_iff_exists.mp hpsl
          have hk : kit < w.heap.length := by
            by_contra hk
            have hd : w.node kit = default := by
              unfold World.node
              exact List.getD_eq_default _ _ (Nat.le_of_not_lt hk)
            rw [hd] at hlen
            simp [default] at hlen
          have hstep : testParentWriteStep w kit wd i = w.setDefaultF kit i false := by
            unfold testParentWriteStep
            dsimp only
            simp [hflag, hnid, hpar, hpnid, hwp, hwd, hp0]
          rw [hstep]
          exact isDefaultF_setDefaultF_self w kit i false hk hlen
        · rw [Bool.not_eq_true] at hflag
          exact tpwStep_flag_false_preserved w kit wd i i hflag
      · apply ih (s + 1) (testParentWriteStep w kit wd s) i p (by omega) (by omega)
        · rw [tpwStep_catalogAt]
          exact hpar
        · exact hp0
        · exact hpi
        · rw [tpwStep_defaults_length]
          exact hlen
        · rw [tpwStep_slot]
          exact hsl
        · rw [tpwStep_slot]
          exact hpsl
        · rw [tpwStep_catalogAt]
          exact hwd
        · exact hpflag

/-- C6 counterexample: in the untouched scenario kit (c6W: topSeparator
non-leaf under the kit, shape leaf under topSeparator, both created by
default, both part fields flagged default, shape's slot never touched),
the COUNT_REFS flag pipeline leaves BOTH part fields default, so neither
is written as non-default — the WRITE stage only writes part fields
whose isDefault flag is cleared (SoBaseKit.cpp 1181), and the remaining
WRITE-stage overrides (1086-1101) need external write references or a
nested-kit part, neither of which exists here.  This refutes the claim's
concrete scenario, which asserts topSeparator and shape are emitted. -/
theorem untouched_kit_parts_stay_default :
    c6W.isDefaultF 0 1 = true ∧ c6W.isDefaultF 0 2 = true ∧
    (countMyFieldsFlags c6W 0).1.isDefaultF 0 1 = true ∧
    (countMyFieldsFlags c6W 0).1.isDefaultF 0 2 = true :=
  ⟨by decide, by decide, by decide, by decide⟩

/-- C6 (amended): the parent-forces-write rule as SoBaseKitP::testParentWrite
implements it (SoBaseKit.cpp 2344-2370): a part field whose value is
non-NULL, whose catalog parent is itself a part (parent number > 0,
preceding it in the catalog), whose parent's instance is non-NULL and
present in the reordered field table, is forced to non-default whenever
the parent's field ends the pass non-default.  In the claim's scenario
this fires only once topSeparator's field is non-default (e.g. after an
explicit assignment, world c6Wb), and then shape is indeed forced — the
witness instantiates exactly that corrected scenario. -/
theorem testParentWrite_parent_forces (w : World) (kit : Nat)
    (wd : List String) (i p : Nat)
    (h1 : 1 ≤ i) (h2 : i < (w.node kit).slots.length)
    (hpar : ((w.catalogAt kit).entry i).parentNum = p)
    (hp0 : 0 < p) (hpi : p < i)
    (hlen : i < (w.node kit).defaults.length)
    (hsl : (w.slot kit i).isSome = true)
    (hpsl : (w.slot kit p).isSome = true)
    (hwd : (fieldDataGetIndex wd ((w.catalogAt kit).entry p).name).isSome = true)
    (hpflag : (testParentWrite w kit wd).isDefaultF kit p = false) :
    (testParentWrite w kit wd).isDefaultF kit i = false := by
  unfold testParentWrite at hpflag ⊢
  exact tpw_fold_forces kit wd ((w.node kit).slots.length - 1) 1 w i p h1
    (by omega) hpar hp0 hpi hlen hsl hpsl hwd hpflag

/-- Witness for C6: in the c6Wb world (topSeparator's field explicitly
non-default), testParentWrite over the scenario's reordered field table
forces the untouched shape part to non-default. -/
theorem testParentWrite_parent_forces_witness :
    (testParentWrite c6Wb 0
      (createWriteData c6Cat (kitFieldNames c6Wb 0))).isDefaultF 0 2 = false :=
  testParentWrite_parent_forces c6Wb 0
    (createWriteData c6Cat (kitFieldNames c6Wb 0)) 2 1 (by decide) (by decide)
    (by decide) (by decide) (by decide) (by decide) (by decide) (by decide)
    (by decide) (by decide)

/-! Lemmas about the list-part access steps of the resolver. -/

theorem getD_append_left {α : Type} (l1 l2 : List α) (i : Nat) (d : α)
    (h : i < l1.length) : (l1 ++ l2).getD i d = l1.getD i d := by
  simp [List.getD_eq_getElem?_getD, List.getElem?_append, h]

theorem node_append (w : World) (os : List NodeObj) (m : Nat)
    (h : m < w.heap.length) :
    ({ w with heap := w.heap ++ os } : World).node m = w.node m := by
  unfold World.node
  exact getD_append_left _ _ _ _ h

theorem createAndAdd_spec (w : World) (ln c : Nat)
    (hc : (w.node ln).container = some c)
    (hclt : c < w.heap.length)
    (t : Nat) (rest : List Nat)
    (hitcons : (w.node ln).itemTypes = t :: rest) :
    ∃ w1, createAndAddDefaultChild w ln = (some w.heap.length, w1) ∧
      (w1.node ln).container = some c ∧
      (w1.node c).children = (w.node c).children ++ [w.heap.length] := by
  have hlnlt : ln < w.heap.length := by
    by_contra hge
    have hd : w.node ln = default := by
      unfold World.node
      exact List.getD_eq_default _ _ (Nat.le_of_not_lt hge)
    rw [hd] at hc
    simp [default] at hc
  unfold createAndAddDefaultChild
  rw [hitcons, hc]
  unfold createInstance World.alloc
  refine ⟨_, rfl, ?_, ?_⟩
  · rw [setChildren_node]
    split
    · next hm =>
        obtain ⟨rfl, -⟩ := hm
        dsimp only
        rw [node_append _ _ _ hclt]
        exact hc
    · rw [node_append _ _ _ hlnlt]
      exact hc
  · have hcond : c = c ∧ c <
        ({ w with heap := w.heap ++ [blankNode w t] } : World).heap.length := by
      constructor
      · rfl
      · simp only [List.length_append, List.length_cons, List.length_nil]
        omega
    rw [setChildren_node, if_pos hcond]
    dsimp only
    rw [node_append _ _ _ hclt]

/-- C2 counterexample: resolving "a.b[2]" with makeifneeded on the empty
kit of the c2W world builds part "a" (a nested kit) and its list part "b"
(with container), and findPart succeeds with list index 2 — but the public
resolution returns NULL and appends nothing: the list still has zero
children, because an index is only honoured when it is inside [0, length]
with index == length permitted as a single append, and 2 > 0.  This
refutes the claim's "appends default children until index 2 exists, and
returns the kit at index 2". -/
theorem abTwo_empty_kit_resolution_fails :
    (getAnyPart c2W 0 c2Path true true true).1 = none ∧
    (findPart c2W 0 c2Path true true).found = true ∧
    (findPart c2W 0 c2Path true true).islist = true ∧
    (findPart c2W 0 c2Path true true).listidx = 2 ∧
    ((findPart c2W 0 c2Path true true).w.slot 0 1).isSome = true ∧
    ((findPart c2W 0 c2Path true true).w.slot 1 1).isSome = true ∧
    listNumChildren (getAnyPart c2W 0 c2Path true true true).2 2 = 0 :=
  ⟨by decide, by decide, by decide, by decide, by decide, by decide, by decide⟩

/-- C2 (amended): behaviour of the list-index handling of path resolution
as the code implements it.  For a list part with container `c` and a
non-empty locked item-type set: (1) an index outside [0, length] fails
both the terminal access (getAnyPart, SoBaseKit.cpp 1644-1668) and the
intermediate step (findPart, 2130-2152) with no world change; (2) index ==
length without makeifneeded fails both; (3) a terminal access of an index
in [0, length) returns the existing child and creates nothing; (4) a
terminal access at index == length with makeifneeded appends exactly one
default child and returns it; but (5) an intermediate step through an
index in [0, length) — while returning the existing child — also runs
createAndAddDefaultChild and appends a spurious default child, contrary
to the code's own comment (2142) and to the original claim. -/
theorem list_index_step_behaviour (w : World) (ln : Nat) (make : Bool)
    (i : Int) (c : Nat)
    (hc : (w.node ln).container = some c)
    (hclt : c < w.heap.length)
    (hit : (w.node ln).itemTypes ≠ []) :
    ((i < 0 ∨ ((w.node c).children.length : Int) < i) →
      listStepInto w ln make i = (none, w) ∧
      terminalListGet w ln make i = (none, w)) ∧
    (i = ((w.node c).children.length : Int) → make = false →
      listStepInto w ln make i = (none, w) ∧
      terminalListGet w ln make i = (none, w)) ∧
    (0 ≤ i → i < ((w.node c).children.length : Int) →
      terminalListGet w ln make i = ((w.node c).children.get? i.toNat, w)) ∧
    (i = ((w.node c).children.length : Int) → make = true →
      ∃ nid w1, createAndAddDefaultChild w ln = (some nid, w1) ∧
        terminalListGet w ln make i = (some nid, w1) ∧
        listNumChildren w1 ln = (w.node c).children.length + 1) ∧
    (0 ≤ i → i < ((w.node c).children.length : Int) →
      (listStepInto w ln make i).1 = (w.node c).children.get? i.toNat ∧
      listNumChildren (listStepInto w ln make i).2 ln =
        (w.node c).children.length + 1) := by
  have hnum : listNumChildren w ln = (w.node c).children.length := by
    unfold listNumChildren
    rw [hc]
  obtain ⟨t, rest, hitcons⟩ : ∃ t rest, (w.node ln).itemTypes = t :: rest := by
    cases hx : (w.node ln).itemTypes with
    | nil => exact absurd hx hit
    | cons a b => exact ⟨a, b, rfl⟩
  obtain ⟨w1, hcr, hcont1, hch1⟩ := createAndAdd_spec w ln c hc hclt t rest hitcons
  have hnum1 : listNumChildren w1 ln = (w.node c).children.length + 1 := by
    unfold listNumChildren
    simp only [hcont1]
    rw [hch1]
    simp
  refine ⟨?_, ?_, ?_, ?_, ?_⟩
  · intro h
    constructor
    · unfold listStepInto
      dsimp only
      rw [hnum]
      have hb : (decide (i < 0) || decide (((w.node c).children.length : Int) < i) ||
          (!make && (i == ((w.node c).children.length : Int)))) = true := by
        rcases h with h | h
        · simp [h]
        · simp [h]
      rw [hb]
      simp
    · unfold terminalListGet
      dsimp only
      rw [hnum]
      have hb1 : (decide (0 ≤ i) &&
          decide (i < ((w.node c).children.length : Int))) = false := by
        rcases h with h | h
        · simp [show ¬(0 ≤ i) from by omega]
        · simp [show ¬(i < ((w.node c).children.length : Int)) from by omega]
      rw [hb1]
      have hb2 : (i == ((w.node c).children.length : Int)) = false := by
        have hne : i ≠ ((w.node c).children.length : Int) := by omega
        simpa using hne
      rw [hb2]
      simp
  · intro hi hmake
    subst hmake
    constructor
    · unfold listStepInto
      dsimp only
      rw [hnum]
      simp [hi]
    · unfold terminalListGet
      dsimp only
      rw [hnum]
      simp [show ¬(i < ((w.node c).children.length : Int)) from by omega]
  · intro h0 hlt
    unfold terminalListGet
    dsimp only
    rw [hnum]
    have hb : (decide (0 ≤ i) &&
        decide (i < ((w.node c).children.length : Int))) = true := by
      simp [h0, hlt]
    rw [hb]
    unfold listGetChild
    rw [hc]
    simp
  · intro hi hmake
    subst hmake
    refine ⟨w.heap.length, w1, hcr, ?_, hnum1⟩
    unfold terminalListGet
    dsimp only
    rw [hnum]
    have hb : (decide (0 ≤ i) &&
        decide (i < ((w.node c).children.length : Int))) = false := by
      simp [show ¬(i < ((w.node c).children.length : Int)) from by omega]
    rw [hb]
    simp [hi, hcr]
  · intro h0 hlt
    have hlt' : i.toNat < (w.node c).children.length := by omega
    have hget1 : listGetChild w1 ln i.toNat = (w.node c).children.get? i.toNat := by
      unfold listGetChild
      simp only [hcont1]
      rw [hch1]
      simp [List.getElem?_append, hlt']
    have hstep : listStepInto w ln make i =
        ((w.node c).children.get? i.toNat, w1) := by
      unfold listStepInto
      dsimp only
      rw [hnum]
      have h1 : decide (i < 0) = false := decide_eq_false (by omega)
      have h2 : decide (((w.node c).children.length : Int) < i) = false :=
        decide_eq_false (by omega)
      have h3 : (i == ((w.node c).children.length : Int)) = false := by
        have hne : i ≠ ((w.node c).children.length : Int) := by omega
        simpa using hne
      rw [h1, h2, h3]
      simp only [Bool.false_or, Bool.and_false, Bool.or_false, Bool.false_eq_true,
        if_false]
      rw [hcr]
      dsimp only
      rw [hget1]
      have hex : ∃ ch, (w.node c).children.get? i.toNat = some ch := by
        rw [List.get?_eq_getElem?]
        exact ⟨_, List.getElem?_eq_getElem hlt'⟩
      obtain ⟨ch, hch⟩ := hex
      rw [hch]
    rw [hstep]
    exact ⟨rfl, hnum1⟩

/-- Witness for C2 (amended): the behaviour at the concrete one-element
list of the c2ListW world with makeifneeded enabled and index 0. -/
theorem list_index_step_behaviour_witness :
    ((((0 : Int)) < 0 ∨ ((c2ListW.node 1).children.length : Int) < 0 →
      listStepInto c2ListW 0 true 0 = (none, c2ListW) ∧
      terminalListGet c2ListW 0 true 0 = (none, c2ListW)) ∧
    ((0 : Int) = ((c2ListW.node 1).children.length : Int) → true = false →
      listStepInto c2ListW 0 true 0 = (none, c2ListW) ∧
      terminalListGet c2ListW 0 true 0 = (none, c2ListW)) ∧
    ((0 : Int) ≤ 0 → (0 : Int) < ((c2ListW.node 1).children.length : Int) →
      terminalListGet c2ListW 0 true 0 =
        ((c2ListW.node 1).children.get? (0 : Int).toNat, c2ListW)) ∧
    ((0 : Int) = ((c2ListW.node 1).children.length : Int) → true = true →
      ∃ nid w1, createAndAddDefaultChild c2ListW 0 = (some nid, w1) ∧
        terminalListGet c2ListW 0 true 0 = (some nid, w1) ∧
        listNumChildren w1 0 = (c2ListW.node 1).children.length + 1) ∧
    ((0 : Int) ≤ 0 → (0 : Int) < ((c2ListW.node 1).children.length : Int) →
      (listStepInto c2ListW 0 true 0).1 =
        (c2ListW.node 1).children.get? (0 : Int).toNat ∧
      listNumChildren (listStepInto c2ListW 0 true 0).2 0 =
        (c2ListW.node 1).children.length + 1)) :=
  list_index_step_behaviour c2ListW 0 true 0 1 (by decide) (by decide) (by decide)

/-- C10: getPart applies the leaf and public checks only after resolution
(SoBaseKit.cpp 668-672 and 1640-1643): when findPart succeeds but the
resolved catalog entry is private or non-leaf, getPart returns NULL while
keeping exactly the world findPart produced — every part and ancestor
built during the resolution stays installed, as the source's own FIXME
about missing cleanup records (1676-1678). -/
theorem getPart_private_nonleaf_keeps_builds (w : World) (kit : Nat)
    (partname : List Char) (make : Bool)
    (hfound : (findPart w kit partname make true).found = true)
    (hpl : (((findPart w kit partname make true).w.catalogAt
              (findPart w kit partname make true).kit).entry
              (findPart w kit partname make true).partnum).isPublic = false ∨
           (((findPart w kit partname make true).w.catalogAt
              (findPart w kit partname make true).kit).entry
              (findPart w kit partname make true).partnum).isLeaf = false) :
    getPart w kit partname make = (none, (findPart w kit partname make true).w) := by
  unfold getPart getAnyPart
  dsimp only
  rw [if_pos hfound]
  rcases hpl with h | h
  · simp [h]
  · by_cases hpub : (((findPart w kit partname make true).w.catalogAt
        (findPart w kit partname make true).kit).entry
        (findPart w kit partname make true).partnum).isPublic = true
    · simp [hpub, h]
    · rw [Bool.not_eq_true] at hpub
      simp [hpub]

/-- Witness for C10: resolving the private part "c" of the empty c10W kit
with makeifneeded builds the previously unset ancestor "b" (node 2) and
the part itself (node 1), getPart returns NULL, and both stay installed in
the slot table and the scene graph of the world findPart left behind. -/
theorem getPart_private_nonleaf_keeps_builds_witness :
    (getPart c10W 0 ['c'] true =
      (none, (findPart c10W 0 ['c'] true true).w)) ∧
    ((findPart c10W 0 ['c'] true true).w.slot 0 1 = some 2 ∧
     (findPart c10W 0 ['c'] true true).w.slot 0 2 = some 1 ∧
     (findPart c10W 0 ['c'] true true).w.childrenOf 0 = [2] ∧
     (findPart c10W 0 ['c'] true true).w.childrenOf 2 = [1]) :=
  ⟨getPart_private_nonleaf_keeps_builds c10W 0 ['c'] true (by decide)
      (Or.inl (by decide)),
    by decide, by decide, by decide, by decide⟩

/-! Consumption lemmas for the block loop of SoBaseKit::set. -/

theorem skipSpaces_length (s : List Char) : (skipSpaces s).length ≤ s.length := by
  induction s with
  | nil => simp [skipSpaces]
  | cons c t ih =>
      unfold skipSpaces at ih ⊢
      rw [List.dropWhile_cons]
      split
      · exact Nat.le_trans ih (by simp)
      · exact Nat.le_refl _

theorem parseIntTok_length (s : List Char) (v : Int) (r : List Char)
    (h : parseIntTok s = some (v, r)) : r.length ≤ s.length := by
  unfold parseIntTok at h
  split at h
  · next rest =>
      dsimp only at h
      split at h
      · exact absurd h (by simp)
      · rw [Option.some.injEq, Prod.mk.injEq] at h
        obtain ⟨-, rfl⟩ := h
        simp only [List.length_drop, List.length_cons]
        omega
  · dsimp only at h
    split at h
    · exact absurd h (by simp)
    · rw [Option.some.injEq, Prod.mk.injEq] at h
      obtain ⟨-, rfl⟩ := h
      simp only [List.length_drop]
      omega

theorem readFieldsGo_length (fuel : Nat) : ∀ (w : World) (nid : Nat)
    (s : List Char), (readFieldsGo fuel w nid s).2.1.length ≤ s.length := by
  induction fuel with
  | zero => intro w nid s; simp [readFieldsGo]
  | succ n ih =>
      intro w nid s
      rw [readFieldsGo]
      have hs1 : (skipSpaces s).length ≤ s.length := skipSpaces_length s
      have hs2 : (skipSpaces ((skipSpaces s).drop
          (findPartnameLength (skipSpaces s)))).length ≤ s.length := by
        have := skipSpaces_length
          ((skipSpaces s).drop (findPartnameLength (skipSpaces s)))
        simp only [List.length_drop] at this
        omega
      dsimp only
      split
      · next h1 => rw [h1] at hs1 ⊢; exact hs1
      · next c t h1 => exact hs1
      · split
        · exact hs1
        · split
          · next h2 => exact hs2
          · next v s3 h2 =>
              have h3 : s3.length ≤ s.length := by
                have := parseIntTok_length _ _ _ h2
                omega
              split
              · exact h3
              · exact Nat.le_trans (ih _ _ s3) h3

theorem readFields_length (w : World) (nid : Nat) (s : List Char) :
    (readFields w nid s).2.1.length ≤ s.length :=
  readFieldsGo_length _ w nid s

theorem processBlock_ok_length (w : World) (kit : Nat) (s : List Char)
    (w1 : World) (rest : List Char)
    (h : processBlock w kit s = .ok w1 rest) : rest.length < s.length := by
  unfold processBlock at h
  dsimp only at h
  split at h
  · exact absurd h (by simp)
  · split at h
    · next afterBrace heq2 =>
        have hA : afterBrace.length < s.length := by
          have h1 := skipSpaces_length
            ((skipSpaces s).drop (findPartnameLength (skipSpaces s)))
          rw [heq2] at h1
          have h2 := skipSpaces_length s
          simp only [List.length_cons, List.length_drop] at h1
          omega
        split at h
        · exact absurd h (by simp)
        · split at h
          · exact absurd h (by simp)
          · next node0 hslot =>
              split at h
              · exact absurd h (by simp)
              · next nd w2 hnode =>
                  rcases hrf : readFields w2 nd afterBrace with ⟨ok, rem, w3⟩
                  rw [hrf] at h
                  have hrem : rem.length ≤ afterBrace.length := by
                    have := readFields_length w2 nd afterBrace
                    rw [hrf] at this
                    exact this
                  cases ok
                  · exact absurd h (by simp)
                  · dsimp only at h
                    rw [BlockRes.ok.injEq] at h
                    obtain ⟨-, hr⟩ := h
                    rw [← hr]
                    have hlen : (match rem with
                        | '\x7d' :: t2 => t2
                        | _ => rem).length ≤ rem.length := by
                      split
                      · simp only [List.length_cons]
                        omega
                      · exact Nat.le_refl _
                    omega
    · exact absurd h (by simp)

theorem setGo_false_stops (fuel : Nat) : ∀ (w : World) (kit : Nat)
    (s : List Char) (w' : World), s.length < fuel →
    setGo fuel w kit s = (false, w') → StopsAtFailure w kit s w' := by
  induction fuel with
  | zero => intro w kit s w' hlt _; omega
  | succ n ih =>
      intro w kit s w' hlt h
      rw [setGo] at h
      split at h
      · exact absurd h (by simp)
      · next w1 heq =>
          rw [Prod.mk.injEq] at h
          obtain ⟨-, rfl⟩ := h
          exact .here heq
      · next w1 rest heq =>
          refine .step heq (ih w1 kit rest w' ?_ h)
          have := processBlock_ok_length w kit s w1 rest heq
          omega

/-- C9: the structured-text SoBaseKit::set(namevaluepairliststring)
operation (SoBaseKit.cpp 816-893) stops at the first failing block and
keeps the effects of the blocks processed before it: whenever the call
returns FALSE, the final world results from successfully processing a
prefix of the blocks and then failing on the next one (missing opening
brace, unknown part name, list index out of bounds, or field-data parse
failure), with nothing rolled back.  Concretely, on the two-block input
whose second block names the unknown part "zz", the call fails while the
first block's assignment width = 5 to part "p" persists in the returned
world with the field and the part slot marked non-default. -/
theorem set_stops_at_first_failure :
    (∀ (w : World) (kit : Nat) (s : List Char) (w' : World),
        setNVPairs w kit s = (false, w') → StopsAtFailure w kit s w') ∧
    (setNVPairs c9W 0 c9Input).1 = false ∧
    ((setNVPairs c9W 0 c9Input).2.node 1).fields =
      [⟨"width", 5, false, false⟩] ∧
    (setNVPairs c9W 0 c9Input).2.isDefaultF 0 1 = false := by
  refine ⟨?_, by decide, by decide, by decide⟩
  intro w kit s w' h
  exact setGo_false_stops (s.length + 1) w kit s w' (Nat.lt_succ_self _) h

/-- Witness for C9: the stop property of the first conjunct applied at the
concrete failing two-block input. -/
theorem set_stops_at_first_failure_witness :
    StopsAtFailure c9W 0 c9Input (setNVPairs c9W 0 c9Input).2 := by
  have h1 : (setNVPairs c9W 0 c9Input).1 = false := by decide
  exact set_stops_at_first_failure.1 c9W 0 c9Input _ (by rw [← h1])

/-- C3: structural equivalence of the deep copy.  First conjunct: over chain
kits of EVERY nesting depth n, EVERY part-presence prefix k ≤ n (the
well-formed presence patterns of a chain catalog), EVERY assignment of the
saved part default flags and EVERY per-part field contents, copyContents into
the blank destination kit yields: slots populated exactly where the source's
are, saved default flags restored verbatim (SoBaseKit.cpp 1592-1599), every
installed part a fresh identity beyond the source heap, each part-of-part
resolved by position to the already-copied parent's child (copyParts pass
two, 2399-2420) rather than re-copied, field contents copied at every depth,
the source heap untouched, and the destination's children holding exactly the
copied top part.  Second conjunct: the same equivalence over the depth-3
family c3W with a leaf part, a list part and two list items, for every
combination of the six field/flag booleans (slots, flags, list child count,
fresh identities, container wiring, item contents, source untouched). -/
theorem kitCopyContents_deep_copy_equiv :
    (∀ (n k : Nat) (ds : Nat → Bool) (fs : Nat → List FieldV),
      1 ≤ n → k ≤ n →
      (∀ i, 1 ≤ i → i ≤ n →
        (((kitCopyContents (chainW n k ds fs) (k + 1) 0).slot (k + 1) i).isSome =
          ((chainW n k ds fs).slot 0 i).isSome)) ∧
      (∀ i, 1 ≤ i → i ≤ n →
        (kitCopyContents (chainW n k ds fs) (k + 1) 0).isDefaultF (k + 1) i =
          (chainW n k ds fs).isDefaultF 0 i) ∧
      (∀ i, 1 ≤ i → i ≤ k →
        (kitCopyContents (chainW n k ds fs) (k + 1) 0).slot (k + 1) i =
          some (k + 1 + i) ∧
        (chainW n k ds fs).heap.length ≤ k + 1 + i) ∧
      (∀ c, 1 ≤ c → c < k →
        (kitCopyContents (chainW n k ds fs) (k + 1) 0).childrenOf (k + 1 + c) =
          [k + 1 + (c + 1)] ∧
        (kitCopyContents (chainW n k ds fs) (k + 1) 0).slot (k + 1) (c + 1) =
          some (k + 1 + (c + 1))) ∧
      (∀ c, 1 ≤ c → c ≤ k →
        ((kitCopyContents (chainW n k ds fs) (k + 1) 0).node (k + 1 + c)).fields =
          ((chainW n k ds fs).node c).fields) ∧
      (∀ x, x ≤ k →
        (kitCopyContents (chainW n k ds fs) (k + 1) 0).node x =
          (chainW n k ds fs).node x) ∧
      (kitCopyContents (chainW n k ds fs) (k + 1) 0).childrenOf (k + 1) =
        (if k = 0 then [] else [k + 2])) ∧
    (∀ (dv d1 d2 d3 b1 b2 : Bool),
      ((((kitCopyContents (c3W 5 dv d1 d2 d3 1 b1 2 b2) 7 0).node 7).slots.map
          Option.isSome =
        (((c3W 5 dv d1 d2 d3 1 b1 2 b2).node 0).slots.map Option.isSome)) ∧
      ((kitCopyContents (c3W 5 dv d1 d2 d3 1 b1 2 b2) 7 0).node 7).defaults =
        ((c3W 5 dv d1 d2 d3 1 b1 2 b2).node 0).defaults ∧
      listNumChildren (kitCopyContents (c3W 5 dv d1 d2 d3 1 b1 2 b2) 7 0) 10 =
        listNumChildren (c3W 5 dv d1 d2 d3 1 b1 2 b2) 3 ∧
      (kitCopyContents (c3W 5 dv d1 d2 d3 1 b1 2 b2) 7 0).slot 7 1 = some 8 ∧
      (kitCopyContents (c3W 5 dv d1 d2 d3 1 b1 2 b2) 7 0).slot 7 2 = some 9 ∧
      (kitCopyContents (c3W 5 dv d1 d2 d3 1 b1 2 b2) 7 0).slot 7 3 = some 10 ∧
      ([8, 9, 10, 11, 12, 13].all
        (fun x => decide ((c3W 5 dv d1 d2 d3 1 b1 2 b2).heap.length ≤ x))) = true ∧
      (kitCopyContents (c3W 5 dv d1 d2 d3 1 b1 2 b2) 7 0).childrenOf 7 = [8] ∧
      (kitCopyContents (c3W 5 dv d1 d2 d3 1 b1 2 b2) 7 0).childrenOf 8 = [9, 10] ∧
      ((kitCopyContents (c3W 5 dv d1 d2 d3 1 b1 2 b2) 7 0).node 10).container =
        some 11 ∧
      (kitCopyContents (c3W 5 dv d1 d2 d3 1 b1 2 b2) 7 0).childrenOf 11 =
        [12, 13] ∧
      ((kitCopyContents (c3W 5 dv d1 d2 d3 1 b1 2 b2) 7 0).node 9).fields =
        ((c3W 5 dv d1 d2 d3 1 b1 2 b2).node 2).fields ∧
      ((kitCopyContents (c3W 5 dv d1 d2 d3 1 b1 2 b2) 7 0).node 12).fields =
        ((c3W 5 dv d1 d2 d3 1 b1 2 b2).node 5).fields ∧
      ((kitCopyContents (c3W 5 dv d1 d2 d3 1 b1 2 b2) 7 0).node 13).fields =
        ((c3W 5 dv d1 d2 d3 1 b1 2 b2).node 6).fields ∧
      (kitCopyContents (c3W 5 dv d1 d2 d3 1 b1 2 b2) 7 0).heap.take 7 =
        (c3W 5 dv d1 d2 d3 1 b1 2 b2).heap.take 7)) := by
  constructor
  · intro n k ds fs hn hk
    exact kitCopyContents_chain_equiv n k ds fs hn hk
  · decide

/-- Witness for C3: the universal chain conjunct applied at depth 2 with both
parts present, a concrete flag assignment and concrete field contents. -/
theorem kitCopyContents_deep_copy_equiv_witness :
    (kitCopyContents (chainW 2 2 chainDs0 chainFs0) (2 + 1) 0).slot (2 + 1) 2 =
      some (2 + 1 + 2) ∧
    (kitCopyContents (chainW 2 2 chainDs0 chainFs0) (2 + 1) 0).childrenOf
        (2 + 1 + 1) = [2 + 1 + (1 + 1)] ∧
    (kitCopyContents (chainW 2 2 chainDs0 chainFs0) (2 + 1) 0).childrenOf
        (2 + 1) = (if 2 = 0 then [] else [2 + 2]) :=
  ⟨((kitCopyContents_deep_copy_equiv.1 2 2 chainDs0 chainFs0 (by decide)
      (by decide)).2.2.1 2 (by decide) (by decide)).1,
   ((kitCopyContents_deep_copy_equiv.1 2 2 chainDs0 chainFs0 (by decide)
      (by decide)).2.2.2.1 1 (by decide) (by decide)).1,
   (kitCopyContents_deep_copy_equiv.1 2 2 chainDs0 chainFs0 (by decide)
      (by decide)).2.2.2.2.2.2⟩
end Coin
